import Mathlib

/-!
# Upbit SDK: request signing and request execution

A shallow embedding of `client.go` (the signer `generateToken` and the executor
`doRequest`), of the typed wrappers of `quotation.go` / `exchange.go` that the
properties below talk about, and of the library routines those functions call
(`url.Values.Encode`, `hex.EncodeToString`, `sha512.Sum512`, the HS256 compact
serialisation of `golang-jwt`, `json.Unmarshal`, `slices.Reverse`).

Conventions of the embedding.

* Go `string` and `[]byte` values that hold text are Lean `String`s, i.e. well-formed
  UTF-8; `utf8Bytes` gives the bytes of a string.  Raw byte strings (digests) are
  `List Nat` with every element below 256.
* A Go `map` is an association list read through `lookup`-style accessors; a `nil`
  map and an empty map are both `[]` (Go's `len` and `range` do not tell them apart).
* Values the code obtains from its environment (`uuid.New()`, `time.Now()`, the
  validation done by `http.NewRequest`) are fields of `Env`; the transport is the
  `Do` field of the client's `httpClient`.
* A Go `(T, error)` result is `Except Error T`.
-/

namespace Upbit

/-! ## Bytes, UTF-8 and hexadecimal -/

/-- The UTF-8 encoding of one Unicode scalar value, as a list of bytes. -/
def utf8EncodeChar (c : Char) : List Nat :=
  let n := c.toNat
  if n < 0x80 then [n]
  else if n < 0x800 then [0xC0 + n / 64, 0x80 + n % 64]
  else if n < 0x10000 then [0xE0 + n / 4096, 0x80 + (n / 64) % 64, 0x80 + n % 64]
  else [0xF0 + n / 262144, 0x80 + (n / 4096) % 64, 0x80 + (n / 64) % 64, 0x80 + n % 64]

/-- The bytes of a string: Go's `[]byte(s)`. -/
def utf8Bytes (s : String) : List Nat :=
  s.data.flatMap utf8EncodeChar

/-- The text made of the given ASCII bytes: Go's `string(b)` for ASCII output. -/
def asciiString (bs : List Nat) : String :=
  ⟨bs.map Char.ofNat⟩

/-- One lowercase hexadecimal digit (`hex.EncodeToString` uses `0123456789abcdef`). -/
def lowerHexDigit (n : Nat) : Char :=
  if n < 10 then Char.ofNat (48 + n) else Char.ofNat (87 + n)

/-- One uppercase hexadecimal digit (`url.QueryEscape` uses `0123456789ABCDEF`). -/
def upperHexDigit (n : Nat) : Char :=
  if n < 10 then Char.ofNat (48 + n) else Char.ofNat (55 + n)

/-- Go's `hex.EncodeToString`: two lowercase digits per byte. -/
def hexEncodeToString (bs : List Nat) : String :=
  ⟨bs.flatMap fun b => [lowerHexDigit (b / 16), lowerHexDigit (b % 16)]⟩

/-- Byte-wise lexicographic order on byte strings (Go's `<=` on strings). -/
def bytesLE : List Nat → List Nat → Bool
  | [], _ => true
  | _ :: _, [] => false
  | a :: as, b :: bs => if a < b then true else if b < a then false else bytesLE as bs

/-- Go's `a <= b` for strings. -/
def strLE (a b : String) : Prop := bytesLE (utf8Bytes a) (utf8Bytes b) = true

instance : DecidableRel strLE := fun a b => by unfold strLE; infer_instance

/-! ## `crypto/sha256`, `crypto/sha512`, `crypto/hmac` (FIPS 180-4, FIPS 198-1)

Words are natural numbers reduced modulo `2 ^ wordBits` after every addition. -/

/-- The parameters in which SHA-256 and SHA-512 differ. -/
structure ShaParams where
  /-- Word size in bits: 32 or 64. -/
  wordBits : Nat
  /-- Number of rounds: 64 or 80. -/
  rounds : Nat
  /-- Round constants. -/
  K : List Nat
  /-- Rotation amounts of the big sigma functions. -/
  bigSigma0 : Nat × Nat × Nat
  bigSigma1 : Nat × Nat × Nat
  /-- Two rotation amounts and a shift amount of the small sigma functions. -/
  smallSigma0 : Nat × Nat × Nat
  smallSigma1 : Nat × Nat × Nat

/-- The eight working variables / chaining values. -/
structure ShaState where
  a : Nat
  b : Nat
  c : Nat
  d : Nat
  e : Nat
  f : Nat
  g : Nat
  h : Nat

/-- Rotate the `w`-bit word `x` right by `n`. -/
def rotr (w x n : Nat) : Nat :=
  ((x >>> n) ||| (x <<< (w - n))) % 2 ^ w

/-- Big-endian value of a byte string. -/
def fromBytesBE (bs : List Nat) : Nat :=
  bs.foldl (fun acc b => acc * 256 + b) 0

/-- The `k` low-order bytes of `x`, most significant first. -/
def toBytesBE (k x : Nat) : List Nat :=
  (List.range k).map fun i => (x / 256 ^ (k - 1 - i)) % 256

namespace ShaParams

/-- Block size in bytes: sixteen words. -/
def blockBytes (P : ShaParams) : Nat := 2 * P.wordBits

/-- Word size in bytes. -/
def wordBytes (P : ShaParams) : Nat := P.wordBits / 8

def Sigma0 (P : ShaParams) (x : Nat) : Nat :=
  rotr P.wordBits x P.bigSigma0.1 ^^^ rotr P.wordBits x P.bigSigma0.2.1 ^^^
    rotr P.wordBits x P.bigSigma0.2.2

def Sigma1 (P : ShaParams) (x : Nat) : Nat :=
  rotr P.wordBits x P.bigSigma1.1 ^^^ rotr P.wordBits x P.bigSigma1.2.1 ^^^
    rotr P.wordBits x P.bigSigma1.2.2

def sigma0 (P : ShaParams) (x : Nat) : Nat :=
  rotr P.wordBits x P.smallSigma0.1 ^^^ rotr P.wordBits x P.smallSigma0.2.1 ^^^
    (x >>> P.smallSigma0.2.2)

def sigma1 (P : ShaParams) (x : Nat) : Nat :=
  rotr P.wordBits x P.smallSigma1.1 ^^^ rotr P.wordBits x P.smallSigma1.2.1 ^^^
    (x >>> P.smallSigma1.2.2)

def Ch (P : ShaParams) (x y z : Nat) : Nat :=
  (x &&& y) ^^^ (((2 ^ P.wordBits - 1) ^^^ x) &&& z)

def Maj (x y z : Nat) : Nat :=
  (x &&& y) ^^^ (x &&& z) ^^^ (y &&& z)

/-- Append the bit `1`, zero bytes and the message length in bits, up to a whole
number of blocks. -/
def pad (P : ShaParams) (msg : List Nat) : List Nat :=
  let lenBytes := P.wordBits / 4
  let zeros := (P.blockBytes - (msg.length + 1 + lenBytes) % P.blockBytes) % P.blockBytes
  msg ++ [0x80] ++ List.replicate zeros 0 ++ toBytesBE lenBytes (8 * msg.length)

/-- The message schedule of one block. -/
def schedule (P : ShaParams) (block : List Nat) : List Nat :=
  let w16 := (block.toChunks P.wordBytes).map fromBytesBE
  (List.range (P.rounds - 16)).foldl (fun ws i =>
    let t := i + 16
    ws ++ [(P.sigma1 (ws.getD (t - 2) 0) + ws.getD (t - 7) 0 +
            P.sigma0 (ws.getD (t - 15) 0) + ws.getD (t - 16) 0) % 2 ^ P.wordBits]) w16

/-- One round of the compression function, with round constant and schedule word. -/
def round (P : ShaParams) (s : ShaState) (kw : Nat × Nat) : ShaState :=
  let m := 2 ^ P.wordBits
  let t1 := (s.h + P.Sigma1 s.e + P.Ch s.e s.f s.g + kw.1 + kw.2) % m
  let t2 := (P.Sigma0 s.a + Maj s.a s.b s.c) % m
  { a := (t1 + t2) % m, b := s.a, c := s.b, d := s.c,
    e := (s.d + t1) % m, f := s.e, g := s.f, h := s.g }

/-- The compression function: all rounds on one block, then the feed-forward sum. -/
def compress (P : ShaParams) (s : ShaState) (block : List Nat) : ShaState :=
  let m := 2 ^ P.wordBits
  let r := (P.K.zip (P.schedule block)).foldl P.round s
  { a := (s.a + r.a) % m, b := (s.b + r.b) % m, c := (s.c + r.c) % m, d := (s.d + r.d) % m,
    e := (s.e + r.e) % m, f := (s.f + r.f) % m, g := (s.g + r.g) % m, h := (s.h + r.h) % m }

/-- The digest bytes of a final state. -/
def output (P : ShaParams) (s : ShaState) : List Nat :=
  toBytesBE P.wordBytes s.a ++ toBytesBE P.wordBytes s.b ++ toBytesBE P.wordBytes s.c ++
  toBytesBE P.wordBytes s.d ++ toBytesBE P.wordBytes s.e ++ toBytesBE P.wordBytes s.f ++
  toBytesBE P.wordBytes s.g ++ toBytesBE P.wordBytes s.h

/-- The hash of a message from the initial state `h0`. -/
def sum (P : ShaParams) (h0 : ShaState) (msg : List Nat) : List Nat :=
  P.output (((P.pad msg).toChunks P.blockBytes).foldl P.compress h0)

end ShaParams

def sha256Params : ShaParams where
  wordBits := 32
  rounds := 64
  K := [
   0x428a2f98, 0x71374491, 0xb5c0fbcf, 0xe9b5dba5, 0x3956c25b, 0x59f111f1, 0x923f82a4, 0xab1c5ed5,
   0xd807aa98, 0x12835b01, 0x243185be, 0x550c7dc3, 0x72be5d74, 0x80deb1fe, 0x9bdc06a7, 0xc19bf174,
   0xe49b69c1, 0xefbe4786, 0x0fc19dc6, 0x240ca1cc, 0x2de92c6f, 0x4a7484aa, 0x5cb0a9dc, 0x76f988da,
   0x983e5152, 0xa831c66d, 0xb00327c8, 0xbf597fc7, 0xc6e00bf3, 0xd5a79147, 0x06ca6351, 0x14292967,
   0x27b70a85, 0x2e1b2138, 0x4d2c6dfc, 0x53380d13, 0x650a7354, 0x766a0abb, 0x81c2c92e, 0x92722c85,
   0xa2bfe8a1, 0xa81a664b, 0xc24b8b70, 0xc76c51a3, 0xd192e819, 0xd6990624, 0xf40e3585, 0x106aa070,
   0x19a4c116, 0x1e376c08, 0x2748774c, 0x34b0bcb5, 0x391c0cb3, 0x4ed8aa4a, 0x5b9cca4f, 0x682e6ff3,
   0x748f82ee, 0x78a5636f, 0x84c87814, 0x8cc70208, 0x90befffa, 0xa4506ceb, 0xbef9a3f7, 0xc67178f2]
  bigSigma0 := (2, 13, 22)
  bigSigma1 := (6, 11, 25)
  smallSigma0 := (7, 18, 3)
  smallSigma1 := (17, 19, 10)

def sha256Init : ShaState :=
  { a := 0x6a09e667, b := 0xbb67ae85, c := 0x3c6ef372, d := 0xa54ff53a,
    e := 0x510e527f, f := 0x9b05688c, g := 0x1f83d9ab, h := 0x5be0cd19 }

def sha512Params : ShaParams where
  wordBits := 64
  rounds := 80
  K := [
   0x428a2f98d728ae22, 0x7137449123ef65cd, 0xb5c0fbcfec4d3b2f, 0xe9b5dba58189dbbc,
   0x3956c25bf348b538, 0x59f111f1b605d019, 0x923f82a4af194f9b, 0xab1c5ed5da6d8118,
   0xd807aa98a3030242, 0x12835b0145706fbe, 0x243185be4ee4b28c, 0x550c7dc3d5ffb4e2,
   0x72be5d74f27b896f, 0x80deb1fe3b1696b1, 0x9bdc06a725c71235, 0xc19bf174cf692694,
   0xe49b69c19ef14ad2, 0xefbe4786384f25e3, 0x0fc19dc68b8cd5b5, 0x240ca1cc77ac9c65,
   0x2de92c6f592b0275, 0x4a7484aa6ea6e483, 0x5cb0a9dcbd41fbd4, 0x76f988da831153b5,
   0x983e5152ee66dfab, 0xa831c66d2db43210, 0xb00327c898fb213f, 0xbf597fc7beef0ee4,
   0xc6e00bf33da88fc2, 0xd5a79147930aa725, 0x06ca6351e003826f, 0x142929670a0e6e70,
   0x27b70a8546d22ffc, 0x2e1b21385c26c926, 0x4d2c6dfc5ac42aed, 0x53380d139d95b3df,
   0x650a73548baf63de, 0x766a0abb3c77b2a8, 0x81c2c92e47edaee6, 0x92722c851482353b,
   0xa2bfe8a14cf10364, 0xa81a664bbc423001, 0xc24b8b70d0f89791, 0xc76c51a30654be30,
   0xd192e819d6ef5218, 0xd69906245565a910, 0xf40e35855771202a, 0x106aa07032bbd1b8,
   0x19a4c116b8d2d0c8, 0x1e376c085141ab53, 0x2748774cdf8eeb99, 0x34b0bcb5e19b48a8,
   0x391c0cb3c5c95a63, 0x4ed8aa4ae3418acb, 0x5b9cca4f7763e373, 0x682e6ff3d6b2b8a3,
   0x748f82ee5defb2fc, 0x78a5636f43172f60, 0x84c87814a1f0ab72, 0x8cc702081a6439ec,
   0x90befffa23631e28, 0xa4506cebde82bde9, 0xbef9a3f7b2c67915, 0xc67178f2e372532b,
   0xca273eceea26619c, 0xd186b8c721c0c207, 0xeada7dd6cde0eb1e, 0xf57d4f7fee6ed178,
   0x06f067aa72176fba, 0x0a637dc5a2c898a6, 0x113f9804bef90dae, 0x1b710b35131c471b,
   0x28db77f523047d84, 0x32caab7b40c72493, 0x3c9ebe0a15c9bebc, 0x431d67c49c100d4c,
   0x4cc5d4becb3e42b6, 0x597f299cfc657e2a, 0x5fcb6fab3ad6faec, 0x6c44198c4a475817]
  bigSigma0 := (28, 34, 39)
  bigSigma1 := (14, 18, 41)
  smallSigma0 := (1, 8, 7)
  smallSigma1 := (19, 61, 6)

def sha512Init : ShaState :=
  { a := 0x6a09e667f3bcc908, b := 0xbb67ae8584caa73b, c := 0x3c6ef372fe94f82b,
    d := 0xa54ff53a5f1d36f1, e := 0x510e527fade682d1, f := 0x9b05688c2b3e6c1f,
    g := 0x1f83d9abfb41bd6b, h := 0x5be0cd19137e2179 }

/-- Go's `sha256.Sum256`: 32 bytes. -/
def sha256Sum256 (msg : List Nat) : List Nat :=
  sha256Params.sum sha256Init msg

/-- Go's `sha512.Sum512`: 64 bytes. -/
def sha512Sum512 (msg : List Nat) : List Nat :=
  sha512Params.sum sha512Init msg

/-- HMAC-SHA256 (`hmac.New(sha256.New, key)`, `Write(msg)`, `Sum(nil)`). -/
def hmacSHA256 (key msg : List Nat) : List Nat :=
  let k0 := if key.length > 64 then sha256Sum256 key else key
  let k := k0 ++ List.replicate (64 - k0.length) 0
  sha256Sum256 (k.map (· ^^^ 0x5c) ++ sha256Sum256 (k.map (· ^^^ 0x36) ++ msg))

/-! ## `encoding/base64`: `RawURLEncoding` -/

/-- The URL-safe alphabet: `A-Z`, `a-z`, `0-9`, `-`, `_`. -/
def base64URLChar (n : Nat) : Char :=
  if n < 26 then Char.ofNat (65 + n)
  else if n < 52 then Char.ofNat (71 + n)
  else if n < 62 then Char.ofNat (n - 4)
  else if n = 62 then '-'
  else '_'

/-- Unpadded base64url of a byte string, three bytes to four characters. -/
def base64URLChars : List Nat → List Char
  | [] => []
  | [a] => [base64URLChar (a / 4), base64URLChar (a % 4 * 16)]
  | [a, b] =>
      [base64URLChar (a / 4), base64URLChar (a % 4 * 16 + b / 16), base64URLChar (b % 16 * 4)]
  | a :: b :: c :: rest =>
      base64URLChar (a / 4) :: base64URLChar (a % 4 * 16 + b / 16) ::
      base64URLChar (b % 16 * 4 + c / 64) :: base64URLChar (c % 64) :: base64URLChars rest

/-- Go's `base64.RawURLEncoding.EncodeToString`. -/
def base64RawURLEncode (bs : List Nat) : String :=
  ⟨base64URLChars bs⟩

/-- Membership in the URL-safe base64 alphabet. -/
def base64URLAlphabet (c : Char) : Bool :=
  ('A' ≤ c && c ≤ 'Z') || ('a' ≤ c && c ≤ 'z') || ('0' ≤ c && c ≤ '9') || c == '-' || c == '_'

/-! ## `net/url`: `Values` and its canonical encoding -/

/-- Bytes that `url.QueryEscape` leaves alone: ASCII letters, digits and `-_.~`. -/
def unreservedByte (b : Nat) : Bool :=
  (97 ≤ b && b ≤ 122) || (65 ≤ b && b ≤ 90) || (48 ≤ b && b ≤ 57) ||
  b == 45 || b == 95 || b == 46 || b == 126

/-- The escape of one byte in query-component mode. -/
def escapeByte (b : Nat) : List Char :=
  if unreservedByte b then [Char.ofNat b]
  else if b = 32 then ['+']
  else ['%', upperHexDigit (b / 16), upperHexDigit (b % 16)]

/-- Go's `url.QueryEscape`. -/
def QueryEscape (s : String) : String :=
  ⟨(utf8Bytes s).flatMap escapeByte⟩

/-- Go's `url.Values` (`map[string][]string`) as an association list: the first
binding of a key is the one the map holds. -/
abbrev Values := List (String × List String)

namespace Values

/-- The map's value at `key` (Go's `v[key]`, `nil` when absent). -/
def lookup (v : Values) (key : String) : List String :=
  match v.find? (fun kv => kv.1 == key) with
  | some kv => kv.2
  | none => []

/-- The keys of the map, each once. -/
def keys (v : Values) : List String :=
  (v.map Prod.fst).dedup

/-- Go's `len(v)`: the number of keys. -/
def len (v : Values) : Nat :=
  (keys v).length

/-- Go's `v.Set(key, value)`: `v[key] = []string{value}`. -/
def Set (v : Values) (key value : String) : Values :=
  if v.any (fun kv => kv.1 == key) then
    v.map fun kv => if kv.1 == key then (key, [value]) else kv
  else v ++ [(key, [value])]

/-- Go's `v.Add(key, value)`: `v[key] = append(v[key], value)`. -/
def Add (v : Values) (key value : String) : Values :=
  if v.any (fun kv => kv.1 == key) then
    v.map fun kv => if kv.1 == key then (key, lookup v key ++ [value]) else kv
  else v ++ [(key, [value])]

/-- The keys in ascending byte order (`slices.Sort(keys)` in `Encode`). -/
def sortedKeys (v : Values) : List String :=
  (keys v).insertionSort strLE

/-- The inner loop of `Encode`: write one `key=value` pair, preceded by `&` when the
buffer already holds something. -/
def encodePair (keyEscaped : String) (buf : String) (value : String) : String :=
  let buf := if buf.length > 0 then buf ++ "&" else buf
  buf ++ keyEscaped ++ "=" ++ QueryEscape value

/-- Go's `url.Values.Encode`: the pairs `key=value`, keys sorted, the values of one
key in their stored order, both escaped, joined by `&`. -/
def Encode (v : Values) : String :=
  if len v = 0 then ""
  else (sortedKeys v).foldl (fun buf k => (lookup v k).foldl (encodePair (QueryEscape k)) buf) ""

end Values

/-! ## `errors.go` and Go's `error` values -/

/-- `ErrorDetail` of `errors.go`. -/
structure ErrorDetail where
  Name : String
  Message : String
  deriving DecidableEq, Repr

/-- `APIError` of `errors.go`. -/
structure APIError where
  Err : ErrorDetail
  deriving DecidableEq, Repr

/-- The `error` values that reach a caller of this package: a `*APIError`, an error
built by `fmt.Errorf` with `%w` around another error, or an error that carries only
text (built by `fmt.Errorf` without `%w`, or returned by a library). -/
inductive Error where
  | api (e : APIError)
  | wrap (msg : String) (cause : Error)
  | text (msg : String)
  deriving DecidableEq, Repr

namespace Error

/-- The `Error()` method: `APIError.Error` of `errors.go`, and the text `fmt.Errorf`
produces. -/
def message : Error → String
  | api e => "upbit API error: " ++ e.Err.Name ++ " - " ++ e.Err.Message
  | wrap msg cause => msg ++ cause.message
  | text msg => msg

/-- The type assertion `err.(*APIError)`: it succeeds only on a `*APIError` itself. -/
def asAPIError : Error → Option APIError
  | api e => some e
  | _ => none

end Error

deriving instance DecidableEq for Except

/-! ## `net/http`: requests, responses, the client -/

/-- Go's `http.Header`, holding the keys in the canonical form in which `doRequest`
writes them (`Accept`, `Content-Type`, `Authorization`). -/
abbrev Header := List (String × List String)

namespace Header

/-- Go's `h.Set(key, value)`: the key now holds exactly `value`. -/
def Set (h : Header) (key value : String) : Header :=
  if h.any (fun kv => kv.1 == key) then
    h.map fun kv => if kv.1 == key then (key, [value]) else kv
  else h ++ [(key, [value])]

/-- The values of the map at `key` (Go's `h[key]`, `nil` when absent). -/
def Values (h : Header) (key : String) : List String :=
  match h.find? (fun kv => kv.1 == key) with
  | some kv => kv.2
  | none => []

/-- Go's `h.Get(key)`: the first value, or the empty string. -/
def Get (h : Header) (key : String) : String :=
  (Values h key).headD ""

end Header

/-- What `http.NewRequest` is given and what `doRequest` then sets on the request:
method, URL text, body (`none` for a nil reader) and headers. -/
structure Request where
  Method : String
  URL : String
  Body : Option String
  Header : Header
  deriving DecidableEq, Repr

/-- What `doRequest` reads of an `http.Response`: the status code and the outcome of
`io.ReadAll(resp.Body)`. -/
structure Response where
  StatusCode : Int
  Body : Except Error String

/-- Go's `http.Client` as far as this package uses it: the `Timeout` field (a
`time.Duration`, in nanoseconds) and the method `Do`. -/
structure HTTPClient where
  Timeout : Int
  Do : Request → Except Error Response

/-- `Client` of `client.go`. -/
structure Client where
  accessKey : String
  secretKey : String
  httpClient : HTTPClient
  baseURL : String

/-- What one call reads from outside the program. -/
structure Env where
  /-- The result of `uuid.New().String()`. -/
  newUUID : String
  /-- The result of `time.Now().UnixMilli()`. -/
  nowUnixMilli : Int
  /-- The error with which `http.NewRequest` rejects a method and URL (an invalid
  method token, a URL that does not parse), `none` when it accepts them. -/
  newRequestError : String → String → Option Error

def MethodGet : String := "GET"
def MethodPost : String := "POST"
def MethodDelete : String := "DELETE"

/-- Go's `http.NewRequest(method, url, body)`: an empty method means `GET`. -/
def NewRequest (env : Env) (method url : String) (body : Option String) :
    Except Error Request :=
  match env.newRequestError method url with
  | some err => .error err
  | none =>
      .ok { Method := if method = "" then MethodGet else method,
            URL := url, Body := body, Header := [] }

/-! ## `golang-jwt`: claims and the HS256 compact serialisation -/

/-- The values `generateToken` stores in its claims: strings and an `int64`. -/
inductive ClaimValue where
  | str (s : String)
  | int (i : Int)
  deriving DecidableEq, Repr

/-- Go's `jwt.MapClaims` (`map[string]interface{}`). -/
abbrev MapClaims := List (String × ClaimValue)

namespace MapClaims

/-- The assignment `claims[key] = value`. -/
def set (m : MapClaims) (key : String) (value : ClaimValue) : MapClaims :=
  if m.any (fun kv => kv.1 == key) then
    m.map fun kv => if kv.1 == key then (key, value) else kv
  else m ++ [(key, value)]

/-- The value `claims[key]`, if the key is present. -/
def get (m : MapClaims) (key : String) : Option ClaimValue :=
  (m.find? (fun kv => kv.1 == key)).map Prod.snd

/-- The keys of the map, each once. -/
def keys (m : MapClaims) : List String :=
  (m.map Prod.fst).dedup

end MapClaims

/-- The escape of one character inside a JSON string written by `json.Marshal`
(HTML-safe mode, Go 1.22 and later): `"` and `\` get a backslash, control characters,
`<`, `>`, `&`, U+2028 and U+2029 become `\uXXXX`, except the short forms
`\b \f \n \r \t`. -/
def jsonEscapeChar (c : Char) : List Char :=
  let n := c.toNat
  if c = '"' ∨ c = '\\' then ['\\', c]
  else if n = 8 then ['\\', 'b']
  else if n = 12 then ['\\', 'f']
  else if n = 10 then ['\\', 'n']
  else if n = 13 then ['\\', 'r']
  else if n = 9 then ['\\', 't']
  else if n < 0x20 ∨ c = '<' ∨ c = '>' ∨ c = '&' then
    ['\\', 'u', '0', '0', lowerHexDigit (n / 16), lowerHexDigit (n % 16)]
  else if n = 0x2028 ∨ n = 0x2029 then
    ['\\', 'u', '2', '0', '2', lowerHexDigit (n % 16)]
  else [c]

/-- The characters of a string, each escaped as `json.Marshal` escapes it. -/
def escapeChars (s : List Char) : List Char :=
  s.flatMap jsonEscapeChar

/-- A JSON string literal as `json.Marshal` writes it. -/
def jsonQuote (s : String) : String :=
  ⟨'"' :: escapeChars s.data ++ ['"']⟩

/-- One claim value as `json.Marshal` writes it. -/
def jsonMarshalValue : ClaimValue → String
  | .str s => jsonQuote s
  | .int i => toString i

/-- Go's `json.Marshal` of a `map[string]interface{}` with string and integer values:
the members in ascending key order, without spaces. -/
def jsonMarshalMap (m : MapClaims) : String :=
  "\x7b" ++ ",".intercalate (((MapClaims.keys m).insertionSort strLE).map fun k =>
      jsonQuote k ++ ":" ++ ((MapClaims.get m k).map jsonMarshalValue).getD "null") ++ "\x7d"

/-- The header `jwt.NewWithClaims(jwt.SigningMethodHS256, _)` gives a token. -/
def jwtHeader : MapClaims :=
  [("typ", .str "JWT"), ("alg", .str "HS256")]

/-- `Token.SigningString`: the base64url of the header JSON, a dot, the base64url of
the claims JSON. -/
def SigningString (claims : MapClaims) : String :=
  base64RawURLEncode (utf8Bytes (jsonMarshalMap jwtHeader)) ++ "." ++
    base64RawURLEncode (utf8Bytes (jsonMarshalMap claims))

/-- `Token.SignedString(key)` for HS256 and a `[]byte` key: the signing string, a dot,
the base64url of its HMAC-SHA256 under the key.  With these inputs neither
`json.Marshal` nor `SigningMethodHMAC.Sign` has an error to return. -/
def SignedString (claims : MapClaims) (key : List Nat) : Except Error String :=
  let sstr := SigningString claims
  .ok (sstr ++ "." ++ base64RawURLEncode (hmacSHA256 key (utf8Bytes sstr)))

/-! ## `client.go`: the signer -/

/-- The claim set `generateToken` assembles (lines 56-67). -/
def generateTokenClaims (c : Client) (env : Env) (queryParams : Values) : MapClaims :=
  let claims : MapClaims :=
    [("access_key", .str c.accessKey),
     ("nonce", .str env.newUUID),
     ("timestamp", .int env.nowUnixMilli)]
  if Values.len queryParams > 0 then
    let queryString := Values.Encode queryParams
    let hash := sha512Sum512 (utf8Bytes queryString)
    let claims := claims.set "query_hash" (.str (hexEncodeToString hash))
    claims.set "query_hash_alg" (.str "SHA512")
  else claims

/-- `generateToken` of `client.go`: sign the claim set with the secret key. -/
def generateToken (c : Client) (env : Env) (queryParams : Values) : Except Error String :=
  SignedString (generateTokenClaims c env queryParams) (utf8Bytes c.secretKey)

/-! ## `encoding/json`: reading

`json.Unmarshal` first runs its scanner over the whole input (`checkValid`) and then
decodes.  The scanner here is that state machine, one step per character, with the
stack of open containers (`parseState`) also holding the values read so far, so that
one pass yields the parsed document. -/

/-- A JSON document.  Numbers keep their literal text. -/
inductive JSON where
  | null
  | bool (b : Bool)
  | num (lit : String)
  | str (s : String)
  | arr (elems : List JSON)
  | obj (members : List (String × JSON))
  deriving Repr

/-- An open container: an entry of the scanner's `parseState` stack (`parseObjectKey`,
`parseObjectValue`, `parseArrayValue`) with what has been read of it. -/
inductive Frame where
  | objectKey (members : List (String × JSON)) (key : Option String)
  | objectValue (members : List (String × JSON)) (key : Option String)
  | arrayValue (elems : List JSON)
  deriving Repr

/-- The scanner's current step function; string and number steps carry the literal
text read so far. -/
inductive Step where
  | beginValue
  | beginValueOrEmpty
  | beginStringOrEmpty
  | beginString
  | endValue
  | endTop
  | inString (raw : List Char)
  | inStringEsc (raw : List Char)
  | inStringEscU (raw : List Char) (seen : Nat)
  | neg (raw : List Char)
  | int1 (raw : List Char)
  | int0 (raw : List Char)
  | dot (raw : List Char)
  | dot0 (raw : List Char)
  | exp (raw : List Char)
  | expSign (raw : List Char)
  | exp0 (raw : List Char)
  | literal (rest : List Char) (value : JSON)
  | error
  deriving Repr

/-- The scanner: step function, stack of open containers, and the top-level value
once it is complete. -/
structure Scanner where
  step : Step
  parseState : List Frame
  top : Option JSON
  deriving Repr

/-- Go's `maxNestingDepth`. -/
def maxNestingDepth : Nat := 10000

def isSpace (c : Char) : Bool :=
  c == ' ' || c == '\t' || c == '\r' || c == '\n'

def isDigit (c : Char) : Bool :=
  '0' ≤ c && c ≤ '9'

def isHexDigit (c : Char) : Bool :=
  ('0' ≤ c && c ≤ '9') || ('a' ≤ c && c ≤ 'f') || ('A' ≤ c && c ≤ 'F')

/-- The value of a hexadecimal digit. -/
def hexValue (c : Char) : Nat :=
  if '0' ≤ c ∧ c ≤ '9' then c.toNat - 48
  else if 'a' ≤ c ∧ c ≤ 'f' then c.toNat - 87
  else c.toNat - 55

/-- What a high surrogate that found no partner leaves behind: U+FFFD. -/
def flushSurrogate (pending : Option Nat) : List Char :=
  match pending with
  | some _ => [Char.ofNat 0xFFFD]
  | none => []

/-- Where `unquote` is inside a string literal: between escapes, after a backslash,
or inside `\uXXXX` with the value and the number of the digits read. -/
inductive EscapeMode where
  | plain
  | backslash
  | hex (acc : Nat) (seen : Nat)
  deriving Repr

/-- The state of `unquote`, reading a literal left to right: the characters produced,
a high surrogate named by the escape just read, and the escape mode. -/
structure Unquote where
  out : List Char
  pending : Option Nat
  mode : EscapeMode
  deriving Repr

namespace Unquote

/-- A complete `\uXXXX` with value `rr`: a high surrogate waits for its partner, a
low surrogate joins a waiting high one, a surrogate without partner becomes U+FFFD
(`utf16.DecodeRune`). -/
def codeUnit (u : Unquote) (rr : Nat) : Unquote :=
  match u.pending with
  | some hi =>
      if 0xDC00 ≤ rr ∧ rr < 0xE000 then
        { out := u.out ++ [Char.ofNat ((hi - 0xD800) * 1024 + (rr - 0xDC00) + 0x10000)],
          pending := none, mode := .plain }
      else if 0xD800 ≤ rr ∧ rr < 0xDC00 then
        { out := u.out ++ [Char.ofNat 0xFFFD], pending := some rr, mode := .plain }
      else
        { out := u.out ++ [Char.ofNat 0xFFFD, Char.ofNat rr], pending := none, mode := .plain }
  | none =>
      if 0xD800 ≤ rr ∧ rr < 0xDC00 then
        { out := u.out, pending := some rr, mode := .plain }
      else if 0xDC00 ≤ rr ∧ rr < 0xE000 then
        { out := u.out ++ [Char.ofNat 0xFFFD], pending := none, mode := .plain }
      else { out := u.out ++ [Char.ofNat rr], pending := none, mode := .plain }

/-- One character of the literal. -/
def next (u : Unquote) (c : Char) : Unquote :=
  match u.mode with
  | .plain =>
      if c = '\\' then { u with mode := .backslash }
      else { out := u.out ++ flushSurrogate u.pending ++ [c], pending := none, mode := .plain }
  | .backslash =>
      if c = 'u' then { u with mode := .hex 0 0 }
      else
        let d :=
          if c = 'b' then Char.ofNat 8
          else if c = 'f' then Char.ofNat 12
          else if c = 'n' then Char.ofNat 10
          else if c = 'r' then Char.ofNat 13
          else if c = 't' then Char.ofNat 9
          else c
        { out := u.out ++ flushSurrogate u.pending ++ [d], pending := none, mode := .plain }
  | .hex acc seen =>
      if seen < 3 then { u with mode := .hex (acc * 16 + hexValue c) (seen + 1) }
      else u.codeUnit (acc * 16 + hexValue c)

end Unquote

/-- Go's `unquote` on the text between the quotes of a literal the scanner accepted:
the characters with the escapes resolved. -/
def unquoteChars (raw : List Char) : List Char :=
  let u := raw.foldl Unquote.next { out := [], pending := none, mode := .plain }
  u.out ++ flushSurrogate u.pending

namespace Scanner

/-- The scanner before the first character (`reset`). -/
def init : Scanner :=
  { step := .beginValue, parseState := [], top := none }

/-- The scanner after an error: it stays there. -/
def fail (s : Scanner) : Scanner :=
  { s with step := .error }

/-- Go's `pushParseState`: open a container, unless that exceeds the nesting limit. -/
def push (s : Scanner) (frame : Frame) (next : Step) : Scanner :=
  if s.parseState.length + 1 ≤ maxNestingDepth then
    { s with step := next, parseState := frame :: s.parseState }
  else s.fail

/-- A value is complete: hand it to the innermost open container, or make it the
document when there is none. -/
def emit (s : Scanner) (v : JSON) : Scanner :=
  match s.parseState with
  | [] => { s with step := .endTop, top := some v }
  | .arrayValue elems :: ps =>
      { s with step := .endValue, parseState := .arrayValue (elems ++ [v]) :: ps }
  | .objectKey members _ :: ps =>
      match v with
      | .str k => { s with step := .endValue, parseState := .objectKey members (some k) :: ps }
      | _ => s.fail
  | .objectValue members (some k) :: ps =>
      { s with step := .endValue, parseState := .objectValue (members ++ [(k, v)]) none :: ps }
  | .objectValue _ none :: _ => s.fail

/-- Go's `stateEndValue` and `stateEndTop`: after a value. -/
def stepEndValue (s : Scanner) (c : Char) : Scanner :=
  match s.step with
  | .endTop => if isSpace c then s else s.fail
  | .endValue =>
    if isSpace c then s
    else
      match s.parseState with
      | .objectKey members (some k) :: ps =>
          if c = ':' then
            { s with step := .beginValue, parseState := .objectValue members (some k) :: ps }
          else s.fail
      | .objectValue members none :: ps =>
          if c = ',' then
            { s with step := .beginString, parseState := .objectKey members none :: ps }
          else if c = '}' then emit { s with parseState := ps } (.obj members)
          else s.fail
      | .arrayValue elems :: ps =>
          if c = ',' then { s with step := .beginValue }
          else if c = ']' then emit { s with parseState := ps } (.arr elems)
          else s.fail
      | _ => s.fail
  | _ => s.fail

/-- Go's `stateBeginValue`. -/
def stepBeginValue (s : Scanner) (c : Char) : Scanner :=
  if isSpace c then s
  else if c = '{' then s.push (.objectKey [] none) .beginStringOrEmpty
  else if c = '[' then s.push (.arrayValue []) .beginValueOrEmpty
  else if c = '"' then { s with step := .inString [] }
  else if c = '-' then { s with step := .neg [c] }
  else if c = '0' then { s with step := .int0 [c] }
  else if c = 't' then { s with step := .literal ['r', 'u', 'e'] (.bool true) }
  else if c = 'f' then { s with step := .literal ['a', 'l', 's', 'e'] (.bool false) }
  else if c = 'n' then { s with step := .literal ['u', 'l', 'l'] .null }
  else if '1' ≤ c ∧ c ≤ '9' then { s with step := .int1 [c] }
  else s.fail

/-- Go's `stateBeginString`. -/
def stepBeginString (s : Scanner) (c : Char) : Scanner :=
  if isSpace c then s
  else if c = '"' then { s with step := .inString [] }
  else s.fail

/-- A number literal ends before `c`: complete it and let `stateEndValue` see `c`. -/
def endNumber (s : Scanner) (raw : List Char) (c : Char) : Scanner :=
  stepEndValue (s.emit (.num ⟨raw⟩)) c

/-- Go's `state0`: after the integer part. -/
def stepInt0 (s : Scanner) (raw : List Char) (c : Char) : Scanner :=
  if c = '.' then { s with step := .dot (raw ++ [c]) }
  else if c = 'e' ∨ c = 'E' then { s with step := .exp (raw ++ [c]) }
  else endNumber s raw c

/-- Go's `stateESign`: after `e` and an optional sign. -/
def stepExpSign (s : Scanner) (raw : List Char) (c : Char) : Scanner :=
  if isDigit c then { s with step := .exp0 (raw ++ [c]) } else s.fail

/-- One step of the scanner on the character `c`. -/
def next (s : Scanner) (c : Char) : Scanner :=
  match s.step with
  | .error => s
  | .beginValue => stepBeginValue s c
  | .beginValueOrEmpty =>
      if isSpace c then s
      else if c = ']' then stepEndValue { s with step := .endValue } c
      else stepBeginValue s c
  | .beginStringOrEmpty =>
      if isSpace c then s
      else if c = '}' then
        match s.parseState with
        | .objectKey members _ :: ps =>
            stepEndValue { s with step := .endValue,
                                  parseState := .objectValue members none :: ps } c
        | _ => s.fail
      else stepBeginString s c
  | .beginString => stepBeginString s c
  | .endValue => stepEndValue s c
  | .endTop => stepEndValue s c
  | .inString raw =>
      if c = '"' then s.emit (.str ⟨unquoteChars raw⟩)
      else if c = '\\' then { s with step := .inStringEsc (raw ++ [c]) }
      else if c.toNat < 0x20 then s.fail
      else { s with step := .inString (raw ++ [c]) }
  | .inStringEsc raw =>
      if c = 'b' ∨ c = 'f' ∨ c = 'n' ∨ c = 'r' ∨ c = 't' ∨ c = '\\' ∨ c = '/' ∨ c = '"' then
        { s with step := .inString (raw ++ [c]) }
      else if c = 'u' then { s with step := .inStringEscU (raw ++ [c]) 0 }
      else s.fail
  | .inStringEscU raw seen =>
      if isHexDigit c then
        if seen < 3 then { s with step := .inStringEscU (raw ++ [c]) (seen + 1) }
        else { s with step := .inString (raw ++ [c]) }
      else s.fail
  | .neg raw =>
      if c = '0' then { s with step := .int0 (raw ++ [c]) }
      else if '1' ≤ c ∧ c ≤ '9' then { s with step := .int1 (raw ++ [c]) }
      else s.fail
  | .int1 raw =>
      if isDigit c then { s with step := .int1 (raw ++ [c]) } else stepInt0 s raw c
  | .int0 raw => stepInt0 s raw c
  | .dot raw =>
      if isDigit c then { s with step := .dot0 (raw ++ [c]) } else s.fail
  | .dot0 raw =>
      if isDigit c then { s with step := .dot0 (raw ++ [c]) }
      else if c = 'e' ∨ c = 'E' then { s with step := .exp (raw ++ [c]) }
      else endNumber s raw c
  | .exp raw =>
      if c = '+' ∨ c = '-' then { s with step := .expSign (raw ++ [c]) }
      else stepExpSign s raw c
  | .expSign raw => stepExpSign s raw c
  | .exp0 raw =>
      if isDigit c then { s with step := .exp0 (raw ++ [c]) } else endNumber s raw c
  | .literal rest value =>
      match rest with
      | [] => s.fail
      | [x] => if c = x then s.emit value else s.fail
      | x :: more => if c = x then { s with step := .literal more value } else s.fail

/-- Go's `eof`: the input is a document if the scanner, shown one more space, has a
complete top-level value. -/
def eof (s : Scanner) : Option JSON :=
  let s := s.next ' '
  match s.step with
  | .endTop => s.top
  | _ => none

end Scanner

/-- The document a JSON text denotes, `none` if the text is not valid JSON. -/
def jsonParse (data : String) : Option JSON :=
  (data.data.foldl Scanner.next Scanner.init).eof

/-- The fold of a character for the case-insensitive match of object keys against
field names (the fold orbits of ASCII letters: the two cases, U+017F for `s`, U+212A
for `k`). -/
def foldKeyChar (c : Char) : Char :=
  if 'A' ≤ c ∧ c ≤ 'Z' then Char.ofNat (c.toNat + 32)
  else if c.toNat = 0x17F then 's'
  else if c.toNat = 0x212A then 'k'
  else c

/-- Whether an object key selects the struct field tagged `field` (a lowercase ASCII
name): an exact match, or else a match under case folding. -/
def keyMatches (field key : String) : Bool :=
  key == field || key.data.map foldKeyChar == field.data

/-- Decoding into a `string` field holding `cur`: a JSON string is stored, `null`
leaves the field alone, any other value is an `UnmarshalTypeError` (`none`). -/
def decodeStringField (cur : String) : JSON → Option String
  | .str s => some s
  | .null => some cur
  | _ => none

/-- Decoding into an `ErrorDetail`: the members of an object are applied in order,
unknown keys are skipped, `null` leaves the struct alone. -/
def decodeErrorDetail (cur : ErrorDetail) : JSON → Option ErrorDetail
  | .obj members =>
      members.foldl (fun acc kv =>
        acc.bind fun d =>
          if keyMatches "name" kv.1 then
            (decodeStringField d.Name kv.2).map fun x => { d with Name := x }
          else if keyMatches "message" kv.1 then
            (decodeStringField d.Message kv.2).map fun x => { d with Message := x }
          else some d) (some cur)
  | .null => some cur
  | _ => none

/-- Decoding into an `APIError`. -/
def decodeAPIError (cur : APIError) : JSON → Option APIError
  | .obj members =>
      members.foldl (fun acc kv =>
        acc.bind fun a =>
          if keyMatches "error" kv.1 then
            (decodeErrorDetail a.Err kv.2).map fun x => { a with Err := x }
          else some a) (some cur)
  | .null => some cur
  | _ => none

/-- Go's `json.Unmarshal(data, &apiErr)` for a zero `apiErr`: an error for text that
is not JSON and for JSON of the wrong type, the filled struct otherwise. -/
def jsonUnmarshalAPIError (data : String) : Except Error APIError :=
  match jsonParse data with
  | none => .error (.text "json: invalid JSON")
  | some v =>
      match decodeAPIError { Err := { Name := "", Message := "" } } v with
      | none => .error (.text "json: cannot unmarshal into Go value")
      | some a => .ok a

/-! ## `client.go`: the executor -/

/-- The URL and the body `doRequest` chooses (lines 75-82): the encoded parameters go
after `?` for a `GET`, into the body for any other method, nowhere when there are
none. -/
def doRequestTarget (c : Client) (method endpoint : String) (params : Values) :
    String × Option String :=
  let urlStr := c.baseURL ++ endpoint
  if method = MethodGet ∧ Values.len params > 0 then
    (urlStr ++ "?" ++ Values.Encode params, none)
  else if Values.len params > 0 then
    (urlStr, some (Values.Encode params))
  else (urlStr, none)

/-- The part of `doRequest` before the network call (lines 75-100): choose URL and
body, create the request, set the headers, attach the token. -/
def doRequestBuild (c : Client) (env : Env) (method endpoint : String) (params : Values)
    (authenticated : Bool) : Except Error Request :=
  let target := doRequestTarget c method endpoint params
  match NewRequest env method target.1 target.2 with
  | .error err => .error (.wrap "failed to create request: " err)
  | .ok req =>
    let req := { req with Header := req.Header.Set "Accept" "application/json" }
    let req :=
      if method = MethodPost ∨ method = MethodDelete then
        { req with Header := req.Header.Set "Content-Type" "application/x-www-form-urlencoded" }
      else req
    if authenticated then
      match generateToken c env params with
      | .error err => .error (.wrap "failed to generate token: " err)
      | .ok token => .ok { req with Header := req.Header.Set "Authorization" ("Bearer " ++ token) }
    else .ok req

/-- The part of `doRequest` after the network call (lines 102-121), on the outcome of
`c.httpClient.Do(req)`: read the body and classify the response. -/
def doRequestFinish (outcome : Except Error Response) : Except Error String :=
  match outcome with
  | .error err => .error (.wrap "failed to execute request: " err)
  | .ok resp =>
    match resp.Body with
    | .error err => .error (.wrap "failed to read response: " err)
    | .ok respBody =>
      if resp.StatusCode ≥ 400 then
        match jsonUnmarshalAPIError respBody with
        | .error _ =>
            .error (.text ("API error (status " ++ toString resp.StatusCode ++ "): " ++
              respBody))
        | .ok apiErr => .error (.api apiErr)
      else .ok respBody

/-- `doRequest` of `client.go`: build the request, hand it to the HTTP client,
classify the outcome. -/
def doRequest (c : Client) (env : Env) (method endpoint : String) (params : Values)
    (authenticated : Bool) : Except Error String :=
  match doRequestBuild c env method endpoint params authenticated with
  | .error err => .error err
  | .ok req => doRequestFinish (c.httpClient.Do req)

/-- `get` of `client.go`. -/
def get (c : Client) (env : Env) (endpoint : String) (params : Values)
    (authenticated : Bool) : Except Error String :=
  doRequest c env MethodGet endpoint params authenticated

/-- `post` of `client.go`. -/
def post (c : Client) (env : Env) (endpoint : String) (params : Values)
    (authenticated : Bool) : Except Error String :=
  doRequest c env MethodPost endpoint params authenticated

/-- `delete` of `client.go`. -/
def delete (c : Client) (env : Env) (endpoint : String) (params : Values)
    (authenticated : Bool) : Except Error String :=
  doRequest c env MethodDelete endpoint params authenticated

/-! ## `client.go`: construction and configuration -/

/-- The constant `BaseURL` of `client.go`. -/
def BaseURL : String := "https://api.upbit.com/v1"

/-- Go's `time.Second`: a `time.Duration` counts nanoseconds. -/
def Second : Int := 1000000000

/-- `NewClient` of `client.go`.  `transport` stands for what `Do` of the fresh
`http.Client` does, that is, for the network behind Go's default transport. -/
def NewClient (transport : Request → Except Error Response) (accessKey secretKey : String) :
    Client :=
  { accessKey := accessKey
    secretKey := secretKey
    httpClient := { Timeout := 30 * Second, Do := transport }
    baseURL := BaseURL }

/-- `SetHTTPClient` of `client.go`: the client after `c.httpClient = client`. -/
def SetHTTPClient (c : Client) (client : HTTPClient) : Client :=
  { c with httpClient := client }

/-- `SetBaseURL` of `client.go`: the client after `c.baseURL = baseURL`. -/
def SetBaseURL (c : Client) (baseURL : String) : Client :=
  { c with baseURL := baseURL }

/-! ## `slices.Reverse` -/

/-- The assignment `s[i], s[j] = s[j], s[i]` for indices inside the slice (the only
ones the loop below uses). -/
def swapAt (s : List α) (i j : Nat) : List α :=
  match s[i]?, s[j]? with
  | some a, some b => (s.set i b).set j a
  | _, _ => s

/-- The loop `for i, j := 0, len(s)-1; i < j; i, j = i+1, j-1` of `slices.Reverse`,
with a bound on the number of iterations. -/
def reverseLoop : Nat → List α → Nat → Nat → List α
  | 0, s, _, _ => s
  | fuel + 1, s, i, j =>
    if i < j then reverseLoop fuel (swapAt s i j) (i + 1) (j - 1) else s

/-- Go's `slices.Reverse(s)`; the loop runs fewer than `len(s)` times. -/
def slicesReverse (s : List α) : List α :=
  reverseLoop s.length s 0 (s.length - 1)

/-! ## `models.go`, `quotation.go`, `exchange.go`: the wrappers

`json.Unmarshal` into the typed results parses `float64` fields; the wrappers take it
as the parameter `unmarshal`. -/

/-- `Candle` of `models.go`. -/
structure Candle where
  Market : String
  CandleDateTimeUtc : String
  CandleDateTimeKst : String
  OpeningPrice : Float
  HighPrice : Float
  LowPrice : Float
  TradePrice : Float
  Timestamp : Int
  CandleAccTradePrice : Float
  CandleAccTradeVolume : Float
  Unit : Int
  FirstDayOfPeriod : String

/-- `Order` of `models.go`. -/
structure Order where
  UUID : String
  Side : String
  OrdType : String
  Price : String
  State : String
  Market : String
  CreatedAt : String
  Volume : String
  RemainingVolume : String
  ReservedFee : String
  RemainingFee : String
  PaidFee : String
  Locked : String
  ExecutedVolume : String
  TradesCount : Int
  TimeInForce : String

/-- The parameters the four candle calls share: `market` always, `to` when not
empty, `count` when positive (`to_` is the source's `to`). -/
def candleParams (market to_ : String) (count : Int) : Values :=
  let params : Values := []
  let params := params.Set "market" market
  let params := if to_ ≠ "" then params.Set "to" to_ else params
  if count > 0 then params.Set "count" (toString count) else params

/-- The tail the four candle calls share: decode the body, reverse the slice. -/
def candlesResult (unmarshal : String → Except Error (List Candle))
    (r : Except Error String) : Except Error (List Candle) :=
  match r with
  | .error err => .error err
  | .ok body =>
    match unmarshal body with
    | .error err => .error err
    | .ok candles => .ok (slicesReverse candles)

/-- `GetMinuteCandles` of `quotation.go`. -/
def GetMinuteCandles (unmarshal : String → Except Error (List Candle)) (c : Client)
    (env : Env) (market : String) (unit : Int) (to_ : String) (count : Int) :
    Except Error (List Candle) :=
  let params := candleParams market to_ count
  let endpoint := "/candles/minutes/" ++ toString unit
  candlesResult unmarshal (get c env endpoint params false)

/-- `GetDayCandles` of `quotation.go`. -/
def GetDayCandles (unmarshal : String → Except Error (List Candle)) (c : Client)
    (env : Env) (market to_ : String) (count : Int) (convertingPriceUnit : String) :
    Except Error (List Candle) :=
  let params := candleParams market to_ count
  let params :=
    if convertingPriceUnit ≠ "" then params.Set "converting_price_unit" convertingPriceUnit
    else params
  candlesResult unmarshal (get c env "/candles/days" params false)

/-- `GetWeekCandles` of `quotation.go`. -/
def GetWeekCandles (unmarshal : String → Except Error (List Candle)) (c : Client)
    (env : Env) (market to_ : String) (count : Int) : Except Error (List Candle) :=
  let params := candleParams market to_ count
  candlesResult unmarshal (get c env "/candles/weeks" params false)

/-- `GetMonthCandles` of `quotation.go`. -/
def GetMonthCandles (unmarshal : String → Except Error (List Candle)) (c : Client)
    (env : Env) (market to_ : String) (count : Int) : Except Error (List Candle) :=
  let params := candleParams market to_ count
  candlesResult unmarshal (get c env "/candles/months" params false)

/-- `CancelOrder` of `exchange.go`. -/
def CancelOrder (unmarshal : String → Except Error Order) (c : Client) (env : Env)
    (uuid : String) : Except Error Order :=
  let params : Values := []
  let params := params.Set "uuid" uuid
  match delete c env "/order" params true with
  | .error err => .error err
  | .ok body =>
    match unmarshal body with
    | .error err => .error err
    | .ok order => .ok order

/-! ## `models.go`: the other results -/

set_option linter.dupNamespace false

/-- `Account` of `models.go`. -/
structure Account where
  Currency : String
  Balance : String
  Locked : String
  AvgBuyPrice : String
  AvgBuyPriceModified : Bool
  UnitCurrency : String

/-- The struct behind `Market.MarketEvent.Caution`. -/
structure MarketCaution where
  PriceFluctuations : Bool
  TradingVolumeSoaring : Bool
  DepositAmountSoaring : Bool
  GlobalPriceDifferences : Bool
  ConcentrationOfSmallAccounts : Bool
  deriving DecidableEq, Repr

/-- The struct behind `Market.MarketEvent`. -/
structure MarketEvent where
  Warning : Bool
  Caution : Option MarketCaution
  deriving DecidableEq, Repr

/-- `Market` of `models.go`; a nil pointer is `none`. -/
structure Market where
  Market : String
  KoreanName : String
  EnglishName : String
  MarketWarning : String
  MarketEvent : Option MarketEvent
  deriving DecidableEq, Repr

/-- `Ticker` of `models.go`. -/
structure Ticker where
  Market : String
  TradeDate : String
  TradeTime : String
  TradeDateKst : String
  TradeTimeKst : String
  TradeTimestamp : Int
  OpeningPrice : Float
  HighPrice : Float
  LowPrice : Float
  TradePrice : Float
  PrevClosingPrice : Float
  Change : String
  ChangePrice : Float
  ChangeRate : Float
  SignedChangePrice : Float
  SignedChangeRate : Float
  TradeVolume : Float
  AccTradePrice : Float
  AccTradePrice24h : Float
  AccTradeVolume : Float
  AccTradeVolume24h : Float
  Highest52WeekPrice : Float
  Highest52WeekDate : String
  Lowest52WeekPrice : Float
  Lowest52WeekDate : String
  Timestamp : Int

/-- `OrderbookUnit` of `models.go`. -/
structure OrderbookUnit where
  AskPrice : Float
  BidPrice : Float
  AskSize : Float
  BidSize : Float

/-- `Orderbook` of `models.go`. -/
structure Orderbook where
  Market : String
  Timestamp : Int
  TotalAskSize : Float
  TotalBidSize : Float
  OrderbookUnits : List OrderbookUnit
  Level : Int

/-- `Trade` of `models.go`. -/
structure Trade where
  Market : String
  TradeDateUtc : String
  TradeTimeUtc : String
  Timestamp : Int
  TradePrice : Float
  TradeVolume : Float
  PrevClosingPrice : Float
  ChangePrice : Float
  AskBid : String
  SequentialID : Int

/-- `OrderTrade` of `models.go`. -/
structure OrderTrade where
  Market : String
  UUID : String
  Price : String
  Volume : String
  Funds : String
  Side : String
  CreatedAt : String

/-- `OrderDetail` of `models.go`: an embedded `Order` and its trades. -/
structure OrderDetail where
  Order : Order
  Trades : List OrderTrade

/-- The struct behind `OrderChance.Market.Bid` and `.Ask`. -/
structure OrderChanceLimit where
  Currency : String
  MinTotal : String

/-- The struct behind `OrderChance.Market`. -/
structure OrderChanceMarket where
  ID : String
  Name : String
  OrderTypes : List String
  AskTypes : List String
  BidTypes : List String
  OrderSides : List String
  Bid : Option OrderChanceLimit
  Ask : Option OrderChanceLimit
  MaxTotal : String
  State : String

/-- `OrderChance` of `models.go`. -/
structure OrderChance where
  BidFee : String
  AskFee : String
  Market : Option OrderChanceMarket
  BidAccount : Option Account
  AskAccount : Option Account

/-- `Withdraw` of `models.go` (`Type_` is the source's `Type`). -/
structure Withdraw where
  Type_ : String
  UUID : String
  Currency : String
  NetType : String
  TxID : String
  State : String
  CreatedAt : String
  DoneAt : String
  Amount : String
  Fee : String
  TransactionType : String

/-- The struct behind `WithdrawChance.MemberLevel`. -/
structure WithdrawMemberLevel where
  SecurityLevel : Int
  FeeLevel : Int
  EmailVerified : Bool
  IdentityAuthVerified : Bool
  BankAccountVerified : Bool
  KakaoPayAuthVerified : Bool
  Locked : Bool
  WalletLocked : Bool

/-- The struct behind `WithdrawChance.Currency`. -/
structure WithdrawCurrency where
  Code : String
  WithdrawFee : String
  IsCoin : Bool
  WalletState : String
  WalletSupport : List String

/-- The struct behind `WithdrawChance.WithdrawLimit`. -/
structure WithdrawLimit where
  Currency : String
  Minimum : String
  Onetime : String
  Daily : String
  RemainingDaily : String
  RemainingDailyKrw : String
  Fixed : Int
  CanWithdraw : Bool

/-- `WithdrawChance` of `models.go`; its `Account` member has the fields of `Account`. -/
structure WithdrawChance where
  MemberLevel : Option WithdrawMemberLevel
  Currency : Option WithdrawCurrency
  Account : Option Account
  WithdrawLimit : Option WithdrawLimit

/-- `Deposit` of `models.go` (`Type_` is the source's `Type`). -/
structure Deposit where
  Type_ : String
  UUID : String
  Currency : String
  NetType : String
  TxID : String
  State : String
  CreatedAt : String
  DoneAt : String
  Amount : String
  Fee : String
  TransactionType : String

/-- `DepositAddress` of `models.go`. -/
structure DepositAddress where
  Currency : String
  NetType : String
  DepositAddress : String
  SecondaryAddress : String

/-- `APIKey` of `models.go`. -/
structure APIKey where
  AccessKey : String
  ExpireAt : String

/-- `WalletStatus` of `models.go`. -/
structure WalletStatus where
  Currency : String
  WalletState : String
  BlockState : String
  BlockHeight : Int
  BlockUpdated : String
  NetType : String

/-! ## `encoding/json`: reading a list of markets -/

/-- Whether an object key selects the struct field tagged `field`, for any ASCII tag:
an exact match, or else a match under case folding. -/
def keyMatchesFold (field key : String) : Bool :=
  key == field || key.data.map foldKeyChar == field.data.map foldKeyChar

/-- Decoding into a `bool` field holding `cur`: `true` and `false` are stored, `null`
leaves the field alone, any other value is an `UnmarshalTypeError` (`none`). -/
def decodeBoolField (cur : Bool) : JSON → Option Bool
  | .bool b => some b
  | .null => some cur
  | _ => none

/-- Decoding into a pointer field holding `cur`: `null` sets the pointer to nil; any
other value is decoded into the struct pointed to, a fresh zero struct if the
pointer was nil. -/
def decodePointer (zero : α) (decode : α → JSON → Option α) (cur : Option α) :
    JSON → Option (Option α)
  | .null => some none
  | v => (decode (cur.getD zero) v).map some

/-- Decoding into the struct behind `Caution`; its tags are upper case. -/
def decodeMarketCaution (cur : MarketCaution) : JSON → Option MarketCaution
  | .obj members =>
      members.foldl (fun acc kv =>
        acc.bind fun d =>
          if keyMatchesFold "PRICE_FLUCTUATIONS" kv.1 then
            (decodeBoolField d.PriceFluctuations kv.2).map fun x =>
              { d with PriceFluctuations := x }
          else if keyMatchesFold "TRADING_VOLUME_SOARING" kv.1 then
            (decodeBoolField d.TradingVolumeSoaring kv.2).map fun x =>
              { d with TradingVolumeSoaring := x }
          else if keyMatchesFold "DEPOSIT_AMOUNT_SOARING" kv.1 then
            (decodeBoolField d.DepositAmountSoaring kv.2).map fun x =>
              { d with DepositAmountSoaring := x }
          else if keyMatchesFold "GLOBAL_PRICE_DIFFERENCES" kv.1 then
            (decodeBoolField d.GlobalPriceDifferences kv.2).map fun x =>
              { d with GlobalPriceDifferences := x }
          else if keyMatchesFold "CONCENTRATION_OF_SMALL_ACCOUNTS" kv.1 then
            (decodeBoolField d.ConcentrationOfSmallAccounts kv.2).map fun x =>
              { d with ConcentrationOfSmallAccounts := x }
          else some d) (some cur)
  | .null => some cur
  | _ => none

/-- The zero value of the struct behind `Caution`. -/
def zeroMarketCaution : MarketCaution :=
  { PriceFluctuations := false, TradingVolumeSoaring := false, DepositAmountSoaring := false,
    GlobalPriceDifferences := false, ConcentrationOfSmallAccounts := false }

/-- Decoding into the struct behind `MarketEvent`. -/
def decodeMarketEvent (cur : MarketEvent) : JSON → Option MarketEvent
  | .obj members =>
      members.foldl (fun acc kv =>
        acc.bind fun d =>
          if keyMatches "warning" kv.1 then
            (decodeBoolField d.Warning kv.2).map fun x => { d with Warning := x }
          else if keyMatches "caution" kv.1 then
            (decodePointer zeroMarketCaution decodeMarketCaution d.Caution kv.2).map fun x =>
              { d with Caution := x }
          else some d) (some cur)
  | .null => some cur
  | _ => none

/-- The zero value of the struct behind `MarketEvent`. -/
def zeroMarketEvent : MarketEvent :=
  { Warning := false, Caution := none }

/-- Decoding into a `Market`. -/
def decodeMarket (cur : Market) : JSON → Option Market
  | .obj members =>
      members.foldl (fun acc kv =>
        acc.bind fun d =>
          if keyMatches "market" kv.1 then
            (decodeStringField d.Market kv.2).map fun x => { d with Market := x }
          else if keyMatches "korean_name" kv.1 then
            (decodeStringField d.KoreanName kv.2).map fun x => { d with KoreanName := x }
          else if keyMatches "english_name" kv.1 then
            (decodeStringField d.EnglishName kv.2).map fun x => { d with EnglishName := x }
          else if keyMatches "market_warning" kv.1 then
            (decodeStringField d.MarketWarning kv.2).map fun x => { d with MarketWarning := x }
          else if keyMatches "market_event" kv.1 then
            (decodePointer zeroMarketEvent decodeMarketEvent d.MarketEvent kv.2).map fun x =>
              { d with MarketEvent := x }
          else some d) (some cur)
  | .null => some cur
  | _ => none

/-- The zero value of `Market`. -/
def zeroMarket : Market :=
  { Market := "", KoreanName := "", EnglishName := "", MarketWarning := "", MarketEvent := none }

/-- Decoding the elements of a JSON array into fresh slice elements, in order; one
element that does not decode makes the whole decoding fail. -/
def decodeElements (decode : JSON → Option α) : List JSON → Option (List α)
  | [] => some []
  | v :: rest =>
      match decode v, decodeElements decode rest with
      | some a, some as => some (a :: as)
      | _, _ => none

/-- Go's `json.Unmarshal(data, &markets)` for a nil `[]Market`: a JSON array gives one
element per array element, `null` leaves the slice nil, anything else is an error. -/
def jsonUnmarshalMarkets (data : String) : Except Error (List Market) :=
  match jsonParse data with
  | none => .error (.text "json: invalid JSON")
  | some (.arr elems) =>
      match decodeElements (decodeMarket zeroMarket) elems with
      | none => .error (.text "json: cannot unmarshal into Go value")
      | some markets => .ok markets
  | some .null => .ok []
  | some _ => .error (.text "json: cannot unmarshal into Go value")

/-! ## `quotation.go` and `exchange.go`: the other wrappers -/

/-- Go's `strings.Join(elems, sep)`. -/
def stringsJoin (elems : List String) (sep : String) : String :=
  sep.intercalate elems

/-- The tail all wrappers share: the executor's error is returned as it is; otherwise
the body is decoded, and the decoder's error or the decoded value returned. -/
def decodeResult (unmarshal : String → Except Error α) (r : Except Error String) :
    Except Error α :=
  match r with
  | .error err => .error err
  | .ok body =>
    match unmarshal body with
    | .error err => .error err
    | .ok value => .ok value

/-- `GetMarkets` of `quotation.go`. -/
def GetMarkets (c : Client) (env : Env) (isDetails : Bool) : Except Error (List Market) :=
  let params : Values := []
  let params := if isDetails then params.Set "is_details" "true" else params
  decodeResult jsonUnmarshalMarkets (get c env "/market/all" params false)

/-- `GetTicker` of `quotation.go`. -/
def GetTicker (unmarshal : String → Except Error (List Ticker)) (c : Client) (env : Env)
    (markets : List String) : Except Error (List Ticker) :=
  let params : Values := []
  let params := params.Set "markets" (stringsJoin markets ",")
  decodeResult unmarshal (get c env "/ticker" params false)

/-- `GetAllTickers` of `quotation.go`. -/
def GetAllTickers (unmarshal : String → Except Error (List Ticker)) (c : Client) (env : Env)
    (quoteCurrencies : List String) : Except Error (List Ticker) :=
  let params : Values := []
  let params :=
    if quoteCurrencies.length > 0 then
      params.Set "quote_currencies" (stringsJoin quoteCurrencies ",")
    else params
  decodeResult unmarshal (get c env "/ticker/all" params false)

/-- `GetOrderbook` of `quotation.go`. -/
def GetOrderbook (unmarshal : String → Except Error (List Orderbook)) (c : Client)
    (env : Env) (markets : List String) (level : Int) : Except Error (List Orderbook) :=
  let params : Values := []
  let params := params.Set "markets" (stringsJoin markets ",")
  let params := if level > 0 then params.Set "level" (toString level) else params
  decodeResult unmarshal (get c env "/orderbook" params false)

/-- `GetTrades` of `quotation.go` (`to_` is the source's `to`). -/
def GetTrades (unmarshal : String → Except Error (List Trade)) (c : Client) (env : Env)
    (market to_ : String) (count : Int) (cursor : String) (daysAgo : Int) :
    Except Error (List Trade) :=
  let params : Values := []
  let params := params.Set "market" market
  let params := if to_ ≠ "" then params.Set "to" to_ else params
  let params := if count > 0 then params.Set "count" (toString count) else params
  let params := if cursor ≠ "" then params.Set "cursor" cursor else params
  let params := if daysAgo > 0 then params.Set "days_ago" (toString daysAgo) else params
  decodeResult unmarshal (get c env "/trades/ticks" params false)

/-- `GetAccounts` of `exchange.go`. -/
def GetAccounts (unmarshal : String → Except Error (List Account)) (c : Client) (env : Env) :
    Except Error (List Account) :=
  decodeResult unmarshal (get c env "/accounts" [] true)

/-- `OrderSide` of `exchange.go`, a string type. -/
abbrev OrderSide := String

def OrderSideBid : OrderSide := "bid"
def OrderSideAsk : OrderSide := "ask"

/-- `OrderType` of `exchange.go`, a string type. -/
abbrev OrderType := String

def OrderTypeLimit : OrderType := "limit"
def OrderTypePrice : OrderType := "price"
def OrderTypeMarket : OrderType := "market"
def OrderTypeBest : OrderType := "best"

/-- `TimeInForce` of `exchange.go`, a string type. -/
abbrev TimeInForce := String

def TimeInForceIOC : TimeInForce := "ioc"
def TimeInForceFOK : TimeInForce := "fok"

/-- `OrderState` of `exchange.go`, a string type. -/
abbrev OrderState := String

def OrderStateWait : OrderState := "wait"
def OrderStateWatch : OrderState := "watch"
def OrderStateDone : OrderState := "done"
def OrderStateCancel : OrderState := "cancel"

/-- `GetOrderChance` of `exchange.go`. -/
def GetOrderChance (unmarshal : String → Except Error OrderChance) (c : Client) (env : Env)
    (market : String) : Except Error OrderChance :=
  let params : Values := []
  let params := params.Set "market" market
  decodeResult unmarshal (get c env "/orders/chance" params true)

/-- `GetOrder` of `exchange.go`. -/
def GetOrder (unmarshal : String → Except Error OrderDetail) (c : Client) (env : Env)
    (uuid : String) : Except Error OrderDetail :=
  let params : Values := []
  let params := params.Set "uuid" uuid
  decodeResult unmarshal (get c env "/order" params true)

/-- `GetOrderByIdentifier` of `exchange.go`. -/
def GetOrderByIdentifier (unmarshal : String → Except Error OrderDetail) (c : Client)
    (env : Env) (identifier : String) : Except Error OrderDetail :=
  let params : Values := []
  let params := params.Set "identifier" identifier
  decodeResult unmarshal (get c env "/order" params true)

/-- `GetOrdersRequest` of `exchange.go`. -/
structure GetOrdersRequest where
  Market : String
  UUIDs : List String
  Identifiers : List String
  State : OrderState
  States : List OrderState
  Page : Int
  Limit : Int
  OrderBy : String

/-- `GetOrders` of `exchange.go`; a nil request is `none`. -/
def GetOrders (unmarshal : String → Except Error (List Order)) (c : Client) (env : Env)
    (req : Option GetOrdersRequest) : Except Error (List Order) :=
  let params : Values := []
  let params :=
    match req with
    | none => params
    | some req =>
      let params := if req.Market ≠ "" then params.Set "market" req.Market else params
      let params :=
        if req.UUIDs.length > 0 then
          req.UUIDs.foldl (fun params uuid => params.Add "uuids[]" uuid) params
        else params
      let params :=
        if req.Identifiers.length > 0 then
          req.Identifiers.foldl (fun params id => params.Add "identifiers[]" id) params
        else params
      let params := if req.State ≠ "" then params.Set "state" req.State else params
      let params :=
        if req.States.length > 0 then
          req.States.foldl (fun params state => params.Add "states[]" state) params
        else params
      let params := if req.Page > 0 then params.Set "page" (toString req.Page) else params
      let params := if req.Limit > 0 then params.Set "limit" (toString req.Limit) else params
      if req.OrderBy ≠ "" then params.Set "order_by" req.OrderBy else params
  decodeResult unmarshal (get c env "/orders" params true)

/-- `GetClosedOrders` of `exchange.go`. -/
def GetClosedOrders (unmarshal : String → Except Error (List Order)) (c : Client) (env : Env)
    (market : String) (states : List OrderState) (startTime endTime : String) (limit : Int)
    (orderBy : String) : Except Error (List Order) :=
  let params : Values := []
  let params := if market ≠ "" then params.Set "market" market else params
  let params :=
    if states.length > 0 then
      states.foldl (fun params state => params.Add "states[]" state) params
    else params
  let params := if startTime ≠ "" then params.Set "start_time" startTime else params
  let params := if endTime ≠ "" then params.Set "end_time" endTime else params
  let params := if limit > 0 then params.Set "limit" (toString limit) else params
  let params := if orderBy ≠ "" then params.Set "order_by" orderBy else params
  decodeResult unmarshal (get c env "/orders/closed" params true)

/-- `PlaceOrderRequest` of `exchange.go`. -/
structure PlaceOrderRequest where
  Market : String
  Side : OrderSide
  Volume : String
  Price : String
  OrdType : OrderType
  Identifier : String
  TimeInForce : TimeInForce

/-- `PlaceOrder` of `exchange.go`, for a request that is not nil (the source reads the
fields of `req` without a nil check). -/
def PlaceOrder (unmarshal : String → Except Error Order) (c : Client) (env : Env)
    (req : PlaceOrderRequest) : Except Error Order :=
  let params : Values := []
  let params := params.Set "market" req.Market
  let params := params.Set "side" req.Side
  let params := params.Set "ord_type" req.OrdType
  let params := if req.Volume ≠ "" then params.Set "volume" req.Volume else params
  let params := if req.Price ≠ "" then params.Set "price" req.Price else params
  let params := if req.Identifier ≠ "" then params.Set "identifier" req.Identifier else params
  let params :=
    if req.TimeInForce ≠ "" then params.Set "time_in_force" req.TimeInForce else params
  decodeResult unmarshal (post c env "/orders" params true)

/-- `CancelOrderByIdentifier` of `exchange.go`. -/
def CancelOrderByIdentifier (unmarshal : String → Except Error Order) (c : Client)
    (env : Env) (identifier : String) : Except Error Order :=
  let params : Values := []
  let params := params.Set "identifier" identifier
  decodeResult unmarshal (delete c env "/order" params true)

/-- The parameters `GetWithdraws` and `GetDeposits` both assemble. -/
def transferListParams (currency state : String) (uuids txids : List String)
    (limit page : Int) (orderBy : String) : Values :=
  let params : Values := []
  let params := if currency ≠ "" then params.Set "currency" currency else params
  let params := if state ≠ "" then params.Set "state" state else params
  let params :=
    if uuids.length > 0 then params.Set "uuids" (stringsJoin uuids ",") else params
  let params :=
    if txids.length > 0 then params.Set "txids" (stringsJoin txids ",") else params
  let params := if limit > 0 then params.Set "limit" (toString limit) else params
  let params := if page > 0 then params.Set "page" (toString page) else params
  if orderBy ≠ "" then params.Set "order_by" orderBy else params

/-- `GetWithdraws` of `exchange.go`. -/
def GetWithdraws (unmarshal : String → Except Error (List Withdraw)) (c : Client) (env : Env)
    (currency state : String) (uuids txids : List String) (limit page : Int)
    (orderBy : String) : Except Error (List Withdraw) :=
  let params := transferListParams currency state uuids txids limit page orderBy
  decodeResult unmarshal (get c env "/withdraws" params true)

/-- `GetWithdraw` of `exchange.go`. -/
def GetWithdraw (unmarshal : String → Except Error Withdraw) (c : Client) (env : Env)
    (uuid : String) : Except Error Withdraw :=
  let params : Values := []
  let params := params.Set "uuid" uuid
  decodeResult unmarshal (get c env "/withdraw" params true)

/-- `GetWithdrawChance` of `exchange.go`. -/
def GetWithdrawChance (unmarshal : String → Except Error WithdrawChance) (c : Client)
    (env : Env) (currency netType : String) : Except Error WithdrawChance :=
  let params : Values := []
  let params := params.Set "currency" currency
  let params := if netType ≠ "" then params.Set "net_type" netType else params
  decodeResult unmarshal (get c env "/withdraws/chance" params true)

/-- `WithdrawCoinRequest` of `exchange.go`. -/
structure WithdrawCoinRequest where
  Currency : String
  NetType : String
  Amount : String
  Address : String
  SecondaryAddress : String
  TransactionType : String

/-- `WithdrawCoin` of `exchange.go`, for a request that is not nil (the source reads
the fields of `req` without a nil check). -/
def WithdrawCoin (unmarshal : String → Except Error Withdraw) (c : Client) (env : Env)
    (req : WithdrawCoinRequest) : Except Error Withdraw :=
  let params : Values := []
  let params := params.Set "currency" req.Currency
  let params := params.Set "net_type" req.NetType
  let params := params.Set "amount" req.Amount
  let params := params.Set "address" req.Address
  let params :=
    if req.SecondaryAddress ≠ "" then params.Set "secondary_address" req.SecondaryAddress
    else params
  let params :=
    if req.TransactionType ≠ "" then params.Set "transaction_type" req.TransactionType
    else params
  decodeResult unmarshal (post c env "/withdraws/coin" params true)

/-- `WithdrawKRW` of `exchange.go`. -/
def WithdrawKRW (unmarshal : String → Except Error Withdraw) (c : Client) (env : Env)
    (amount twoFactorType : String) : Except Error Withdraw :=
  let params : Values := []
  let params := params.Set "amount" amount
  let params :=
    if twoFactorType ≠ "" then params.Set "two_factor_type" twoFactorType else params
  decodeResult unmarshal (post c env "/withdraws/krw" params true)

/-- `GetDeposits` of `exchange.go`. -/
def GetDeposits (unmarshal : String → Except Error (List Deposit)) (c : Client) (env : Env)
    (currency state : String) (uuids txids : List String) (limit page : Int)
    (orderBy : String) : Except Error (List Deposit) :=
  let params := transferListParams currency state uuids txids limit page orderBy
  decodeResult unmarshal (get c env "/deposits" params true)

/-- `GetDeposit` of `exchange.go`. -/
def GetDeposit (unmarshal : String → Except Error Deposit) (c : Client) (env : Env)
    (uuid : String) : Except Error Deposit :=
  let params : Values := []
  let params := params.Set "uuid" uuid
  decodeResult unmarshal (get c env "/deposit" params true)

/-- `GenerateDepositAddress` of `exchange.go`. -/
def GenerateDepositAddress (unmarshal : String → Except Error DepositAddress) (c : Client)
    (env : Env) (currency netType : String) : Except Error DepositAddress :=
  let params : Values := []
  let params := params.Set "currency" currency
  let params := params.Set "net_type" netType
  decodeResult unmarshal (post c env "/deposits/generate_coin_address" params true)

/-- `GetDepositAddresses` of `exchange.go`. -/
def GetDepositAddresses (unmarshal : String → Except Error (List DepositAddress))
    (c : Client) (env : Env) : Except Error (List DepositAddress) :=
  decodeResult unmarshal (get c env "/deposits/coin_addresses" [] true)

/-- `GetDepositAddress` of `exchange.go`. -/
def GetDepositAddress (unmarshal : String → Except Error DepositAddress) (c : Client)
    (env : Env) (currency netType : String) : Except Error DepositAddress :=
  let params : Values := []
  let params := params.Set "currency" currency
  let params := params.Set "net_type" netType
  decodeResult unmarshal (get c env "/deposits/coin_address" params true)

/-- `GetWalletStatus` of `exchange.go`. -/
def GetWalletStatus (unmarshal : String → Except Error (List WalletStatus)) (c : Client)
    (env : Env) : Except Error (List WalletStatus) :=
  decodeResult unmarshal (get c env "/status/wallet" [] true)

/-- `GetAPIKeys` of `exchange.go`. -/
def GetAPIKeys (unmarshal : String → Except Error (List APIKey)) (c : Client) (env : Env) :
    Except Error (List APIKey) :=
  decodeResult unmarshal (get c env "/api_keys" [] true)

/-- `CandleUnit` of `quotation.go`, an integer type, and its constants. -/
abbrev CandleUnit := Int

def CandleUnit1 : CandleUnit := 1
def CandleUnit3 : CandleUnit := 3
def CandleUnit5 : CandleUnit := 5
def CandleUnit10 : CandleUnit := 10
def CandleUnit15 : CandleUnit := 15
def CandleUnit30 : CandleUnit := 30
def CandleUnit60 : CandleUnit := 60
def CandleUnit240 : CandleUnit := 240

/-! ## The methods as operations on the struct behind the receiver

Every method of `client.go`, `quotation.go` and `exchange.go` has the pointer receiver
`c *Client`.  Above, a method is a function of the value of that struct.  Here the same
code is a state transformer on the struct: a read of a field reads the state, the
assignment `c.f = v` replaces it, and a call of another method of `c` runs that
method's transformer, so that what a method leaves behind is computed from its body. -/

/-- A method with the receiver `c *Client`: from the struct `c` points to, to what the
method returns and the struct as the method leaves it (`StateT.run m c` is that pair). -/
abbrev Method (α : Type) := StateM Client α

/-- The struct as the method leaves it when called on the struct `c`. -/
def Method.after (m : Method α) (c : Client) : Client :=
  (StateT.run m c : α × Client).2

/-- The method with its results dropped. -/
def Method.drop (m : Method α) : Method Unit := do
  let _ ← m
  return ()

namespace Stateful

/-- `SetHTTPClient` of `client.go`: `c.httpClient = client`. -/
def SetHTTPClient (client : HTTPClient) : Method Unit :=
  modify fun c => { c with httpClient := client }

/-- `SetBaseURL` of `client.go`: `c.baseURL = baseURL`. -/
def SetBaseURL (baseURL : String) : Method Unit :=
  modify fun c => { c with baseURL := baseURL }

/-- `generateToken` of `client.go`: the body reads `c.accessKey` and `c.secretKey`. -/
def generateToken (env : Env) (queryParams : Values) : Method (Except Error String) := do
  let c ← getThe Client
  return SignedString (generateTokenClaims c env queryParams) (utf8Bytes c.secretKey)

/-- `doRequest` of `client.go`: the body reads `c.baseURL`, calls `c.generateToken`,
then reads `c.httpClient` for the call of `Do`. -/
def doRequest (env : Env) (method endpoint : String) (params : Values)
    (authenticated : Bool) : Method (Except Error String) := do
  let c ← getThe Client
  let target := doRequestTarget c method endpoint params
  match NewRequest env method target.1 target.2 with
  | .error err => return .error (.wrap "failed to create request: " err)
  | .ok req =>
    let req := { req with Header := req.Header.Set "Accept" "application/json" }
    let req :=
      if method = MethodPost ∨ method = MethodDelete then
        { req with Header := req.Header.Set "Content-Type" "application/x-www-form-urlencoded" }
      else req
    if authenticated then
      match ← generateToken env params with
      | .error err => return .error (.wrap "failed to generate token: " err)
      | .ok token =>
        let req := { req with Header := req.Header.Set "Authorization" ("Bearer " ++ token) }
        let c ← getThe Client
        return doRequestFinish (c.httpClient.Do req)
    else
      let c ← getThe Client
      return doRequestFinish (c.httpClient.Do req)

/-- `get` of `client.go`. -/
def get (env : Env) (endpoint : String) (params : Values) (authenticated : Bool) :
    Method (Except Error String) :=
  doRequest env MethodGet endpoint params authenticated

/-- `post` of `client.go`. -/
def post (env : Env) (endpoint : String) (params : Values) (authenticated : Bool) :
    Method (Except Error String) :=
  doRequest env MethodPost endpoint params authenticated

/-- `delete` of `client.go`. -/
def delete (env : Env) (endpoint : String) (params : Values) (authenticated : Bool) :
    Method (Except Error String) :=
  doRequest env MethodDelete endpoint params authenticated

/-- `GetMarkets` of `quotation.go`, on the struct behind the receiver. -/
def GetMarkets (env : Env) (isDetails : Bool) : Method (Except Error (List Market)) := do
  let params : Values := []
  let params := if isDetails then params.Set "is_details" "true" else params
  let r ← get env "/market/all" params false
  return decodeResult jsonUnmarshalMarkets r

/-- `GetMinuteCandles` of `quotation.go`, on the struct behind the receiver (`to_` is the
source's `to`). -/
def GetMinuteCandles (unmarshal : String → Except Error (List Candle)) (env : Env) (market : String)
    (unit : Int) (to_ : String) (count : Int) : Method (Except Error (List Candle)) := do
  let params := candleParams market to_ count
  let endpoint := "/candles/minutes/" ++ toString unit
  let r ← get env endpoint params false
  return candlesResult unmarshal r

/-- `GetDayCandles` of `quotation.go`, on the struct behind the receiver (`to_` is the
source's `to`). -/
def GetDayCandles (unmarshal : String → Except Error (List Candle)) (env : Env)
    (market to_ : String) (count : Int) (convertingPriceUnit : String) :
    Method (Except Error (List Candle)) := do
  let params := candleParams market to_ count
  let params :=
    if convertingPriceUnit ≠ "" then params.Set "converting_price_unit" convertingPriceUnit
    else params
  let r ← get env "/candles/days" params false
  return candlesResult unmarshal r

/-- `GetWeekCandles` of `quotation.go`, on the struct behind the receiver (`to_` is the
source's `to`). -/
def GetWeekCandles (unmarshal : String → Except Error (List Candle)) (env : Env)
    (market to_ : String) (count : Int) : Method (Except Error (List Candle)) := do
  let params := candleParams market to_ count
  let r ← get env "/candles/weeks" params false
  return candlesResult unmarshal r

/-- `GetMonthCandles` of `quotation.go`, on the struct behind the receiver (`to_` is the
source's `to`). -/
def GetMonthCandles (unmarshal : String → Except Error (List Candle)) (env : Env)
    (market to_ : String) (count : Int) : Method (Except Error (List Candle)) := do
  let params := candleParams market to_ count
  let r ← get env "/candles/months" params false
  return candlesResult unmarshal r

/-- `GetTicker` of `quotation.go`, on the struct behind the receiver. -/
def GetTicker (unmarshal : String → Except Error (List Ticker)) (env : Env)
    (markets : List String) :
    Method (Except Error (List Ticker)) := do
  let params : Values := []
  let params := params.Set "markets" (stringsJoin markets ",")
  let r ← get env "/ticker" params false
  return decodeResult unmarshal r

/-- `GetAllTickers` of `quotation.go`, on the struct behind the receiver. -/
def GetAllTickers (unmarshal : String → Except Error (List Ticker)) (env : Env)
    (quoteCurrencies : List String) : Method (Except Error (List Ticker)) := do
  let params : Values := []
  let params :=
    if quoteCurrencies.length > 0 then
      params.Set "quote_currencies" (stringsJoin quoteCurrencies ",")
    else params
  let r ← get env "/ticker/all" params false
  return decodeResult unmarshal r

/-- `GetOrderbook` of `quotation.go`, on the struct behind the receiver. -/
def GetOrderbook (unmarshal : String → Except Error (List Orderbook)) (env : Env)
    (markets : List String) (level : Int) : Method (Except Error (List Orderbook)) := do
  let params : Values := []
  let params := params.Set "markets" (stringsJoin markets ",")
  let params := if level > 0 then params.Set "level" (toString level) else params
  let r ← get env "/orderbook" params false
  return decodeResult unmarshal r

/-- `GetTrades` of `quotation.go`, on the struct behind the receiver (`to_` is the source's `to`).
-/
def GetTrades (unmarshal : String → Except Error (List Trade)) (env : Env) (market to_ : String)
    (count : Int) (cursor : String) (daysAgo : Int) : Method (Except Error (List Trade)) := do
  let params : Values := []
  let params := params.Set "market" market
  let params := if to_ ≠ "" then params.Set "to" to_ else params
  let params := if count > 0 then params.Set "count" (toString count) else params
  let params := if cursor ≠ "" then params.Set "cursor" cursor else params
  let params := if daysAgo > 0 then params.Set "days_ago" (toString daysAgo) else params
  let r ← get env "/trades/ticks" params false
  return decodeResult unmarshal r

/-- `GetAccounts` of `exchange.go`, on the struct behind the receiver. -/
def GetAccounts (unmarshal : String → Except Error (List Account)) (env : Env) :
    Method (Except Error (List Account)) := do
  let r ← get env "/accounts" [] true
  return decodeResult unmarshal r

/-- `GetOrderChance` of `exchange.go`, on the struct behind the receiver. -/
def GetOrderChance (unmarshal : String → Except Error OrderChance) (env : Env) (market : String) :
    Method (Except Error OrderChance) := do
  let params : Values := []
  let params := params.Set "market" market
  let r ← get env "/orders/chance" params true
  return decodeResult unmarshal r

/-- `GetOrder` of `exchange.go`, on the struct behind the receiver. -/
def GetOrder (unmarshal : String → Except Error OrderDetail) (env : Env) (uuid : String) :
    Method (Except Error OrderDetail) := do
  let params : Values := []
  let params := params.Set "uuid" uuid
  let r ← get env "/order" params true
  return decodeResult unmarshal r

/-- `GetOrderByIdentifier` of `exchange.go`, on the struct behind the receiver. -/
def GetOrderByIdentifier (unmarshal : String → Except Error OrderDetail) (env : Env)
    (identifier : String) : Method (Except Error OrderDetail) := do
  let params : Values := []
  let params := params.Set "identifier" identifier
  let r ← get env "/order" params true
  return decodeResult unmarshal r

/-- `GetOrders` of `exchange.go`, on the struct behind the receiver. -/
def GetOrders (unmarshal : String → Except Error (List Order)) (env : Env)
    (req : Option GetOrdersRequest) : Method (Except Error (List Order)) := do
  let params : Values := []
  let params :=
    match req with
    | none => params
    | some req =>
      let params := if req.Market ≠ "" then params.Set "market" req.Market else params
      let params :=
        if req.UUIDs.length > 0 then
          req.UUIDs.foldl (fun params uuid => params.Add "uuids[]" uuid) params
        else params
      let params :=
        if req.Identifiers.length > 0 then
          req.Identifiers.foldl (fun params id => params.Add "identifiers[]" id) params
        else params
      let params := if req.State ≠ "" then params.Set "state" req.State else params
      let params :=
        if req.States.length > 0 then
          req.States.foldl (fun params state => params.Add "states[]" state) params
        else params
      let params := if req.Page > 0 then params.Set "page" (toString req.Page) else params
      let params := if req.Limit > 0 then params.Set "limit" (toString req.Limit) else params
      if req.OrderBy ≠ "" then params.Set "order_by" req.OrderBy else params
  let r ← get env "/orders" params true
  return decodeResult unmarshal r

/-- `GetClosedOrders` of `exchange.go`, on the struct behind the receiver. -/
def GetClosedOrders (unmarshal : String → Except Error (List Order)) (env : Env) (market : String)
    (states : List OrderState) (startTime endTime : String) (limit : Int) (orderBy : String) :
    Method (Except Error (List Order)) := do
  let params : Values := []
  let params := if market ≠ "" then params.Set "market" market else params
  let params :=
    if states.length > 0 then
      states.foldl (fun params state => params.Add "states[]" state) params
    else params
  let params := if startTime ≠ "" then params.Set "start_time" startTime else params
  let params := if endTime ≠ "" then params.Set "end_time" endTime else params
  let params := if limit > 0 then params.Set "limit" (toString limit) else params
  let params := if orderBy ≠ "" then params.Set "order_by" orderBy else params
  let r ← get env "/orders/closed" params true
  return decodeResult unmarshal r

/-- `PlaceOrder` of `exchange.go`, on the struct behind the receiver, for a request that is not
nil. -/
def PlaceOrder (unmarshal : String → Except Error Order) (env : Env) (req : PlaceOrderRequest) :
    Method (Except Error Order) := do
  let params : Values := []
  let params := params.Set "market" req.Market
  let params := params.Set "side" req.Side
  let params := params.Set "ord_type" req.OrdType
  let params := if req.Volume ≠ "" then params.Set "volume" req.Volume else params
  let params := if req.Price ≠ "" then params.Set "price" req.Price else params
  let params := if req.Identifier ≠ "" then params.Set "identifier" req.Identifier else params
  let params :=
    if req.TimeInForce ≠ "" then params.Set "time_in_force" req.TimeInForce else params
  let r ← post env "/orders" params true
  return decodeResult unmarshal r

/-- `CancelOrder` of `exchange.go`, on the struct behind the receiver. -/
def CancelOrder (unmarshal : String → Except Error Order) (env : Env) (uuid : String) :
    Method (Except Error Order) := do
  let params : Values := []
  let params := params.Set "uuid" uuid
  let r ← delete env "/order" params true
  match r with
  | .error err => return .error err
  | .ok body =>
    match unmarshal body with
    | .error err => return .error err
    | .ok order => return .ok order

/-- `CancelOrderByIdentifier` of `exchange.go`, on the struct behind the receiver. -/
def CancelOrderByIdentifier (unmarshal : String → Except Error Order) (env : Env)
    (identifier : String) : Method (Except Error Order) := do
  let params : Values := []
  let params := params.Set "identifier" identifier
  let r ← delete env "/order" params true
  return decodeResult unmarshal r

/-- `GetWithdraws` of `exchange.go`, on the struct behind the receiver. -/
def GetWithdraws (unmarshal : String → Except Error (List Withdraw)) (env : Env)
    (currency state : String) (uuids txids : List String) (limit page : Int) (orderBy : String) :
    Method (Except Error (List Withdraw)) := do
  let params := transferListParams currency state uuids txids limit page orderBy
  let r ← get env "/withdraws" params true
  return decodeResult unmarshal r

/-- `GetWithdraw` of `exchange.go`, on the struct behind the receiver. -/
def GetWithdraw (unmarshal : String → Except Error Withdraw) (env : Env) (uuid : String) :
    Method (Except Error Withdraw) := do
  let params : Values := []
  let params := params.Set "uuid" uuid
  let r ← get env "/withdraw" params true
  return decodeResult unmarshal r

/-- `GetWithdrawChance` of `exchange.go`, on the struct behind the receiver. -/
def GetWithdrawChance (unmarshal : String → Except Error WithdrawChance) (env : Env)
    (currency netType : String) : Method (Except Error WithdrawChance) := do
  let params : Values := []
  let params := params.Set "currency" currency
  let params := if netType ≠ "" then params.Set "net_type" netType else params
  let r ← get env "/withdraws/chance" params true
  return decodeResult unmarshal r

/-- `WithdrawCoin` of `exchange.go`, on the struct behind the receiver, for a request that is not
nil. -/
def WithdrawCoin (unmarshal : String → Except Error Withdraw) (env : Env)
    (req : WithdrawCoinRequest) : Method (Except Error Withdraw) := do
  let params : Values := []
  let params := params.Set "currency" req.Currency
  let params := params.Set "net_type" req.NetType
  let params := params.Set "amount" req.Amount
  let params := params.Set "address" req.Address
  let params :=
    if req.SecondaryAddress ≠ "" then params.Set "secondary_address" req.SecondaryAddress
    else params
  let params :=
    if req.TransactionType ≠ "" then params.Set "transaction_type" req.TransactionType
    else params
  let r ← post env "/withdraws/coin" params true
  return decodeResult unmarshal r

/-- `WithdrawKRW` of `exchange.go`, on the struct behind the receiver. -/
def WithdrawKRW (unmarshal : String → Except Error Withdraw) (env : Env)
    (amount twoFactorType : String) : Method (Except Error Withdraw) := do
  let params : Values := []
  let params := params.Set "amount" amount
  let params :=
    if twoFactorType ≠ "" then params.Set "two_factor_type" twoFactorType else params
  let r ← post env "/withdraws/krw" params true
  return decodeResult unmarshal r

/-- `GetDeposits` of `exchange.go`, on the struct behind the receiver. -/
def GetDeposits (unmarshal : String → Except Error (List Deposit)) (env : Env)
    (currency state : String) (uuids txids : List String) (limit page : Int) (orderBy : String) :
    Method (Except Error (List Deposit)) := do
  let params := transferListParams currency state uuids txids limit page orderBy
  let r ← get env "/deposits" params true
  return decodeResult unmarshal r

/-- `GetDeposit` of `exchange.go`, on the struct behind the receiver. -/
def GetDeposit (unmarshal : String → Except Error Deposit) (env : Env) (uuid : String) :
    Method (Except Error Deposit) := do
  let params : Values := []
  let params := params.Set "uuid" uuid
  let r ← get env "/deposit" params true
  return decodeResult unmarshal r

/-- `GenerateDepositAddress` of `exchange.go`, on the struct behind the receiver. -/
def GenerateDepositAddress (unmarshal : String → Except Error DepositAddress) (env : Env)
    (currency netType : String) : Method (Except Error DepositAddress) := do
  let params : Values := []
  let params := params.Set "currency" currency
  let params := params.Set "net_type" netType
  let r ← post env "/deposits/generate_coin_address" params true
  return decodeResult unmarshal r

/-- `GetDepositAddresses` of `exchange.go`, on the struct behind the receiver. -/
def GetDepositAddresses (unmarshal : String → Except Error (List DepositAddress)) (env : Env) :
    Method (Except Error (List DepositAddress)) := do
  let r ← get env "/deposits/coin_addresses" [] true
  return decodeResult unmarshal r

/-- `GetDepositAddress` of `exchange.go`, on the struct behind the receiver. -/
def GetDepositAddress (unmarshal : String → Except Error DepositAddress) (env : Env)
    (currency netType : String) : Method (Except Error DepositAddress) := do
  let params : Values := []
  let params := params.Set "currency" currency
  let params := params.Set "net_type" netType
  let r ← get env "/deposits/coin_address" params true
  return decodeResult unmarshal r

/-- `GetWalletStatus` of `exchange.go`, on the struct behind the receiver. -/
def GetWalletStatus (unmarshal : String → Except Error (List WalletStatus)) (env : Env) :
    Method (Except Error (List WalletStatus)) := do
  let r ← get env "/status/wallet" [] true
  return decodeResult unmarshal r

/-- `GetAPIKeys` of `exchange.go`, on the struct behind the receiver. -/
def GetAPIKeys (unmarshal : String → Except Error (List APIKey)) (env : Env) :
    Method (Except Error (List APIKey)) := do
  let r ← get env "/api_keys" [] true
  return decodeResult unmarshal r

end Stateful

/-- One call of a method of `Client`, with its arguments (for a wrapper also the
decoder of its result and the environment of the call). -/
inductive ClientCall where
  | SetHTTPClient (client : HTTPClient)
  | SetBaseURL (baseURL : String)
  | generateToken (env : Env) (queryParams : Values)
  | doRequest (env : Env) (method endpoint : String) (params : Values) (authenticated : Bool)
  | get (env : Env) (endpoint : String) (params : Values) (authenticated : Bool)
  | post (env : Env) (endpoint : String) (params : Values) (authenticated : Bool)
  | delete (env : Env) (endpoint : String) (params : Values) (authenticated : Bool)
  | GetMarkets (env : Env) (isDetails : Bool)
  | GetMinuteCandles (unmarshal : String → Except Error (List Candle)) (env : Env) (market : String)
      (unit : Int) (to_ : String) (count : Int)
  | GetDayCandles (unmarshal : String → Except Error (List Candle)) (env : Env)
      (market to_ : String) (count : Int) (convertingPriceUnit : String)
  | GetWeekCandles (unmarshal : String → Except Error (List Candle)) (env : Env)
      (market to_ : String) (count : Int)
  | GetMonthCandles (unmarshal : String → Except Error (List Candle)) (env : Env)
      (market to_ : String) (count : Int)
  | GetTicker (unmarshal : String → Except Error (List Ticker)) (env : Env) (markets : List String)
  | GetAllTickers (unmarshal : String → Except Error (List Ticker)) (env : Env)
      (quoteCurrencies : List String)
  | GetOrderbook (unmarshal : String → Except Error (List Orderbook)) (env : Env)
      (markets : List String) (level : Int)
  | GetTrades (unmarshal : String → Except Error (List Trade)) (env : Env) (market to_ : String)
      (count : Int) (cursor : String) (daysAgo : Int)
  | GetAccounts (unmarshal : String → Except Error (List Account)) (env : Env)
  | GetOrderChance (unmarshal : String → Except Error OrderChance) (env : Env) (market : String)
  | GetOrder (unmarshal : String → Except Error OrderDetail) (env : Env) (uuid : String)
  | GetOrderByIdentifier (unmarshal : String → Except Error OrderDetail) (env : Env)
      (identifier : String)
  | GetOrders (unmarshal : String → Except Error (List Order)) (env : Env)
      (req : Option GetOrdersRequest)
  | GetClosedOrders (unmarshal : String → Except Error (List Order)) (env : Env) (market : String)
      (states : List OrderState) (startTime endTime : String) (limit : Int) (orderBy : String)
  | PlaceOrder (unmarshal : String → Except Error Order) (env : Env) (req : PlaceOrderRequest)
  | CancelOrder (unmarshal : String → Except Error Order) (env : Env) (uuid : String)
  | CancelOrderByIdentifier (unmarshal : String → Except Error Order) (env : Env)
      (identifier : String)
  | GetWithdraws (unmarshal : String → Except Error (List Withdraw)) (env : Env)
      (currency state : String) (uuids txids : List String) (limit page : Int) (orderBy : String)
  | GetWithdraw (unmarshal : String → Except Error Withdraw) (env : Env) (uuid : String)
  | GetWithdrawChance (unmarshal : String → Except Error WithdrawChance) (env : Env)
      (currency netType : String)
  | WithdrawCoin (unmarshal : String → Except Error Withdraw) (env : Env)
      (req : WithdrawCoinRequest)
  | WithdrawKRW (unmarshal : String → Except Error Withdraw) (env : Env)
      (amount twoFactorType : String)
  | GetDeposits (unmarshal : String → Except Error (List Deposit)) (env : Env)
      (currency state : String) (uuids txids : List String) (limit page : Int) (orderBy : String)
  | GetDeposit (unmarshal : String → Except Error Deposit) (env : Env) (uuid : String)
  | GenerateDepositAddress (unmarshal : String → Except Error DepositAddress) (env : Env)
      (currency netType : String)
  | GetDepositAddresses (unmarshal : String → Except Error (List DepositAddress)) (env : Env)
  | GetDepositAddress (unmarshal : String → Except Error DepositAddress) (env : Env)
      (currency netType : String)
  | GetWalletStatus (unmarshal : String → Except Error (List WalletStatus)) (env : Env)
  | GetAPIKeys (unmarshal : String → Except Error (List APIKey)) (env : Env)

/-- The method a call runs, its results dropped. -/
def ClientCall.run : ClientCall → Method Unit
  | .SetHTTPClient client => Stateful.SetHTTPClient client
  | .SetBaseURL baseURL => Stateful.SetBaseURL baseURL
  | .generateToken env queryParams =>
      Method.drop (Stateful.generateToken env queryParams)
  | .doRequest env method endpoint params authenticated =>
      Method.drop (Stateful.doRequest env method endpoint params authenticated)
  | .get env endpoint params authenticated =>
      Method.drop (Stateful.get env endpoint params authenticated)
  | .post env endpoint params authenticated =>
      Method.drop (Stateful.post env endpoint params authenticated)
  | .delete env endpoint params authenticated =>
      Method.drop (Stateful.delete env endpoint params authenticated)
  | .GetMarkets env isDetails => Method.drop (Stateful.GetMarkets env isDetails)
  | .GetMinuteCandles unmarshal env market unit to_ count =>
      Method.drop (Stateful.GetMinuteCandles unmarshal env market unit to_ count)
  | .GetDayCandles unmarshal env market to_ count convertingPriceUnit =>
      Method.drop (Stateful.GetDayCandles unmarshal env market to_ count convertingPriceUnit)
  | .GetWeekCandles unmarshal env market to_ count =>
      Method.drop (Stateful.GetWeekCandles unmarshal env market to_ count)
  | .GetMonthCandles unmarshal env market to_ count =>
      Method.drop (Stateful.GetMonthCandles unmarshal env market to_ count)
  | .GetTicker unmarshal env markets =>
      Method.drop (Stateful.GetTicker unmarshal env markets)
  | .GetAllTickers unmarshal env quoteCurrencies =>
      Method.drop (Stateful.GetAllTickers unmarshal env quoteCurrencies)
  | .GetOrderbook unmarshal env markets level =>
      Method.drop (Stateful.GetOrderbook unmarshal env markets level)
  | .GetTrades unmarshal env market to_ count cursor daysAgo =>
      Method.drop (Stateful.GetTrades unmarshal env market to_ count cursor daysAgo)
  | .GetAccounts unmarshal env => Method.drop (Stateful.GetAccounts unmarshal env)
  | .GetOrderChance unmarshal env market =>
      Method.drop (Stateful.GetOrderChance unmarshal env market)
  | .GetOrder unmarshal env uuid => Method.drop (Stateful.GetOrder unmarshal env uuid)
  | .GetOrderByIdentifier unmarshal env identifier =>
      Method.drop (Stateful.GetOrderByIdentifier unmarshal env identifier)
  | .GetOrders unmarshal env req => Method.drop (Stateful.GetOrders unmarshal env req)
  | .GetClosedOrders unmarshal env market states startTime endTime limit orderBy =>
      Method.drop (Stateful.GetClosedOrders unmarshal env market states startTime endTime limit
        orderBy)
  | .PlaceOrder unmarshal env req => Method.drop (Stateful.PlaceOrder unmarshal env req)
  | .CancelOrder unmarshal env uuid => Method.drop (Stateful.CancelOrder unmarshal env uuid)
  | .CancelOrderByIdentifier unmarshal env identifier =>
      Method.drop (Stateful.CancelOrderByIdentifier unmarshal env identifier)
  | .GetWithdraws unmarshal env currency state uuids txids limit page orderBy =>
      Method.drop (Stateful.GetWithdraws unmarshal env currency state uuids txids limit page
        orderBy)
  | .GetWithdraw unmarshal env uuid => Method.drop (Stateful.GetWithdraw unmarshal env uuid)
  | .GetWithdrawChance unmarshal env currency netType =>
      Method.drop (Stateful.GetWithdrawChance unmarshal env currency netType)
  | .WithdrawCoin unmarshal env req => Method.drop (Stateful.WithdrawCoin unmarshal env req)
  | .WithdrawKRW unmarshal env amount twoFactorType =>
      Method.drop (Stateful.WithdrawKRW unmarshal env amount twoFactorType)
  | .GetDeposits unmarshal env currency state uuids txids limit page orderBy =>
      Method.drop (Stateful.GetDeposits unmarshal env currency state uuids txids limit page
        orderBy)
  | .GetDeposit unmarshal env uuid => Method.drop (Stateful.GetDeposit unmarshal env uuid)
  | .GenerateDepositAddress unmarshal env currency netType =>
      Method.drop (Stateful.GenerateDepositAddress unmarshal env currency netType)
  | .GetDepositAddresses unmarshal env =>
      Method.drop (Stateful.GetDepositAddresses unmarshal env)
  | .GetDepositAddress unmarshal env currency netType =>
      Method.drop (Stateful.GetDepositAddress unmarshal env currency netType)
  | .GetWalletStatus unmarshal env => Method.drop (Stateful.GetWalletStatus unmarshal env)
  | .GetAPIKeys unmarshal env => Method.drop (Stateful.GetAPIKeys unmarshal env)

/-- Whether the call is one of the two setters. -/
def ClientCall.isSetter : ClientCall → Bool
  | .SetHTTPClient _ => true
  | .SetBaseURL _ => true
  | _ => false

/-- The struct behind the receiver after a call. -/
def ClientCall.after (c : Client) (call : ClientCall) : Client :=
  Method.after call.run c

/-- The wrapper `w`, as a function of the client and the environment, makes the
executor call `doRequest(method, endpoint, params, authenticated)` for one mapping
`params`, and the outcome of that call alone determines what it returns: an error `e`
of the executor comes back as `e` itself, with no result; a body is handed to `tail`. -/
def ReturnsExecutorError (method endpoint : String) (authenticated : Bool)
    (w : Client → Env → Except Error α) : Prop :=
  ∃ (params : Values) (tail : String → Except Error α), ∀ (c : Client) (env : Env),
    (∀ e, doRequest c env method endpoint params authenticated = .error e →
      w c env = .error e) ∧
    (∀ body, doRequest c env method endpoint params authenticated = .ok body →
      w c env = tail body)

/-! ## Sample inputs -/

/-- A client with the credentials `access` / `secret` and the production base URL,
whose transport answers every request with the given status code and body. -/
def sampleClient (status : Int) (body : String) : Client :=
  { accessKey := "access"
    secretKey := "secret"
    httpClient :=
      { Timeout := 30000000000
        Do := fun _ => .ok { StatusCode := status, Body := .ok body } }
    baseURL := "https://api.upbit.com/v1" }

/-- An environment: a fixed UUID, a fixed clock, and an `http.NewRequest` that accepts
what it is given. -/
def sampleEnv : Env :=
  { newUUID := "6ba7b810-9dad-41d1-80b4-00c04fd430c8"
    nowUnixMilli := 1730000000000
    newRequestError := fun _ _ => none }

/-- The JSON text of the object with the one member `error`, itself an object with
the members `name` and `message`, the two strings written as `json.Marshal` writes
them: the error body of the exchange. -/
def errorBody (name message : String) : String :=
  "\x7b\"error\":\x7b\"name\":" ++ jsonQuote name ++ ",\"message\":" ++ jsonQuote message ++
    "\x7d\x7d"

/-- A day candle of `KRW-BTC` for the given date. -/
def sampleCandle (date : String) (timestamp : Int) : Candle :=
  { Market := "KRW-BTC"
    CandleDateTimeUtc := date
    CandleDateTimeKst := date
    OpeningPrice := 50000000
    HighPrice := 51000000
    LowPrice := 49000000
    TradePrice := 50500000
    Timestamp := timestamp
    CandleAccTradePrice := 0
    CandleAccTradeVolume := 0
    Unit := 0
    FirstDayOfPeriod := "" }

/-- The document of one market object with the three members `market`, `korean_name`
and `english_name`. -/
def marketDoc (m : String × String × String) : JSON :=
  .obj [("market", .str m.1), ("korean_name", .str m.2.1), ("english_name", .str m.2.2)]

/-- The JSON text of one market object, its strings written as `json.Marshal` writes
them. -/
def marketText (m : String × String × String) : String :=
  "\x7b\"market\":" ++ jsonQuote m.1 ++ ",\"korean_name\":" ++ jsonQuote m.2.1 ++
    ",\"english_name\":" ++ jsonQuote m.2.2 ++ "\x7d"

/-- The JSON text of an array of market objects: the body of `/market/all`. -/
def marketsBody (ms : List (String × String × String)) : String :=
  "[" ++ ",".intercalate (ms.map marketText) ++ "]"

/-- A member of a market object for the strings `m`: if its key selects the field
`Market`, `KoreanName` or `EnglishName`, its value is the matching string of `m`; if
it selects `MarketWarning` it is a string; if it selects `MarketEvent` it is a value
that `json.Unmarshal` accepts for that field. Members with other keys are free. -/
def IsMarketMember (m : String × String × String) (kv : String × JSON) : Prop :=
  (keyMatches "market" kv.1 = true → kv.2 = .str m.1) ∧
  (keyMatches "korean_name" kv.1 = true → kv.2 = .str m.2.1) ∧
  (keyMatches "english_name" kv.1 = true → kv.2 = .str m.2.2) ∧
  (keyMatches "market_warning" kv.1 = true → ∃ s, kv.2 = .str s) ∧
  (keyMatches "market_event" kv.1 = true →
    ∀ cur, (decodePointer zeroMarketEvent decodeMarketEvent cur kv.2).isSome = true)

/-- A market object whose `market`, `korean_name` and `english_name` strings are `m`:
a JSON object that has the three members and whose members are all as
`IsMarketMember` says; the members stand in any order, and there may be others. -/
def IsMarketObject (doc : JSON) (m : String × String × String) : Prop :=
  ∃ members, doc = .obj members ∧
    (∃ kv ∈ members, keyMatches "market" kv.1 = true) ∧
    (∃ kv ∈ members, keyMatches "korean_name" kv.1 = true) ∧
    (∃ kv ∈ members, keyMatches "english_name" kv.1 = true) ∧
    ∀ kv ∈ members, IsMarketMember m kv

/-- The three fields of a decoded `Market` that a market object determines. -/
def MarketNamed (r : Market) (m : String × String × String) : Prop :=
  r.Market = m.1 ∧ r.KoreanName = m.2.1 ∧ r.EnglishName = m.2.2

/-- Go's `json.Unmarshal(data, &xs)` for a nil slice `xs []T`, given how one element
of type `T` is decoded into a fresh zero value: a JSON array gives one element per
array element, in order; `null` leaves the slice nil; anything else is an error. -/
def jsonUnmarshalSlice (decode : JSON → Option α) (data : String) : Except Error (List α) :=
  match jsonParse data with
  | none => .error (.text "json: invalid JSON")
  | some (.arr elems) =>
      match decodeElements decode elems with
      | none => .error (.text "json: cannot unmarshal into Go value")
      | some xs => .ok xs
  | some .null => .ok []
  | some _ => .error (.text "json: cannot unmarshal into Go value")

/-- The list `L` holds the decoded elements of the JSON array `docs`: same length, and
element `i` of `L` is what element `i` of `docs` decodes to. -/
def DecodesTo (decode : JSON → Option α) (docs : List JSON) (L : List α) : Prop :=
  List.Forall₂ (fun doc x => decode doc = some x) docs L

/-- The `key=value` pairs of the keys `ks`, in the spec's words: under each key its
values in their stored order, key and value percent-encoded. -/
def Values.pairsOf (v : Values) (ks : List String) : List String :=
  ks.flatMap fun k => (Values.lookup v k).map fun x => QueryEscape k ++ "=" ++ QueryEscape x

/-- The canonical encoding in the spec's words, as the list of its `key=value` pairs:
those of the keys in ascending order. -/
def Values.pairs (v : Values) : List String :=
  Values.pairsOf v (Values.sortedKeys v)

/-- In the encoded text of `v` the key `key` stands in exactly the pairs `key=x` for the
`x` of `values`, in that order and next to each other: the sorted keys hold `key` once,
and the text is the pairs of the keys before it, these pairs, and the pairs of the keys
after it, joined by `&`. -/
def Values.EncodesRepeated (v : Values) (key : String) (values : List String) : Prop :=
  ∃ before after : List String,
    Values.sortedKeys v = before ++ key :: after ∧ key ∉ before ∧ key ∉ after ∧
    Values.Encode v =
      "&".intercalate
        (Values.pairsOf v before ++
          values.map (fun x => QueryEscape key ++ "=" ++ QueryEscape x) ++
          Values.pairsOf v after)

/-! ## Lemmas on building the request -/

theorem generateToken_ok (c : Client) (env : Env) (params : Values) :
    generateToken c env params = .ok
      (SigningString (generateTokenClaims c env params) ++ "." ++
        base64RawURLEncode (hmacSHA256 (utf8Bytes c.secretKey)
          (utf8Bytes (SigningString (generateTokenClaims c env params))))) := rfl

theorem doRequestBuild_eq (c : Client) (env : Env) (method endpoint : String)
    (params : Values) (authenticated : Bool) (token : String)
    (ht : generateToken c env params = .ok token)
    (h : env.newRequestError method (doRequestTarget c method endpoint params).1 = none) :
    doRequestBuild c env method endpoint params authenticated = .ok
      { Method := if method = "" then MethodGet else method
        URL := (doRequestTarget c method endpoint params).1
        Body := (doRequestTarget c method endpoint params).2
        Header :=
          [("Accept", ["application/json"])] ++
          (if method = MethodPost ∨ method = MethodDelete then
            [("Content-Type", ["application/x-www-form-urlencoded"])] else []) ++
          (if authenticated then [("Authorization", ["Bearer " ++ token])] else []) } := by
  simp only [doRequestBuild, NewRequest, h, ht]
  cases authenticated <;> by_cases hm : method = MethodPost ∨ method = MethodDelete <;>
    simp [hm, Header.Set]

theorem doRequestBuild_ok (c : Client) (env : Env) (method endpoint : String)
    (params : Values) (authenticated : Bool)
    (h : env.newRequestError method (doRequestTarget c method endpoint params).1 = none) :
    ∃ req token, doRequestBuild c env method endpoint params authenticated = .ok req ∧
      generateToken c env params = .ok token ∧
      req.URL = (doRequestTarget c method endpoint params).1 ∧
      req.Body = (doRequestTarget c method endpoint params).2 ∧
      req.Header.Values "Accept" = ["application/json"] ∧
      req.Header.Values "Content-Type" =
        (if method = MethodPost ∨ method = MethodDelete then
          ["application/x-www-form-urlencoded"] else []) ∧
      req.Header.Values "Authorization" =
        (if authenticated then ["Bearer " ++ token] else []) := by
  refine ⟨_, _, doRequestBuild_eq c env method endpoint params authenticated _
    (generateToken_ok c env params) h, generateToken_ok c env params, rfl, rfl, ?_⟩
  cases authenticated <;> by_cases hm : method = MethodPost ∨ method = MethodDelete <;>
    simp [hm, Header.Values]

theorem doRequest_of_build (c : Client) (env : Env) (method endpoint : String)
    (params : Values) (authenticated : Bool) (req : Request)
    (h : doRequestBuild c env method endpoint params authenticated = .ok req) :
    doRequest c env method endpoint params authenticated =
      doRequestFinish (c.httpClient.Do req) := by
  simp only [doRequest, h]

theorem query_hash_claim (c : Client) (env : Env) (p : Values) (hp : Values.len p > 0) :
    (generateTokenClaims c env p).get "query_hash" =
      some (.str (hexEncodeToString (sha512Sum512 (utf8Bytes (Values.Encode p))))) := by
  simp [generateTokenClaims, hp, MapClaims.set, MapClaims.get]

/-! ## The signer and the executor agree on the encoding -/

/-- C1: for every client, method (in particular `GET`, `POST`, `DELETE`), endpoint and
non-empty parameter mapping `p`, an authenticated `doRequest` hands the HTTP client a
request whose parameters are the string `sent = p.Encode()` (after `?` in the URL for
`GET`, as the body otherwise) and whose `Authorization` header is `Bearer` plus the
token signed over a claim set whose `query_hash` is the lowercase hex SHA-512 of the
bytes of that same string `sent`. -/
theorem signer_hashes_what_executor_sends (c : Client) (env : Env)
    (method endpoint : String) (p : Values)
    (hp : Values.len p > 0)
    (h : env.newRequestError method (doRequestTarget c method endpoint p).1 = none) :
    ∃ req token sent,
      doRequestBuild c env method endpoint p true = .ok req ∧
      doRequest c env method endpoint p true = doRequestFinish (c.httpClient.Do req) ∧
      sent = Values.Encode p ∧
      ((method = MethodGet ∧ req.URL = c.baseURL ++ endpoint ++ "?" ++ sent ∧
          req.Body = none) ∨
        (method ≠ MethodGet ∧ req.URL = c.baseURL ++ endpoint ∧ req.Body = some sent)) ∧
      req.Header.Values "Authorization" = ["Bearer " ++ token] ∧
      generateToken c env p = .ok token ∧
      token = SigningString (generateTokenClaims c env p) ++ "." ++
        base64RawURLEncode (hmacSHA256 (utf8Bytes c.secretKey)
          (utf8Bytes (SigningString (generateTokenClaims c env p)))) ∧
      (generateTokenClaims c env p).get "query_hash" =
        some (.str (hexEncodeToString (sha512Sum512 (utf8Bytes sent)))) := by
  obtain ⟨req, token, hb, ht, hu, hbody, -, -, ha⟩ := doRequestBuild_ok c env method endpoint p true h
  refine ⟨req, token, Values.Encode p, hb, doRequest_of_build _ _ _ _ _ _ _ hb, rfl, ?_, ?_, ht,
    ?_, query_hash_claim c env p hp⟩
  · by_cases hm : method = MethodGet
    · left
      refine ⟨hm, ?_, ?_⟩
      · rw [hu]; simp [doRequestTarget, hm, hp]
      · rw [hbody]; simp [doRequestTarget, hm, hp]
    · right
      refine ⟨hm, ?_, ?_⟩
      · rw [hu]; simp [doRequestTarget, hm, hp]
      · rw [hbody]; simp [doRequestTarget, hm, hp]
  · simpa using ha
  · rw [generateToken_ok] at ht
    exact (Except.ok.inj ht).symm

theorem signer_hashes_what_executor_sends_witness :
    ∃ req token sent,
      doRequestBuild (sampleClient 200 "[]") sampleEnv MethodDelete "/order"
        [("uuid", ["abc"])] true = .ok req ∧
      doRequest (sampleClient 200 "[]") sampleEnv MethodDelete "/order"
        [("uuid", ["abc"])] true =
          doRequestFinish ((sampleClient 200 "[]").httpClient.Do req) ∧
      sent = Values.Encode [("uuid", ["abc"])] ∧
      ((MethodDelete = MethodGet ∧
          req.URL = (sampleClient 200 "[]").baseURL ++ "/order" ++ "?" ++ sent ∧
          req.Body = none) ∨
        (MethodDelete ≠ MethodGet ∧ req.URL = (sampleClient 200 "[]").baseURL ++ "/order" ∧
          req.Body = some sent)) ∧
      req.Header.Values "Authorization" = ["Bearer " ++ token] ∧
      generateToken (sampleClient 200 "[]") sampleEnv [("uuid", ["abc"])] = .ok token ∧
      token = SigningString (generateTokenClaims (sampleClient 200 "[]") sampleEnv
          [("uuid", ["abc"])]) ++ "." ++
        base64RawURLEncode (hmacSHA256 (utf8Bytes (sampleClient 200 "[]").secretKey)
          (utf8Bytes (SigningString (generateTokenClaims (sampleClient 200 "[]") sampleEnv
            [("uuid", ["abc"])])))) ∧
      (generateTokenClaims (sampleClient 200 "[]") sampleEnv [("uuid", ["abc"])]).get
          "query_hash" =
        some (.str (hexEncodeToString (sha512Sum512 (utf8Bytes sent)))) :=
  signer_hashes_what_executor_sends (sampleClient 200 "[]") sampleEnv MethodDelete "/order"
    [("uuid", ["abc"])] (by decide) rfl

/-! ## Where the parameters of a `DELETE` go -/

theorem encode_single (k v : String) :
    Values.Encode (Values.Set [] k v) = QueryEscape k ++ "=" ++ QueryEscape v := by
  simp [Values.Encode, Values.Set, Values.len, Values.keys, Values.sortedKeys, Values.lookup,
    Values.encodePair]

theorem len_set_pos (k v : String) : Values.len (Values.Set [] k v) > 0 := by
  simp [Values.Set, Values.len, Values.keys]

theorem cancelOrder_eq (unmarshal : String → Except Error Order) (c : Client) (env : Env)
    (uuid : String) (req : Request)
    (hb : doRequestBuild c env MethodDelete "/order" (Values.Set [] "uuid" uuid) true =
      .ok req) :
    CancelOrder unmarshal c env uuid =
      (doRequestFinish (c.httpClient.Do req)).bind unmarshal := by
  simp only [CancelOrder, delete, doRequest, hb]
  cases doRequestFinish (c.httpClient.Do req) with
  | error e => rfl
  | ok b =>
    simp only [Except.bind]
    cases unmarshal b <;> rfl

/-- C2, as stated, fails: the request `CancelOrder("abc")` builds on the sample client
has the URL `https://api.upbit.com/v1/order` with no query string, and carries the
encoded parameters `uuid=abc` as its body. -/
theorem cancelOrder_parameters_not_in_url :
    ∃ req,
      doRequestBuild (sampleClient 200 "[]") sampleEnv MethodDelete "/order"
        (Values.Set [] "uuid" "abc") true = .ok req ∧
      req.URL = "https://api.upbit.com/v1/order" ∧
      req.Body = some "uuid=abc" ∧
      req.URL ≠ "https://api.upbit.com/v1/order?uuid=abc" ∧
      req.Body ≠ none := by
  obtain ⟨req, _, hb, -, hu, hbody, -⟩ := doRequestBuild_ok (sampleClient 200 "[]") sampleEnv
    MethodDelete "/order" (Values.Set [] "uuid" "abc") true rfl
  have hu2 : req.URL = "https://api.upbit.com/v1/order" := by rw [hu]; decide
  have hb2 : req.Body = some "uuid=abc" := by rw [hbody]; decide
  refine ⟨req, hb, hu2, hb2, ?_, ?_⟩
  · rw [hu2]; decide
  · rw [hb2]; simp

/-- C2, amended: for every `DELETE` request with a non-empty parameter mapping,
`doRequest` hands the HTTP client a request whose URL is exactly `baseURL + endpoint`
and whose body is the encoded parameters; in particular the request of
`CancelOrder(uuid)` goes to `baseURL + "/order"` with the body `uuid=` followed by the
escaped `uuid`, and `CancelOrder` decodes what the executor makes of the reply to
that request. -/
theorem delete_sends_parameters_in_body (unmarshal : String → Except Error Order)
    (c : Client) (env : Env) (endpoint : String) (p : Values) (authenticated : Bool)
    (uuid : String)
    (hp : Values.len p > 0)
    (h : env.newRequestError MethodDelete (c.baseURL ++ endpoint) = none)
    (ho : env.newRequestError MethodDelete (c.baseURL ++ "/order") = none) :
    (∃ req,
      doRequestBuild c env MethodDelete endpoint p authenticated = .ok req ∧
      doRequest c env MethodDelete endpoint p authenticated =
        doRequestFinish (c.httpClient.Do req) ∧
      req.Method = MethodDelete ∧
      req.URL = c.baseURL ++ endpoint ∧
      req.Body = some (Values.Encode p)) ∧
    (∃ req,
      doRequestBuild c env MethodDelete "/order" (Values.Set [] "uuid" uuid) true = .ok req ∧
      CancelOrder unmarshal c env uuid =
        (doRequestFinish (c.httpClient.Do req)).bind unmarshal ∧
      req.Method = MethodDelete ∧
      req.URL = c.baseURL ++ "/order" ∧
      req.Body = some ("uuid=" ++ QueryEscape uuid)) := by
  have key : ∀ (e : String) (q : Values) (a : Bool), Values.len q > 0 →
      env.newRequestError MethodDelete (c.baseURL ++ e) = none →
      ∃ req, doRequestBuild c env MethodDelete e q a = .ok req ∧
        req.Method = MethodDelete ∧ req.URL = c.baseURL ++ e ∧
        req.Body = some (Values.Encode q) := by
    intro e q a hq he
    have ht : (doRequestTarget c MethodDelete e q) =
        (c.baseURL ++ e, some (Values.Encode q)) := by
      have : MethodDelete ≠ MethodGet := by decide
      simp [doRequestTarget, this, hq]
    have he2 :
        env.newRequestError MethodDelete (doRequestTarget c MethodDelete e q).1 = none := by
      rw [ht]; exact he
    refine ⟨_, doRequestBuild_eq c env MethodDelete e q a _ (generateToken_ok c env q) he2,
      ?_, ?_, ?_⟩
    · rfl
    · simp only [ht]
    · simp only [ht]
  constructor
  · obtain ⟨req, hb, hm, hu, hbody⟩ := key endpoint p authenticated hp h
    exact ⟨req, hb, doRequest_of_build _ _ _ _ _ _ _ hb, hm, hu, hbody⟩
  · obtain ⟨req, hb, hm, hu, hbody⟩ := key "/order" (Values.Set [] "uuid" uuid) true
      (len_set_pos _ _) ho
    refine ⟨req, hb, cancelOrder_eq unmarshal c env uuid req hb, hm, hu, ?_⟩
    rw [hbody, encode_single]
    have : QueryEscape "uuid" = "uuid" := by decide
    rw [this]
    rfl

theorem delete_sends_parameters_in_body_witness :
    (∃ req,
      doRequestBuild (sampleClient 200 "[]") sampleEnv MethodDelete "/order"
        [("identifier", ["my order"])] true = .ok req ∧
      doRequest (sampleClient 200 "[]") sampleEnv MethodDelete "/order"
        [("identifier", ["my order"])] true =
          doRequestFinish ((sampleClient 200 "[]").httpClient.Do req) ∧
      req.Method = MethodDelete ∧
      req.URL = (sampleClient 200 "[]").baseURL ++ "/order" ∧
      req.Body = some (Values.Encode [("identifier", ["my order"])])) ∧
    (∃ req,
      doRequestBuild (sampleClient 200 "[]") sampleEnv MethodDelete "/order"
        (Values.Set [] "uuid" "a/b") true = .ok req ∧
      CancelOrder (fun _ => .error (.text "json: not an order")) (sampleClient 200 "[]")
        sampleEnv "a/b" =
        (doRequestFinish ((sampleClient 200 "[]").httpClient.Do req)).bind
          (fun _ => .error (.text "json: not an order")) ∧
      req.Method = MethodDelete ∧
      req.URL = (sampleClient 200 "[]").baseURL ++ "/order" ∧
      req.Body = some ("uuid=" ++ QueryEscape "a/b")) :=
  delete_sends_parameters_in_body (fun _ => .error (.text "json: not an order"))
    (sampleClient 200 "[]") sampleEnv "/order" [("identifier", ["my order"])] true "a/b"
    (by decide) rfl rfl

/-! ## The claim set -/

/-- C6: for every client and parameter mapping `p` (the empty list also stands for
`nil`), the claim set `generateToken` signs holds the client's access key under
`access_key`; its keys are exactly `access_key`, `nonce`, `timestamp` when `p` is
empty, and those three plus `query_hash` and `query_hash_alg` when `p` is not empty,
`query_hash_alg` then being the literal `SHA512`. -/
theorem generateToken_claim_set (c : Client) (env : Env) (p : Values) :
    generateToken c env p =
      SignedString (generateTokenClaims c env p) (utf8Bytes c.secretKey) ∧
    (generateTokenClaims c env p).get "access_key" = some (.str c.accessKey) ∧
    (generateTokenClaims c env p).keys =
      (if Values.len p > 0 then
        ["access_key", "nonce", "timestamp", "query_hash", "query_hash_alg"]
       else ["access_key", "nonce", "timestamp"]) ∧
    (generateTokenClaims c env p).get "query_hash_alg" =
      (if Values.len p > 0 then some (.str "SHA512") else none) := by
  refine ⟨rfl, ?_, ?_, ?_⟩
  · by_cases hp : Values.len p > 0 <;>
      simp [generateTokenClaims, hp, MapClaims.set, MapClaims.get]
  · by_cases hp : Values.len p > 0
    · simp only [generateTokenClaims, hp, if_true]
      rfl
    · simp only [generateTokenClaims, hp, if_false]
      rfl
  · by_cases hp : Values.len p > 0 <;>
      simp [generateTokenClaims, hp, MapClaims.set, MapClaims.get]

/-! ## Headers, URL and body of every request -/

/-- C8: for every `doRequest` call whose request `http.NewRequest` accepts, the request
handed to the HTTP client has the header `Authorization` with the single value
`Bearer ` followed by the token `generateToken` returns for the call's parameter
mapping when `authenticated` is true, and has no `Authorization` header when it is
false. -/
theorem authorization_header_iff_authenticated (c : Client) (env : Env)
    (method endpoint : String) (params : Values) (authenticated : Bool)
    (h : env.newRequestError method (doRequestTarget c method endpoint params).1 = none) :
    ∃ req token,
      doRequestBuild c env method endpoint params authenticated = .ok req ∧
      doRequest c env method endpoint params authenticated =
        doRequestFinish (c.httpClient.Do req) ∧
      generateToken c env params = .ok token ∧
      req.Header.Values "Authorization" =
        (if authenticated then ["Bearer " ++ token] else []) ∧
      req.Header.Get "Authorization" =
        (if authenticated then "Bearer " ++ token else "") := by
  obtain ⟨req, token, hb, ht, -, -, -, -, ha⟩ :=
    doRequestBuild_ok c env method endpoint params authenticated h
  refine ⟨req, token, hb, doRequest_of_build _ _ _ _ _ _ _ hb, ht, ha, ?_⟩
  simp only [Header.Get, ha]
  cases authenticated <;> rfl

theorem authorization_header_iff_authenticated_witness :
    ∃ req token,
      doRequestBuild (sampleClient 200 "[]") sampleEnv MethodGet "/accounts" [] true =
        .ok req ∧
      doRequest (sampleClient 200 "[]") sampleEnv MethodGet "/accounts" [] true =
        doRequestFinish ((sampleClient 200 "[]").httpClient.Do req) ∧
      generateToken (sampleClient 200 "[]") sampleEnv [] = .ok token ∧
      req.Header.Values "Authorization" = (if true then ["Bearer " ++ token] else []) ∧
      req.Header.Get "Authorization" = (if true then "Bearer " ++ token else "") :=
  authorization_header_iff_authenticated (sampleClient 200 "[]") sampleEnv MethodGet
    "/accounts" [] true rfl

/-- C9: for every `doRequest` call whose request `http.NewRequest` accepts, the request
has the header `Accept: application/json`, and has the header
`Content-Type: application/x-www-form-urlencoded` when the method is `POST` or
`DELETE` and no `Content-Type` header otherwise (so never for `GET`). -/
theorem accept_and_content_type_headers (c : Client) (env : Env)
    (method endpoint : String) (params : Values) (authenticated : Bool)
    (h : env.newRequestError method (doRequestTarget c method endpoint params).1 = none) :
    ∃ req,
      doRequestBuild c env method endpoint params authenticated = .ok req ∧
      doRequest c env method endpoint params authenticated =
        doRequestFinish (c.httpClient.Do req) ∧
      req.Header.Values "Accept" = ["application/json"] ∧
      req.Header.Values "Content-Type" =
        (if method = MethodPost ∨ method = MethodDelete then
          ["application/x-www-form-urlencoded"] else []) ∧
      (method = MethodGet → req.Header.Values "Content-Type" = []) := by
  obtain ⟨req, token, hb, -, -, -, hacc, hct, -⟩ :=
    doRequestBuild_ok c env method endpoint params authenticated h
  refine ⟨req, hb, doRequest_of_build _ _ _ _ _ _ _ hb, hacc, hct, ?_⟩
  intro hm
  rw [hct, hm]
  decide

theorem accept_and_content_type_headers_witness :
    ∃ req,
      doRequestBuild (sampleClient 200 "[]") sampleEnv MethodGet "/ticker"
        [("markets", ["KRW-BTC"])] false = .ok req ∧
      doRequest (sampleClient 200 "[]") sampleEnv MethodGet "/ticker"
        [("markets", ["KRW-BTC"])] false =
          doRequestFinish ((sampleClient 200 "[]").httpClient.Do req) ∧
      req.Header.Values "Accept" = ["application/json"] ∧
      req.Header.Values "Content-Type" =
        (if MethodGet = MethodPost ∨ MethodGet = MethodDelete then
          ["application/x-www-form-urlencoded"] else []) ∧
      (MethodGet = MethodGet → req.Header.Values "Content-Type" = []) :=
  accept_and_content_type_headers (sampleClient 200 "[]") sampleEnv MethodGet "/ticker"
    [("markets", ["KRW-BTC"])] false rfl

/-- C10: for every base URL `b`, endpoint `e` and parameter mapping `p`, a `GET` is
sent to `b + e + "?" + encode(p)` when `p` is not empty and to exactly `b + e` when
`p` is empty (or `nil`), in both cases without a body; a `POST` is sent to exactly
`b + e`, with the body `encode(p)` when `p` is not empty. -/
theorem url_and_body_of_get_and_post (c : Client) (env : Env) (endpoint : String)
    (p : Values) (authenticated : Bool)
    (hg : env.newRequestError MethodGet (doRequestTarget c MethodGet endpoint p).1 = none)
    (hq : env.newRequestError MethodPost (c.baseURL ++ endpoint) = none) :
    (∃ req,
      doRequestBuild c env MethodGet endpoint p authenticated = .ok req ∧
      doRequest c env MethodGet endpoint p authenticated =
        doRequestFinish (c.httpClient.Do req) ∧
      req.URL = (if Values.len p > 0 then c.baseURL ++ endpoint ++ "?" ++ Values.Encode p
                 else c.baseURL ++ endpoint) ∧
      req.Body = none) ∧
    (∃ req,
      doRequestBuild c env MethodPost endpoint p authenticated = .ok req ∧
      doRequest c env MethodPost endpoint p authenticated =
        doRequestFinish (c.httpClient.Do req) ∧
      req.URL = c.baseURL ++ endpoint ∧
      req.Body = (if Values.len p > 0 then some (Values.Encode p) else none)) := by
  have hpg : MethodPost ≠ MethodGet := by decide
  have hurl : (doRequestTarget c MethodPost endpoint p).1 = c.baseURL ++ endpoint := by
    by_cases hp : Values.len p > 0 <;> simp [doRequestTarget, hpg, hp]
  constructor
  · obtain ⟨req, token, hb, -, hu, hbody, -⟩ :=
      doRequestBuild_ok c env MethodGet endpoint p authenticated hg
    refine ⟨req, hb, doRequest_of_build _ _ _ _ _ _ _ hb, ?_, ?_⟩
    · rw [hu]; by_cases hp : Values.len p > 0 <;> simp [doRequestTarget, hp]
    · rw [hbody]; by_cases hp : Values.len p > 0 <;> simp [doRequestTarget, hp]
  · obtain ⟨req, token, hb, -, hu, hbody, -⟩ :=
      doRequestBuild_ok c env MethodPost endpoint p authenticated (by rw [hurl]; exact hq)
    refine ⟨req, hb, doRequest_of_build _ _ _ _ _ _ _ hb, ?_, ?_⟩
    · rw [hu, hurl]
    · rw [hbody]; by_cases hp : Values.len p > 0 <;> simp [doRequestTarget, hpg, hp]

theorem url_and_body_of_get_and_post_witness :
    (∃ req,
      doRequestBuild (sampleClient 200 "[]") sampleEnv MethodGet "/orders"
        [("market", ["KRW-BTC"])] true = .ok req ∧
      doRequest (sampleClient 200 "[]") sampleEnv MethodGet "/orders"
        [("market", ["KRW-BTC"])] true =
          doRequestFinish ((sampleClient 200 "[]").httpClient.Do req) ∧
      req.URL = (if Values.len [("market", ["KRW-BTC"])] > 0 then
          (sampleClient 200 "[]").baseURL ++ "/orders" ++ "?" ++
            Values.Encode [("market", ["KRW-BTC"])]
        else (sampleClient 200 "[]").baseURL ++ "/orders") ∧
      req.Body = none) ∧
    (∃ req,
      doRequestBuild (sampleClient 200 "[]") sampleEnv MethodPost "/orders"
        [("market", ["KRW-BTC"])] true = .ok req ∧
      doRequest (sampleClient 200 "[]") sampleEnv MethodPost "/orders"
        [("market", ["KRW-BTC"])] true =
          doRequestFinish ((sampleClient 200 "[]").httpClient.Do req) ∧
      req.URL = (sampleClient 200 "[]").baseURL ++ "/orders" ∧
      req.Body = (if Values.len [("market", ["KRW-BTC"])] > 0 then
          some (Values.Encode [("market", ["KRW-BTC"])]) else none)) :=
  url_and_body_of_get_and_post (sampleClient 200 "[]") sampleEnv "/orders"
    [("market", ["KRW-BTC"])] true rfl rfl

/-! ## The token is a compact serialisation -/

theorem base64URLChar_alphabet (n : Nat) : base64URLAlphabet (base64URLChar n) = true := by
  by_cases h : n < 64
  · revert n
    decide
  · have h1 : ¬ n < 26 := by omega
    have h2 : ¬ n < 52 := by omega
    have h3 : ¬ n < 62 := by omega
    have h4 : ¬ n = 62 := by omega
    simp only [base64URLChar, h1, h2, h3, h4, if_false]
    decide

theorem base64URLChars_alphabet (bs : List Nat) :
    ∀ ch ∈ base64URLChars bs, base64URLAlphabet ch = true := by
  induction bs using base64URLChars.induct with
  | case1 => simp [base64URLChars]
  | case2 a => simp [base64URLChars, base64URLChar_alphabet]
  | case3 a b => simp [base64URLChars, base64URLChar_alphabet]
  | case4 a b c rest ih =>
    simp only [base64URLChars, List.mem_cons]
    rintro ch (h | h | h | h | h)
    · rw [h]; exact base64URLChar_alphabet _
    · rw [h]; exact base64URLChar_alphabet _
    · rw [h]; exact base64URLChar_alphabet _
    · rw [h]; exact base64URLChar_alphabet _
    · exact ih ch h

theorem base64URLChars_ne_nil (bs : List Nat) (h : bs ≠ []) : base64URLChars bs ≠ [] := by
  match bs, h with
  | [a], _ => simp [base64URLChars]
  | [a, b], _ => simp [base64URLChars]
  | a :: b :: c :: rest, _ => simp [base64URLChars]

theorem toBytesBE_length (k x : Nat) : (toBytesBE k x).length = k := by
  simp [toBytesBE]

theorem sha256Sum256_length (msg : List Nat) : (sha256Sum256 msg).length = 32 := by
  simp [sha256Sum256, ShaParams.sum, ShaParams.output, toBytesBE_length, ShaParams.wordBytes,
    sha256Params]

theorem hmacSHA256_length (key msg : List Nat) : (hmacSHA256 key msg).length = 32 := by
  simp only [hmacSHA256]
  exact sha256Sum256_length _

theorem count_dot_of_alphabet (l : List Char)
    (h : ∀ ch ∈ l, base64URLAlphabet ch = true) : l.count '.' = 0 := by
  rw [List.count_eq_zero]
  intro hmem
  have := h _ hmem
  revert this
  decide

theorem count_dot_base64 (bs : List Nat) : (base64RawURLEncode bs).data.count '.' = 0 :=
  count_dot_of_alphabet _ (base64URLChars_alphabet bs)

theorem base64RawURLEncode_ne_empty (bs : List Nat) (h : bs ≠ []) :
    base64RawURLEncode bs ≠ "" := by
  intro he
  have : (base64RawURLEncode bs).data = [] := by rw [he]
  exact base64URLChars_ne_nil bs h this

theorem utf8Bytes_jsonMarshalMap_ne_nil (m : MapClaims) : utf8Bytes (jsonMarshalMap m) ≠ [] := by
  simp [jsonMarshalMap, utf8Bytes, utf8EncodeChar]

theorem hmacSHA256_ne_nil (key msg : List Nat) : hmacSHA256 key msg ≠ [] := by
  intro h
  have := hmacSHA256_length key msg
  rw [h] at this
  simp at this

/-- C7: for every access key and secret key (the empty strings included) and every
parameter mapping (the empty list also stands for `nil`), `generateToken` returns no
error and a non-empty token made of three non-empty segments of base64url characters
joined by dots, so that the token has exactly two dots. -/
theorem generateToken_compact_form (c : Client) (env : Env) (p : Values) :
    ∃ s1 s2 s3 token : String,
      generateToken c env p = .ok token ∧
      token = s1 ++ "." ++ s2 ++ "." ++ s3 ∧
      token ≠ "" ∧ s1 ≠ "" ∧ s2 ≠ "" ∧ s3 ≠ "" ∧
      (∀ ch ∈ s1.data, base64URLAlphabet ch = true) ∧
      (∀ ch ∈ s2.data, base64URLAlphabet ch = true) ∧
      (∀ ch ∈ s3.data, base64URLAlphabet ch = true) ∧
      token.data.count '.' = 2 := by
  refine ⟨base64RawURLEncode (utf8Bytes (jsonMarshalMap jwtHeader)),
    base64RawURLEncode (utf8Bytes (jsonMarshalMap (generateTokenClaims c env p))),
    base64RawURLEncode (hmacSHA256 (utf8Bytes c.secretKey)
      (utf8Bytes (SigningString (generateTokenClaims c env p)))), _, generateToken_ok c env p,
    rfl, ?_, base64RawURLEncode_ne_empty _ (utf8Bytes_jsonMarshalMap_ne_nil _),
    base64RawURLEncode_ne_empty _ (utf8Bytes_jsonMarshalMap_ne_nil _),
    base64RawURLEncode_ne_empty _ (hmacSHA256_ne_nil _ _),
    base64URLChars_alphabet _, base64URLChars_alphabet _, base64URLChars_alphabet _, ?_⟩
  · intro he
    have := congrArg String.data he
    simp [SigningString] at this
  · simp only [SigningString, String.data_append, List.count_append, count_dot_base64]
    rfl

/-! ## `slices.Reverse` reverses -/

theorem swapAt_getElem? (s : List α) (i j k : Nat) (hi : i < s.length) (hj : j < s.length)
    (hij : i ≠ j) :
    (swapAt s i j)[k]? = if k = j then s[i]? else if k = i then s[j]? else s[k]? := by
  have h1 : s[i]? = some s[i] := List.getElem?_eq_getElem hi
  have h2 : s[j]? = some s[j] := List.getElem?_eq_getElem hj
  simp only [swapAt, h1, h2, List.getElem?_set, List.length_set]
  by_cases hkj : k = j
  · subst hkj; simp [hj]
  · by_cases hki : k = i
    · subst hki; simp [hi, hkj, Ne.symm hkj]
    · simp [hkj, hki, Ne.symm hkj, Ne.symm hki]

theorem swapAt_length (s : List α) (i j : Nat) : (swapAt s i j).length = s.length := by
  unfold swapAt
  split <;> simp

theorem reverseLoop_eq (L : List α) :
    ∀ (fuel : Nat) (s : List α) (i j : Nat), s.length = L.length → i + j + 1 = L.length →
      j ≤ fuel + i →
      (∀ k, k < L.length →
        s[k]? = if k < i ∨ j < k then L[L.length - 1 - k]? else L[k]?) →
      reverseLoop fuel s i j = L.reverse := by
  have done : ∀ (s : List α) (i j : Nat), s.length = L.length → i + j + 1 = L.length →
      j ≤ i → (∀ k, k < L.length →
        s[k]? = if k < i ∨ j < k then L[L.length - 1 - k]? else L[k]?) →
      s = L.reverse := by
    intro s i j hs hij hji inv
    apply List.ext_getElem?
    intro k
    by_cases hk : k < L.length
    · rw [inv k hk, List.getElem?_reverse hk]
      split
      · rfl
      · have : k = L.length - 1 - k := by omega
        rw [← this]
    · rw [List.getElem?_eq_none (by omega), List.getElem?_eq_none (by simp; omega)]
  intro fuel
  induction fuel with
  | zero =>
    intro s i j hs hij hf inv
    simp only [reverseLoop]
    exact done s i j hs hij (by omega) inv
  | succ fuel ih =>
    intro s i j hs hij hf inv
    simp only [reverseLoop]
    split
    · rename_i hlt
      have hi : i < s.length := by omega
      have hj : j < s.length := by omega
      apply ih
      · rw [swapAt_length, hs]
      · omega
      · omega
      · intro k hk
        rw [swapAt_getElem? s i j k hi hj (by omega)]
        by_cases hkj : k = j
        · subst hkj
          rw [if_pos rfl, inv i (by omega), if_neg (by omega), if_pos (by omega)]
          congr 1; omega
        · by_cases hki : k = i
          · subst hki
            rw [if_neg hkj, if_pos rfl, inv j (by omega), if_neg (by omega), if_pos (by omega)]
            congr 1; omega
          · rw [if_neg hkj, if_neg hki, inv k hk]
            by_cases hc : k < i ∨ j < k
            · rw [if_pos hc, if_pos (by omega)]
            · rw [if_neg hc, if_neg (by omega)]
    · rename_i hge
      exact done s i j hs hij (by omega) inv

theorem slicesReverse_eq (L : List α) : slicesReverse L = L.reverse := by
  cases L with
  | nil => rfl
  | cons a t =>
    apply reverseLoop_eq (a :: t)
    · rfl
    · simp
    · simp
    · intro k hk
      have : ¬ (k < 0 ∨ (a :: t).length - 1 < k) := by omega
      rw [if_neg this]

/-! ## `json.Unmarshal` reads what `json.Marshal` wrote -/

theorem isHexDigit_lowerHexDigit (k : Nat) (h : k < 16) : isHexDigit (lowerHexDigit k) = true := by
  revert k; decide

theorem hexValue_lowerHexDigit (k : Nat) (h : k < 16) : hexValue (lowerHexDigit k) = k := by
  revert k; decide

theorem scan_escapeChar (c : Char) (raw : List Char) (ps : List Frame) (top : Option JSON) :
    (jsonEscapeChar c).foldl Scanner.next ⟨.inString raw, ps, top⟩ =
      ⟨.inString (raw ++ jsonEscapeChar c), ps, top⟩ := by
  unfold jsonEscapeChar
  simp only []
  split
  · rename_i h
    rcases h with h | h <;> subst h <;> simp [Scanner.next]
  split
  · simp [Scanner.next]
  split
  · simp [Scanner.next]
  split
  · simp [Scanner.next]
  split
  · simp [Scanner.next]
  split
  · simp [Scanner.next]
  split
  · rename_i h
    have hlt : c.toNat < 64 := by
      rcases h with h | h | h | h
      · omega
      · subst h; decide
      · subst h; decide
      · subst h; decide
    have h1 := isHexDigit_lowerHexDigit (c.toNat / 16) (by omega)
    have h2 := isHexDigit_lowerHexDigit (c.toNat % 16) (by omega)
    have h0 : isHexDigit '0' = true := by decide
    simp [Scanner.next, h0, h1, h2]
  split
  · have h2 := isHexDigit_lowerHexDigit (c.toNat % 16) (by omega)
    have h0 : isHexDigit '0' = true := by decide
    have h3 : isHexDigit '2' = true := by decide
    simp [Scanner.next, h0, h2, h3]
  · rename_i h1 h2 h3 h4 h5 h6 h7 h8
    simp only [not_or] at h1 h7
    simp [Scanner.next, h1.1, h1.2, h7.1]

theorem char_eq_of_toNat (c : Char) (k : Nat) (h : c.toNat = k) : Char.ofNat k = c := by
  rw [← h]; exact Char.ofNat_toNat c

theorem unquote_escapeChar (c : Char) (out : List Char) :
    (jsonEscapeChar c).foldl Unquote.next ⟨out, none, .plain⟩ = ⟨out ++ [c], none, .plain⟩ := by
  unfold jsonEscapeChar
  simp only []
  split
  · rename_i h
    rcases h with h | h <;> subst h <;> simp [Unquote.next, flushSurrogate]
  split
  · rename_i h; simp [Unquote.next, flushSurrogate]; exact char_eq_of_toNat c 8 h
  split
  · rename_i h; simp [Unquote.next, flushSurrogate]; exact char_eq_of_toNat c 12 h
  split
  · rename_i h; simp [Unquote.next, flushSurrogate]; exact char_eq_of_toNat c 10 h
  split
  · rename_i h; simp [Unquote.next, flushSurrogate]; exact char_eq_of_toNat c 13 h
  split
  · rename_i h; simp [Unquote.next, flushSurrogate]; exact char_eq_of_toNat c 9 h
  split
  · rename_i h
    have hlt : c.toNat < 64 := by
      rcases h with h | h | h | h
      · omega
      · subst h; decide
      · subst h; decide
      · subst h; decide
    have h1 := hexValue_lowerHexDigit (c.toNat / 16) (by omega)
    have h2 := hexValue_lowerHexDigit (c.toNat % 16) (by omega)
    have h0 : hexValue '0' = 0 := by decide
    have hrr : c.toNat / 16 * 16 + c.toNat % 16 = c.toNat := by omega
    have a1 : ¬ (55296 ≤ c.toNat) := by omega
    have a2 : ¬ (56320 ≤ c.toNat) := by omega
    simp [Unquote.next, Unquote.codeUnit, h0, h1, h2, hrr, a1, a2, Char.ofNat_toNat]
  split
  · rename_i h
    have h2 := hexValue_lowerHexDigit (c.toNat % 16) (by omega)
    have h0 : hexValue '0' = 0 := by decide
    have h3 : hexValue '2' = 2 := by decide
    have hrr : 8224 + c.toNat % 16 = c.toNat := by omega
    have a1 : ¬ (55296 ≤ c.toNat) := by omega
    have a2 : ¬ (56320 ≤ c.toNat) := by omega
    simp [Unquote.next, Unquote.codeUnit, h0, h2, h3, hrr, a1, a2, Char.ofNat_toNat]
  · rename_i h1 h2 h3 h4 h5 h6 h7 h8
    simp only [not_or] at h1
    simp [Unquote.next, h1.2, flushSurrogate]

theorem scan_escapeChars (s : List Char) (raw : List Char) (ps : List Frame)
    (top : Option JSON) :
    (escapeChars s).foldl Scanner.next ⟨.inString raw, ps, top⟩ =
      ⟨.inString (raw ++ escapeChars s), ps, top⟩ := by
  induction s generalizing raw with
  | nil => simp [escapeChars]
  | cons c s ih =>
    have : escapeChars (c :: s) = jsonEscapeChar c ++ escapeChars s := by
      simp [escapeChars]
    rw [this, List.foldl_append, scan_escapeChar, ih, List.append_assoc]

theorem unquote_escapeChars_fold (s : List Char) (out : List Char) :
    (escapeChars s).foldl Unquote.next ⟨out, none, .plain⟩ = ⟨out ++ s, none, .plain⟩ := by
  induction s generalizing out with
  | nil => simp [escapeChars]
  | cons c s ih =>
    have : escapeChars (c :: s) = jsonEscapeChar c ++ escapeChars s := by
      simp [escapeChars]
    rw [this, List.foldl_append, unquote_escapeChar, ih]
    simp

theorem unquoteChars_escapeChars (s : List Char) : unquoteChars (escapeChars s) = s := by
  simp [unquoteChars, unquote_escapeChars_fold, flushSurrogate]

theorem errorBody_data (n m : String) :
    (errorBody n m).data =
      "\x7b\"error\":\x7b\"name\":\"".data ++ (escapeChars n.data ++
        ("\",\"message\":\"".data ++ (escapeChars m.data ++ "\"\x7d\x7d".data))) := by
  simp [errorBody, jsonQuote, escapeChars]

theorem scan_errorBody_head :
    ['{', '"', 'e', 'r', 'r', 'o', 'r', '"', ':', '{', '"', 'n', 'a', 'm', 'e', '"', ':',
        '"'].foldl Scanner.next Scanner.init =
      ⟨.inString [], [.objectValue [] (some "name"), .objectValue [] (some "error")], none⟩ :=
  rfl

theorem scan_errorBody_middle (raw : List Char) :
    ['"', ',', '"', 'm', 'e', 's', 's', 'a', 'g', 'e', '"', ':', '"'].foldl Scanner.next
        ⟨.inString raw, [.objectValue [] (some "name"), .objectValue [] (some "error")], none⟩ =
      ⟨.inString [], [.objectValue [("name", .str ⟨unquoteChars raw⟩)] (some "message"),
        .objectValue [] (some "error")], none⟩ :=
  rfl

theorem scan_errorBody_tail (raw : List Char) (v : JSON) :
    (['"', '}', '}'].foldl Scanner.next
        ⟨.inString raw, [.objectValue [("name", v)] (some "message"),
          .objectValue [] (some "error")], none⟩).eof =
      some (.obj [("error", .obj [("name", v), ("message", .str ⟨unquoteChars raw⟩)])]) :=
  rfl

theorem jsonParse_errorBody (n m : String) :
    jsonParse (errorBody n m) =
      some (.obj [("error", .obj [("name", .str n), ("message", .str m)])]) := by
  simp only [jsonParse, errorBody_data, List.foldl_append, scan_errorBody_head,
    scan_escapeChars, List.nil_append, scan_errorBody_middle, scan_errorBody_tail,
    unquoteChars_escapeChars]

theorem jsonUnmarshalAPIError_errorBody (n m : String) :
    jsonUnmarshalAPIError (errorBody n m) = .ok ⟨⟨n, m⟩⟩ := by
  simp only [jsonUnmarshalAPIError, jsonParse_errorBody]
  rfl

/-! ## Classifying the response -/

theorem doRequest_of_reply (c : Client) (env : Env) (method endpoint : String)
    (params : Values) (authenticated : Bool) (resp : Response)
    (hnew : env.newRequestError method (doRequestTarget c method endpoint params).1 = none)
    (hdo : ∀ req, doRequestBuild c env method endpoint params authenticated = .ok req →
      c.httpClient.Do req = .ok resp) :
    doRequest c env method endpoint params authenticated = doRequestFinish (.ok resp) := by
  obtain ⟨req, -, hb, -⟩ := doRequestBuild_ok c env method endpoint params authenticated hnew
  rw [doRequest_of_build _ _ _ _ _ _ _ hb, hdo req hb]

theorem decodeAPIError_no_error_member (members : List (String × JSON)) (cur : APIError)
    (h : ∀ kv ∈ members, keyMatches "error" kv.1 = false) :
    decodeAPIError cur (.obj members) = some cur := by
  simp only [decodeAPIError]
  induction members with
  | nil => rfl
  | cons kv rest ih =>
    rw [List.foldl_cons]
    have hk := h kv (List.mem_cons_self _ _)
    simp only [Option.bind, hk]
    exact ih (fun x hx => h x (List.mem_cons_of_mem _ hx))

/-- C3: for every `doRequest` call answered with a status code of 400 or more and a
body that is a JSON text of the object with the member `error` holding `name` = `n`
and `message` = `m`, `doRequest` returns no bytes and the error `*APIError` with
`Err.Name = n` and `Err.Message = m`; and for arbitrary strings `n` and `m` (known
error names or not) `errorBody n m` is such a text. -/
theorem error_body_becomes_APIError (c : Client) (env : Env) (method endpoint : String)
    (params : Values) (authenticated : Bool) (resp : Response) (body n m : String)
    (hnew : env.newRequestError method (doRequestTarget c method endpoint params).1 = none)
    (hdo : ∀ req, doRequestBuild c env method endpoint params authenticated = .ok req →
      c.httpClient.Do req = .ok resp)
    (hs : resp.StatusCode ≥ 400)
    (hb : resp.Body = .ok body)
    (hdoc : jsonParse body =
      some (.obj [("error", .obj [("name", .str n), ("message", .str m)])])) :
    doRequest c env method endpoint params authenticated =
      .error (.api { Err := { Name := n, Message := m } }) ∧
    (Error.api { Err := { Name := n, Message := m } }).asAPIError =
      some { Err := { Name := n, Message := m } } ∧
    jsonParse (errorBody n m) =
      some (.obj [("error", .obj [("name", .str n), ("message", .str m)])]) := by
  refine ⟨?_, rfl, jsonParse_errorBody n m⟩
  rw [doRequest_of_reply c env method endpoint params authenticated resp hnew hdo]
  simp only [doRequestFinish, hb, hs, if_true, jsonUnmarshalAPIError, hdoc]
  rfl

theorem error_body_becomes_APIError_witness :
    doRequest
        (sampleClient 400
          "\x7b\"error\":\x7b\"name\":\"invalid_parameter\",\"message\":\"Invalid market\"\x7d\x7d")
        sampleEnv MethodGet "/ticker" [("markets", ["INVALID"])] false =
      .error (.api { Err := { Name := "invalid_parameter", Message := "Invalid market" } }) ∧
    (Error.api { Err := { Name := "invalid_parameter", Message := "Invalid market" } }).asAPIError =
      some { Err := { Name := "invalid_parameter", Message := "Invalid market" } } ∧
    jsonParse (errorBody "invalid_parameter" "Invalid market") =
      some (.obj [("error", .obj [("name", .str "invalid_parameter"),
        ("message", .str "Invalid market")])]) :=
  error_body_becomes_APIError
    (sampleClient 400
      "\x7b\"error\":\x7b\"name\":\"invalid_parameter\",\"message\":\"Invalid market\"\x7d\x7d")
    sampleEnv MethodGet "/ticker" [("markets", ["INVALID"])] false
    { StatusCode := 400,
      Body := .ok
        "\x7b\"error\":\x7b\"name\":\"invalid_parameter\",\"message\":\"Invalid market\"\x7d\x7d" }
    "\x7b\"error\":\x7b\"name\":\"invalid_parameter\",\"message\":\"Invalid market\"\x7d\x7d"
    "invalid_parameter" "Invalid market" rfl (fun _ _ => rfl) (by decide) rfl rfl

/-- C4, as stated, fails: answered with status 400 and the body `{}`, or the body
`{"foo":1}`, `doRequest` returns a `*APIError` (with empty name and message), not an
error of another kind carrying status code and body. -/
theorem object_without_error_member_is_APIError :
    doRequest (sampleClient 400 "\x7b\x7d") sampleEnv MethodGet "/ticker"
        [("markets", ["INVALID"])] false =
      .error (.api { Err := { Name := "", Message := "" } }) ∧
    doRequest (sampleClient 400 "\x7b\"foo\":1\x7d") sampleEnv MethodGet "/ticker"
        [("markets", ["INVALID"])] false =
      .error (.api { Err := { Name := "", Message := "" } }) ∧
    doRequest (sampleClient 400 "\x7b\x7d") sampleEnv MethodGet "/ticker"
        [("markets", ["INVALID"])] false ≠
      .error (.text "API error (status 400): \x7b\x7d") := by
  decide

/-- C4, amended: for every `doRequest` call answered with a status code of 400 or more
and a body that `json.Unmarshal` rejects for `APIError` (text that is not JSON, or
JSON of the wrong type), `doRequest` returns an error that is not a `*APIError` and
whose message is `API error (status <code>): <body>`; when the body is a JSON object
none of whose keys matches `error` (such as `{}`), `json.Unmarshal` accepts it and
`doRequest` returns a `*APIError` with empty name and message. -/
theorem rejected_error_body_becomes_text_error (c : Client) (env : Env)
    (method endpoint : String) (params : Values) (authenticated : Bool) (resp : Response)
    (body : String)
    (hnew : env.newRequestError method (doRequestTarget c method endpoint params).1 = none)
    (hdo : ∀ req, doRequestBuild c env method endpoint params authenticated = .ok req →
      c.httpClient.Do req = .ok resp)
    (hs : resp.StatusCode ≥ 400)
    (hb : resp.Body = .ok body) :
    (∀ e, jsonUnmarshalAPIError body = .error e →
      doRequest c env method endpoint params authenticated =
        .error (.text ("API error (status " ++ toString resp.StatusCode ++ "): " ++ body)) ∧
      (Error.text ("API error (status " ++ toString resp.StatusCode ++ "): " ++
        body)).asAPIError = none ∧
      (Error.text ("API error (status " ++ toString resp.StatusCode ++ "): " ++
        body)).message = "API error (status " ++ toString resp.StatusCode ++ "): " ++ body) ∧
    (∀ members, jsonParse body = some (.obj members) →
      (∀ kv ∈ members, keyMatches "error" kv.1 = false) →
      doRequest c env method endpoint params authenticated =
        .error (.api { Err := { Name := "", Message := "" } })) := by
  rw [doRequest_of_reply c env method endpoint params authenticated resp hnew hdo]
  constructor
  · intro e he
    refine ⟨?_, rfl, rfl⟩
    simp only [doRequestFinish, hb, hs, if_true, he]
  · intro members hp hk
    simp only [doRequestFinish, hb, hs, if_true, jsonUnmarshalAPIError, hp,
      decodeAPIError_no_error_member members _ hk]

theorem rejected_error_body_becomes_text_error_witness :
    doRequest (sampleClient 502 "<html>Bad Gateway</html>") sampleEnv MethodGet "/ticker"
        [("markets", ["KRW-BTC"])] false =
      .error (.text "API error (status 502): <html>Bad Gateway</html>") :=
  ((rejected_error_body_becomes_text_error (sampleClient 502 "<html>Bad Gateway</html>")
    sampleEnv MethodGet "/ticker" [("markets", ["KRW-BTC"])] false
    { StatusCode := 502, Body := .ok "<html>Bad Gateway</html>" } "<html>Bad Gateway</html>"
    rfl (fun _ _ => rfl) (by decide) rfl).1 (.text "json: invalid JSON") (by decide)).1

/-! ## The candle calls reverse -/

theorem candlesResult_ok (unmarshal : String → Except Error (List Candle)) (body : String)
    (L : List Candle) (h : unmarshal body = .ok L) :
    candlesResult unmarshal (.ok body) = .ok L.reverse := by
  simp only [candlesResult, h, slicesReverse_eq]

/-- C5: whenever the server answers a candle call with a status code below 400 and a
body that decodes to the list `L`, each of `GetMinuteCandles`, `GetDayCandles`,
`GetWeekCandles` and `GetMonthCandles` returns the reverse of `L`: a list of the same
length `n` whose element `i` is `L[n-1-i]` for every `i < n`. -/
theorem candle_calls_return_reverse (unmarshal : String → Except Error (List Candle))
    (c : Client) (env : Env) (market to_ convertingPriceUnit : String) (unit count : Int)
    (resp : Response) (body : String) (L : List Candle)
    (hnew : ∀ u, env.newRequestError MethodGet u = none)
    (hdo : ∀ req, c.httpClient.Do req = .ok resp)
    (hs : resp.StatusCode < 400)
    (hb : resp.Body = .ok body)
    (hL : unmarshal body = .ok L) :
    GetMinuteCandles unmarshal c env market unit to_ count = .ok L.reverse ∧
    GetDayCandles unmarshal c env market to_ count convertingPriceUnit = .ok L.reverse ∧
    GetWeekCandles unmarshal c env market to_ count = .ok L.reverse ∧
    GetMonthCandles unmarshal c env market to_ count = .ok L.reverse ∧
    L.reverse.length = L.length ∧
    ∀ i, i < L.length → L.reverse[i]? = L[L.length - 1 - i]? := by
  have hget : ∀ (e : String) (p : Values), get c env e p false = .ok body := by
    intro e p
    rw [get, doRequest_of_reply c env MethodGet e p false resp (hnew _) (fun r _ => hdo r)]
    have : ¬ resp.StatusCode ≥ 400 := by omega
    simp only [doRequestFinish, hb, this, if_false]
  refine ⟨?_, ?_, ?_, ?_, List.length_reverse L, fun i hi => List.getElem?_reverse hi⟩
  · simp only [GetMinuteCandles, hget, candlesResult_ok unmarshal body L hL]
  · simp only [GetDayCandles, hget, candlesResult_ok unmarshal body L hL]
  · simp only [GetWeekCandles, hget, candlesResult_ok unmarshal body L hL]
  · simp only [GetMonthCandles, hget, candlesResult_ok unmarshal body L hL]

theorem candle_calls_return_reverse_witness :
    GetMinuteCandles
        (fun _ => .ok [sampleCandle "2024-01-03" 3, sampleCandle "2024-01-02" 2,
          sampleCandle "2024-01-01" 1])
        (sampleClient 200 "[]") sampleEnv "KRW-BTC" 1 "" 3 =
      .ok [sampleCandle "2024-01-01" 1, sampleCandle "2024-01-02" 2,
        sampleCandle "2024-01-03" 3] ∧
    GetDayCandles
        (fun _ => .ok [sampleCandle "2024-01-03" 3, sampleCandle "2024-01-02" 2,
          sampleCandle "2024-01-01" 1])
        (sampleClient 200 "[]") sampleEnv "KRW-BTC" "" 3 "" =
      .ok [sampleCandle "2024-01-01" 1, sampleCandle "2024-01-02" 2,
        sampleCandle "2024-01-03" 3] :=
  have h := candle_calls_return_reverse
    (fun _ => .ok [sampleCandle "2024-01-03" 3, sampleCandle "2024-01-02" 2,
      sampleCandle "2024-01-01" 1])
    (sampleClient 200 "[]") sampleEnv "KRW-BTC" "" "" 1 3
    { StatusCode := 200, Body := .ok "[]" } "[]"
    [sampleCandle "2024-01-03" 3, sampleCandle "2024-01-02" 2, sampleCandle "2024-01-01" 1]
    (fun _ => rfl) (fun _ => rfl) (by decide) rfl rfl
  ⟨h.1, h.2.1⟩

/-! ## Success and transport failure -/

/-- C11: for every `doRequest` call answered by a response whose body reads as `body`,
`doRequest` returns no error and exactly `body`, whatever it contains, if and only
if the status code is below 400 (so for 399, and for every 1xx, 2xx and 3xx code, but
not for 400). -/
theorem body_returned_iff_status_below_400 (c : Client) (env : Env)
    (method endpoint : String) (params : Values) (authenticated : Bool) (resp : Response)
    (body : String)
    (hnew : env.newRequestError method (doRequestTarget c method endpoint params).1 = none)
    (hdo : ∀ req, doRequestBuild c env method endpoint params authenticated = .ok req →
      c.httpClient.Do req = .ok resp)
    (hb : resp.Body = .ok body) :
    (resp.StatusCode < 400 →
      doRequest c env method endpoint params authenticated = .ok body) ∧
    (doRequest c env method endpoint params authenticated = .ok body ↔
      resp.StatusCode < 400) ∧
    (resp.StatusCode ≥ 400 →
      ∃ e, doRequest c env method endpoint params authenticated = .error e) := by
  rw [doRequest_of_reply c env method endpoint params authenticated resp hnew hdo]
  have hlt : resp.StatusCode < 400 → doRequestFinish (.ok resp) = .ok body := by
    intro hs
    have : ¬ resp.StatusCode ≥ 400 := by omega
    simp only [doRequestFinish, hb, this, if_false]
  have hge : resp.StatusCode ≥ 400 → ∃ e, doRequestFinish (.ok resp) = .error e := by
    intro hs
    simp only [doRequestFinish, hb, hs, if_true]
    cases jsonUnmarshalAPIError body with
    | error e => exact ⟨_, rfl⟩
    | ok a => exact ⟨_, rfl⟩
  refine ⟨hlt, ⟨?_, hlt⟩, hge⟩
  intro h
  by_contra hn
  obtain ⟨e, he⟩ := hge (by omega)
  rw [he] at h
  cases h

theorem body_returned_iff_status_below_400_witness :
    (doRequest (sampleClient 399 "not JSON at all") sampleEnv MethodPost "/orders"
        [("market", ["KRW-BTC"])] true = .ok "not JSON at all") ∧
    (∃ e, doRequest (sampleClient 400 "not JSON at all") sampleEnv MethodPost "/orders"
        [("market", ["KRW-BTC"])] true = .error e) :=
  ⟨(body_returned_iff_status_below_400 (sampleClient 399 "not JSON at all") sampleEnv
      MethodPost "/orders" [("market", ["KRW-BTC"])] true
      { StatusCode := 399, Body := .ok "not JSON at all" } "not JSON at all"
      rfl (fun _ _ => rfl) rfl).1 (by decide),
   (body_returned_iff_status_below_400 (sampleClient 400 "not JSON at all") sampleEnv
      MethodPost "/orders" [("market", ["KRW-BTC"])] true
      { StatusCode := 400, Body := .ok "not JSON at all" } "not JSON at all"
      rfl (fun _ _ => rfl) rfl).2.2 (by decide)⟩

/-- C12: for every `doRequest` call in which the HTTP client fails with the error `e`
(no response), `doRequest` returns no bytes and the error that wraps `e` behind the
text `failed to execute request: `; that error is not a `*APIError`, also when `e`
itself is one. -/
theorem transport_failure_is_wrapped (c : Client) (env : Env)
    (method endpoint : String) (params : Values) (authenticated : Bool) (e : Error)
    (hnew : env.newRequestError method (doRequestTarget c method endpoint params).1 = none)
    (hdo : ∀ req, doRequestBuild c env method endpoint params authenticated = .ok req →
      c.httpClient.Do req = .error e) :
    doRequest c env method endpoint params authenticated =
      .error (.wrap "failed to execute request: " e) ∧
    (Error.wrap "failed to execute request: " e).asAPIError = none ∧
    (Error.wrap "failed to execute request: " e).message =
      "failed to execute request: " ++ e.message := by
  obtain ⟨req, -, hb, -⟩ := doRequestBuild_ok c env method endpoint params authenticated hnew
  refine ⟨?_, rfl, rfl⟩
  rw [doRequest_of_build _ _ _ _ _ _ _ hb, hdo req hb]
  rfl

theorem transport_failure_is_wrapped_witness :
    doRequest
        { accessKey := "", secretKey := "",
          httpClient := { Timeout := 30 * Second,
                          Do := fun _ => .error (.text "dial tcp: connection refused") },
          baseURL := BaseURL }
        sampleEnv MethodGet "/ticker" [("markets", ["KRW-BTC"])] false =
      .error (.wrap "failed to execute request: " (.text "dial tcp: connection refused")) ∧
    (Error.wrap "failed to execute request: "
      (.text "dial tcp: connection refused")).asAPIError = none ∧
    (Error.wrap "failed to execute request: " (.text "dial tcp: connection refused")).message =
      "failed to execute request: " ++ (Error.text "dial tcp: connection refused").message :=
  transport_failure_is_wrapped
    { accessKey := "", secretKey := "",
      httpClient := { Timeout := 30 * Second,
                      Do := fun _ => .error (.text "dial tcp: connection refused") },
      baseURL := BaseURL }
    sampleEnv MethodGet "/ticker" [("markets", ["KRW-BTC"])] false
    (.text "dial tcp: connection refused") rfl (fun _ _ => rfl)

/-! ## The signature -/

/-- C13: for every client and parameter mapping, the token `generateToken` returns is
`seg1.seg2.seg3` where `seg1` is the base64url of the header JSON
`{"alg":"HS256","typ":"JWT"}`, `seg2` the base64url of the claims JSON, and `seg3` the
base64url of HMAC-SHA256, keyed with the bytes of the client's secret key, of the
bytes of `seg1 + "." + seg2`. -/
theorem token_signed_with_hs256 (c : Client) (env : Env) (p : Values) :
    ∃ seg1 seg2 seg3 : String,
      generateToken c env p = .ok (seg1 ++ "." ++ seg2 ++ "." ++ seg3) ∧
      MapClaims.get jwtHeader "alg" = some (.str "HS256") ∧
      jsonMarshalMap jwtHeader = "\x7b\"alg\":\"HS256\",\"typ\":\"JWT\"\x7d" ∧
      seg1 = base64RawURLEncode (utf8Bytes (jsonMarshalMap jwtHeader)) ∧
      seg1 = "eyJhbGciOiJIUzI1NiIsInR5cCI6IkpXVCJ9" ∧
      seg2 = base64RawURLEncode (utf8Bytes (jsonMarshalMap (generateTokenClaims c env p))) ∧
      seg3 = base64RawURLEncode
        (hmacSHA256 (utf8Bytes c.secretKey) (utf8Bytes (seg1 ++ "." ++ seg2))) := by
  refine ⟨_, _, _, generateToken_ok c env p, by decide, by decide, rfl, by decide, rfl, rfl⟩

/-! ## Construction, configuration and the credentials -/

/-- C14: for every pair of strings `a` and `s` (the empty strings included),
`NewClient(a, s)` has `accessKey = a`, `secretKey = s`, `baseURL` equal to the
constant `BaseURL`, which is `https://api.upbit.com/v1`, and an HTTP client whose
`Timeout` is 30 seconds (30,000,000,000 nanoseconds). -/
theorem newClient_fields (transport : Request → Except Error Response) (a s : String) :
    (NewClient transport a s).accessKey = a ∧
    (NewClient transport a s).secretKey = s ∧
    (NewClient transport a s).baseURL = BaseURL ∧
    BaseURL = "https://api.upbit.com/v1" ∧
    (NewClient transport a s).httpClient.Timeout = 30 * Second ∧
    (NewClient transport a s).httpClient.Timeout = 30000000000 :=
  ⟨rfl, rfl, rfl, rfl, rfl, by show (30 * Second : Int) = 30000000000; decide⟩

/-! ## The methods leave the credentials alone -/

theorem generateToken_stateful (c : Client) (env : Env) (p : Values) :
    StateT.run (Stateful.generateToken env p) c = (generateToken c env p, c) := rfl

theorem doRequest_stateful (c : Client) (env : Env) (method endpoint : String)
    (params : Values) (authenticated : Bool) :
    StateT.run (Stateful.doRequest env method endpoint params authenticated) c =
      (doRequest c env method endpoint params authenticated, c) := by
  unfold Stateful.doRequest doRequest doRequestBuild
  cases hreq : NewRequest env method (doRequestTarget c method endpoint params).1
      (doRequestTarget c method endpoint params).2 with
  | error err =>
    simp [hreq, StateT.run, bind, StateT.bind, getThe, MonadStateOf.get, StateT.get, pure,
      StateT.pure]
  | ok req =>
    cases authenticated
    · simp [hreq, StateT.run, bind, StateT.bind, getThe, MonadStateOf.get, StateT.get, pure,
        StateT.pure]
    · simp [hreq, StateT.run, bind, StateT.bind, getThe, MonadStateOf.get, StateT.get, pure,
        StateT.pure, Stateful.generateToken, generateToken_ok]
      rfl

theorem run_then (m : Method α) (f : α → β) (c : Client) (r : α)
    (h : StateT.run m c = (r, c)) :
    StateT.run (m >>= fun x => pure (f x)) c = (f r, c) := by
  show ((f (StateT.run m c : α × Client).1, (StateT.run m c : α × Client).2) : β × Client) = _
  rw [h]

theorem cancelOrder_stateful (u : String → Except Error Order) (c : Client) (env : Env)
    (uuid : String) :
    StateT.run (Stateful.CancelOrder u env uuid) c = (CancelOrder u c env uuid, c) := by
  have h := doRequest_stateful c env MethodDelete "/order" (Values.Set [] "uuid" uuid) true
  unfold Stateful.CancelOrder CancelOrder
  show StateT.run
    (Stateful.doRequest env MethodDelete "/order" (Values.Set [] "uuid" uuid) true >>= _) c = _
  rw [StateT.run_bind, h]
  simp only [delete]
  cases doRequest c env MethodDelete "/order" (Values.Set [] "uuid" uuid) true with
  | error e => rfl
  | ok b => cases hu : u b <;> simp [hu]

/-- Every wrapper, run on the struct behind its receiver, returns what the wrapper as a
function of the client returns, and leaves the struct as it was. -/
theorem wrappers_stateful (c : Client) (env : Env) :
    (∀ (isDetails : Bool), StateT.run (Stateful.GetMarkets env isDetails) c = (GetMarkets c env
      isDetails, c)) ∧
    (∀ (unmarshal : String → Except Error (List Candle)) (market : String) (unit : Int) (to_ :
      String) (count : Int), StateT.run (Stateful.GetMinuteCandles unmarshal env market unit to_
      count) c = (GetMinuteCandles unmarshal c env market unit to_ count, c)) ∧
    (∀ (unmarshal : String → Except Error (List Candle)) (market to_ : String) (count : Int)
      (convertingPriceUnit : String), StateT.run (Stateful.GetDayCandles unmarshal env market to_
      count convertingPriceUnit) c = (GetDayCandles unmarshal c env market to_ count
      convertingPriceUnit, c)) ∧
    (∀ (unmarshal : String → Except Error (List Candle)) (market to_ : String) (count : Int),
      StateT.run (Stateful.GetWeekCandles unmarshal env market to_ count) c = (GetWeekCandles
      unmarshal c env market to_ count, c)) ∧
    (∀ (unmarshal : String → Except Error (List Candle)) (market to_ : String) (count : Int),
      StateT.run (Stateful.GetMonthCandles unmarshal env market to_ count) c = (GetMonthCandles
      unmarshal c env market to_ count, c)) ∧
    (∀ (unmarshal : String → Except Error (List Ticker)) (markets : List String), StateT.run
      (Stateful.GetTicker unmarshal env markets) c = (GetTicker unmarshal c env markets, c)) ∧
    (∀ (unmarshal : String → Except Error (List Ticker)) (quoteCurrencies : List String),
      StateT.run (Stateful.GetAllTickers unmarshal env quoteCurrencies) c = (GetAllTickers
      unmarshal c env quoteCurrencies, c)) ∧
    (∀ (unmarshal : String → Except Error (List Orderbook)) (markets : List String) (level :
      Int), StateT.run (Stateful.GetOrderbook unmarshal env markets level) c = (GetOrderbook
      unmarshal c env markets level, c)) ∧
    (∀ (unmarshal : String → Except Error (List Trade)) (market to_ : String) (count : Int)
      (cursor : String) (daysAgo : Int), StateT.run (Stateful.GetTrades unmarshal env market to_
      count cursor daysAgo) c = (GetTrades unmarshal c env market to_ count cursor daysAgo, c)) ∧
    (∀ (unmarshal : String → Except Error (List Account)), StateT.run (Stateful.GetAccounts
      unmarshal env) c = (GetAccounts unmarshal c env, c)) ∧
    (∀ (unmarshal : String → Except Error OrderChance) (market : String), StateT.run
      (Stateful.GetOrderChance unmarshal env market) c = (GetOrderChance unmarshal c env market,
      c)) ∧
    (∀ (unmarshal : String → Except Error OrderDetail) (uuid : String), StateT.run
      (Stateful.GetOrder unmarshal env uuid) c = (GetOrder unmarshal c env uuid, c)) ∧
    (∀ (unmarshal : String → Except Error OrderDetail) (identifier : String), StateT.run
      (Stateful.GetOrderByIdentifier unmarshal env identifier) c = (GetOrderByIdentifier
      unmarshal c env identifier, c)) ∧
    (∀ (unmarshal : String → Except Error (List Order)) (req : Option GetOrdersRequest),
      StateT.run (Stateful.GetOrders unmarshal env req) c = (GetOrders unmarshal c env req, c)) ∧
    (∀ (unmarshal : String → Except Error (List Order)) (market : String) (states : List
      OrderState) (startTime endTime : String) (limit : Int) (orderBy : String), StateT.run
      (Stateful.GetClosedOrders unmarshal env market states startTime endTime limit orderBy) c =
      (GetClosedOrders unmarshal c env market states startTime endTime limit orderBy, c)) ∧
    (∀ (unmarshal : String → Except Error Order) (req : PlaceOrderRequest), StateT.run
      (Stateful.PlaceOrder unmarshal env req) c = (PlaceOrder unmarshal c env req, c)) ∧
    (∀ (unmarshal : String → Except Error Order) (uuid : String), StateT.run
      (Stateful.CancelOrder unmarshal env uuid) c = (CancelOrder unmarshal c env uuid, c)) ∧
    (∀ (unmarshal : String → Except Error Order) (identifier : String), StateT.run
      (Stateful.CancelOrderByIdentifier unmarshal env identifier) c = (CancelOrderByIdentifier
      unmarshal c env identifier, c)) ∧
    (∀ (unmarshal : String → Except Error (List Withdraw)) (currency state : String) (uuids txids
      : List String) (limit page : Int) (orderBy : String), StateT.run (Stateful.GetWithdraws
      unmarshal env currency state uuids txids limit page orderBy) c = (GetWithdraws unmarshal c
      env currency state uuids txids limit page orderBy, c)) ∧
    (∀ (unmarshal : String → Except Error Withdraw) (uuid : String), StateT.run
      (Stateful.GetWithdraw unmarshal env uuid) c = (GetWithdraw unmarshal c env uuid, c)) ∧
    (∀ (unmarshal : String → Except Error WithdrawChance) (currency netType : String), StateT.run
      (Stateful.GetWithdrawChance unmarshal env currency netType) c = (GetWithdrawChance
      unmarshal c env currency netType, c)) ∧
    (∀ (unmarshal : String → Except Error Withdraw) (req : WithdrawCoinRequest), StateT.run
      (Stateful.WithdrawCoin unmarshal env req) c = (WithdrawCoin unmarshal c env req, c)) ∧
    (∀ (unmarshal : String → Except Error Withdraw) (amount twoFactorType : String), StateT.run
      (Stateful.WithdrawKRW unmarshal env amount twoFactorType) c = (WithdrawKRW unmarshal c env
      amount twoFactorType, c)) ∧
    (∀ (unmarshal : String → Except Error (List Deposit)) (currency state : String) (uuids txids
      : List String) (limit page : Int) (orderBy : String), StateT.run (Stateful.GetDeposits
      unmarshal env currency state uuids txids limit page orderBy) c = (GetDeposits unmarshal c
      env currency state uuids txids limit page orderBy, c)) ∧
    (∀ (unmarshal : String → Except Error Deposit) (uuid : String), StateT.run
      (Stateful.GetDeposit unmarshal env uuid) c = (GetDeposit unmarshal c env uuid, c)) ∧
    (∀ (unmarshal : String → Except Error DepositAddress) (currency netType : String), StateT.run
      (Stateful.GenerateDepositAddress unmarshal env currency netType) c =
      (GenerateDepositAddress unmarshal c env currency netType, c)) ∧
    (∀ (unmarshal : String → Except Error (List DepositAddress)), StateT.run
      (Stateful.GetDepositAddresses unmarshal env) c = (GetDepositAddresses unmarshal c env, c)) ∧
    (∀ (unmarshal : String → Except Error DepositAddress) (currency netType : String), StateT.run
      (Stateful.GetDepositAddress unmarshal env currency netType) c = (GetDepositAddress
      unmarshal c env currency netType, c)) ∧
    (∀ (unmarshal : String → Except Error (List WalletStatus)), StateT.run
      (Stateful.GetWalletStatus unmarshal env) c = (GetWalletStatus unmarshal c env, c)) ∧
    (∀ (unmarshal : String → Except Error (List APIKey)), StateT.run (Stateful.GetAPIKeys
      unmarshal env) c = (GetAPIKeys unmarshal c env, c)) := by
  refine ⟨?_, ?_, ?_, ?_, ?_, ?_, ?_, ?_, ?_, ?_, ?_, ?_, ?_, ?_, ?_, ?_, ?_, ?_, ?_, ?_,
    ?_, ?_, ?_, ?_, ?_, ?_, ?_, ?_, ?_, ?_⟩
  all_goals intros
  all_goals first
    | exact run_then _ _ c _ (doRequest_stateful c env _ _ _ _)
    | exact cancelOrder_stateful _ c env _

theorem after_drop (m : Method α) (c : Client) (r : α) (h : StateT.run m c = (r, c)) :
    Method.after (Method.drop m) c = c := by
  show (StateT.run (m >>= fun _ => pure ()) c : Unit × Client).2 = c
  rw [run_then m (fun _ => ()) c r h]

theorem after_call (c : Client) (call : ClientCall) (h : call.isSetter = false) :
    ClientCall.after c call = c := by
  cases call
  all_goals first
    | exact Bool.noConfusion h
    | exact after_drop _ c _ (generateToken_stateful c _ _)
    | exact after_drop _ c _ (doRequest_stateful c _ _ _ _ _)
    | exact after_drop _ c _ (run_then _ _ c _ (doRequest_stateful c _ _ _ _ _))
    | exact after_drop _ c _ (cancelOrder_stateful _ c _ _)

theorem after_call_credentials (c : Client) (call : ClientCall) :
    (ClientCall.after c call).accessKey = c.accessKey ∧
      (ClientCall.after c call).secretKey = c.secretKey := by
  cases hs : call.isSetter
  · rw [after_call c call hs]
    exact ⟨rfl, rfl⟩
  · cases call
    all_goals first
      | exact Bool.noConfusion hs
      | exact ⟨rfl, rfl⟩

/-- C15: run on the struct behind the receiver, `SetBaseURL` changes only `baseURL`
and `SetHTTPClient` only `httpClient`; `generateToken`, `doRequest`, `get`, `post` and
`delete` return what they return as functions of the client, and they and each of the
thirty endpoint wrappers leave every field of the struct as it was; so after any
sequence of calls of these methods on `NewClient(a, s)` the access key is `a` and the
secret key is `s`. -/
theorem credentials_never_change (transport : Request → Except Error Response)
    (a s : String) (c : Client) (u : String) (h : HTTPClient) (calls : List ClientCall) :
    (Method.after (Stateful.SetBaseURL u) c = SetBaseURL c u ∧
      (SetBaseURL c u).accessKey = c.accessKey ∧ (SetBaseURL c u).secretKey = c.secretKey ∧
      (SetBaseURL c u).httpClient = c.httpClient ∧ (SetBaseURL c u).baseURL = u) ∧
    (Method.after (Stateful.SetHTTPClient h) c = SetHTTPClient c h ∧
      (SetHTTPClient c h).accessKey = c.accessKey ∧
      (SetHTTPClient c h).secretKey = c.secretKey ∧
      (SetHTTPClient c h).baseURL = c.baseURL ∧ (SetHTTPClient c h).httpClient = h) ∧
    (∀ env p, StateT.run (Stateful.generateToken env p) c = (generateToken c env p, c)) ∧
    (∀ env m e p f, StateT.run (Stateful.doRequest env m e p f) c = (doRequest c env m e p f, c)) ∧
    (∀ env e p f, StateT.run (Stateful.get env e p f) c = (get c env e p f, c)) ∧
    (∀ env e p f, StateT.run (Stateful.post env e p f) c = (post c env e p f, c)) ∧
    (∀ env e p f, StateT.run (Stateful.delete env e p f) c = (delete c env e p f, c)) ∧
    (∀ call : ClientCall, call.isSetter = false → ClientCall.after c call = c) ∧
    (∀ call : ClientCall, (ClientCall.after c call).accessKey = c.accessKey ∧
      (ClientCall.after c call).secretKey = c.secretKey) ∧
    (calls.foldl ClientCall.after (NewClient transport a s)).accessKey = a ∧
    (calls.foldl ClientCall.after (NewClient transport a s)).secretKey = s := by
  refine ⟨⟨rfl, rfl, rfl, rfl, rfl⟩, ⟨rfl, rfl, rfl, rfl, rfl⟩,
    fun env p => generateToken_stateful c env p,
    fun env m e p f => doRequest_stateful c env m e p f,
    fun env e p f => doRequest_stateful c env MethodGet e p f,
    fun env e p f => doRequest_stateful c env MethodPost e p f,
    fun env e p f => doRequest_stateful c env MethodDelete e p f,
    after_call c, after_call_credentials c, ?_⟩
  have key : ∀ (calls : List ClientCall) (c0 : Client),
      (calls.foldl ClientCall.after c0).accessKey = c0.accessKey ∧
      (calls.foldl ClientCall.after c0).secretKey = c0.secretKey := by
    intro calls
    induction calls with
    | nil => intro c0; exact ⟨rfl, rfl⟩
    | cons call rest ih =>
      intro c0
      rw [List.foldl_cons]
      have h1 := ih (ClientCall.after c0 call)
      have h2 := after_call_credentials c0 call
      exact ⟨h1.1.trans h2.1, h1.2.trans h2.2⟩
  exact key calls (NewClient transport a s)

/-! ## The secret key stays out of the request -/

/-- C19: for every client `c`, every other secret key `s` and every `doRequest` call
(same method, endpoint, parameters, flag, and same environment: nonce and clock), the
requests built for `c` and for `c` with the secret key `s` have the same method, URL
and body and the same headers apart from `Authorization`; the two tokens are the same
signing string (header and claims segments) followed by a dot and a signature
segment, and only that last segment depends on the secret key. -/
theorem secret_key_only_in_signature (c : Client) (s : String) (env : Env)
    (method endpoint : String) (params : Values) (authenticated : Bool)
    (hnew : env.newRequestError method (doRequestTarget c method endpoint params).1 = none) :
    ∃ req1 req2 signing sig1 sig2,
      doRequestBuild c env method endpoint params authenticated = .ok req1 ∧
      doRequestBuild { c with secretKey := s } env method endpoint params authenticated =
        .ok req2 ∧
      req1.Method = req2.Method ∧ req1.URL = req2.URL ∧ req1.Body = req2.Body ∧
      (∀ k, k ≠ "Authorization" → req1.Header.Values k = req2.Header.Values k) ∧
      req1.Header.map Prod.fst = req2.Header.map Prod.fst ∧
      signing = SigningString (generateTokenClaims c env params) ∧
      sig1 = base64RawURLEncode (hmacSHA256 (utf8Bytes c.secretKey) (utf8Bytes signing)) ∧
      sig2 = base64RawURLEncode (hmacSHA256 (utf8Bytes s) (utf8Bytes signing)) ∧
      req1.Header.Values "Authorization" =
        (if authenticated then ["Bearer " ++ (signing ++ "." ++ sig1)] else []) ∧
      req2.Header.Values "Authorization" =
        (if authenticated then ["Bearer " ++ (signing ++ "." ++ sig2)] else []) := by
  have h2 : env.newRequestError method
      (doRequestTarget { c with secretKey := s } method endpoint params).1 = none := hnew
  refine ⟨_, _, _, _, _,
    doRequestBuild_eq c env method endpoint params authenticated _
      (generateToken_ok c env params) hnew,
    doRequestBuild_eq { c with secretKey := s } env method endpoint params authenticated _
      (generateToken_ok _ env params) h2,
    rfl, rfl, rfl, ?_, ?_, rfl, rfl, rfl, ?_, ?_⟩
  · intro k hk
    have hk2 : ("Authorization" == k) = false := beq_false_of_ne (Ne.symm hk)
    cases authenticated <;> by_cases hm : method = MethodPost ∨ method = MethodDelete <;>
      simp [hm, Header.Values, List.find?, hk2]
  · cases authenticated <;> by_cases hm : method = MethodPost ∨ method = MethodDelete <;>
      simp [hm]
  · cases authenticated <;> by_cases hm : method = MethodPost ∨ method = MethodDelete <;>
      simp [hm, Header.Values]
  · cases authenticated <;> by_cases hm : method = MethodPost ∨ method = MethodDelete <;>
      simp [hm, Header.Values]
    all_goals rfl

theorem secret_key_only_in_signature_witness :
    ∃ req1 req2 signing sig1 sig2,
      doRequestBuild (sampleClient 200 "[]") sampleEnv MethodPost "/orders"
        [("market", ["KRW-BTC"])] true = .ok req1 ∧
      doRequestBuild { sampleClient 200 "[]" with secretKey := "another secret" } sampleEnv
        MethodPost "/orders" [("market", ["KRW-BTC"])] true = .ok req2 ∧
      req1.Method = req2.Method ∧ req1.URL = req2.URL ∧ req1.Body = req2.Body ∧
      (∀ k, k ≠ "Authorization" → req1.Header.Values k = req2.Header.Values k) ∧
      req1.Header.map Prod.fst = req2.Header.map Prod.fst ∧
      signing = SigningString (generateTokenClaims (sampleClient 200 "[]") sampleEnv
        [("market", ["KRW-BTC"])]) ∧
      sig1 = base64RawURLEncode
        (hmacSHA256 (utf8Bytes (sampleClient 200 "[]").secretKey) (utf8Bytes signing)) ∧
      sig2 = base64RawURLEncode (hmacSHA256 (utf8Bytes "another secret") (utf8Bytes signing)) ∧
      req1.Header.Values "Authorization" =
        (if true then ["Bearer " ++ (signing ++ "." ++ sig1)] else []) ∧
      req2.Header.Values "Authorization" =
        (if true then ["Bearer " ++ (signing ++ "." ++ sig2)] else []) :=
  secret_key_only_in_signature (sampleClient 200 "[]") "another secret" sampleEnv MethodPost
    "/orders" [("market", ["KRW-BTC"])] true rfl

/-! ## The wrappers and the executor -/

theorem cancelOrder_decodeResult (unmarshal : String → Except Error Order) (c : Client)
    (env : Env) (uuid : String) :
    CancelOrder unmarshal c env uuid =
      decodeResult unmarshal
        (doRequest c env MethodDelete "/order" (Values.Set [] "uuid" uuid) true) := by
  simp only [CancelOrder, delete, decodeResult]
  generalize doRequest c env MethodDelete "/order" (Values.Set [] "uuid" uuid) true = r
  cases r with
  | error e => rfl
  | ok b => cases h : unmarshal b <;> simp only [h]

theorem candlesResult_error (unmarshal : String → Except Error (List Candle)) (e : Error) :
    candlesResult unmarshal (.error e) = .error e := rfl

theorem decodeResult_error (unmarshal : String → Except Error α) (e : Error) :
    decodeResult unmarshal (.error e) = .error e := rfl

/-- C17: each wrapper hands the executor the method, path and authentication flag of
its row: the quotation calls are unauthenticated `GET`s (the path of
`GetMinuteCandles` being `/candles/minutes/` followed by the decimal digits of the
unit, for every unit); `GetAccounts`, `GetOrderChance`, `GetOrder`, `GetOrders` and
`GetWalletStatus` are authenticated `GET`s; `PlaceOrder`, `WithdrawCoin`,
`WithdrawKRW` and `GenerateDepositAddress` are authenticated `POST`s; `CancelOrder`
is an authenticated `DELETE` of `/order`. -/
theorem wrappers_follow_the_table (c : Client) (env : Env)
    (uTickers : String → Except Error (List Ticker))
    (uOrderbooks : String → Except Error (List Orderbook))
    (uTrades : String → Except Error (List Trade))
    (uCandles : String → Except Error (List Candle))
    (uAccounts : String → Except Error (List Account))
    (uChance : String → Except Error OrderChance)
    (uDetail : String → Except Error OrderDetail)
    (uOrders : String → Except Error (List Order))
    (uOrder : String → Except Error Order)
    (uWithdraw : String → Except Error Withdraw)
    (uAddress : String → Except Error DepositAddress)
    (uWallet : String → Except Error (List WalletStatus))
    (isDetails : Bool) (markets : List String) (level count daysAgo : Int)
    (market to_ cursor convertingPriceUnit uuid amount twoFactorType currency netType : String)
    (unit : CandleUnit) (ordersReq : Option GetOrdersRequest) (placeReq : PlaceOrderRequest)
    (coinReq : WithdrawCoinRequest) :
    (∃ params, GetMarkets c env isDetails =
      decodeResult jsonUnmarshalMarkets (doRequest c env MethodGet "/market/all" params false)) ∧
    (∃ params, GetTicker uTickers c env markets =
      decodeResult uTickers (doRequest c env MethodGet "/ticker" params false)) ∧
    (∃ params, GetOrderbook uOrderbooks c env markets level =
      decodeResult uOrderbooks (doRequest c env MethodGet "/orderbook" params false)) ∧
    (∃ params, GetTrades uTrades c env market to_ count cursor daysAgo =
      decodeResult uTrades (doRequest c env MethodGet "/trades/ticks" params false)) ∧
    (∃ params, GetMinuteCandles uCandles c env market unit to_ count =
      candlesResult uCandles
        (doRequest c env MethodGet ("/candles/minutes/" ++ toString unit) params false)) ∧
    ("/candles/minutes/" ++ toString CandleUnit1 = "/candles/minutes/1" ∧
      "/candles/minutes/" ++ toString CandleUnit3 = "/candles/minutes/3" ∧
      "/candles/minutes/" ++ toString CandleUnit5 = "/candles/minutes/5" ∧
      "/candles/minutes/" ++ toString CandleUnit10 = "/candles/minutes/10" ∧
      "/candles/minutes/" ++ toString CandleUnit15 = "/candles/minutes/15" ∧
      "/candles/minutes/" ++ toString CandleUnit30 = "/candles/minutes/30" ∧
      "/candles/minutes/" ++ toString CandleUnit60 = "/candles/minutes/60" ∧
      "/candles/minutes/" ++ toString CandleUnit240 = "/candles/minutes/240") ∧
    (∀ n : Nat, toString (n : Int) = String.mk (Nat.toDigits 10 n)) ∧
    (∃ params, GetDayCandles uCandles c env market to_ count convertingPriceUnit =
      candlesResult uCandles (doRequest c env MethodGet "/candles/days" params false)) ∧
    (∃ params, GetWeekCandles uCandles c env market to_ count =
      candlesResult uCandles (doRequest c env MethodGet "/candles/weeks" params false)) ∧
    (∃ params, GetMonthCandles uCandles c env market to_ count =
      candlesResult uCandles (doRequest c env MethodGet "/candles/months" params false)) ∧
    (∃ params, GetAccounts uAccounts c env =
      decodeResult uAccounts (doRequest c env MethodGet "/accounts" params true)) ∧
    (∃ params, GetOrderChance uChance c env market =
      decodeResult uChance (doRequest c env MethodGet "/orders/chance" params true)) ∧
    (∃ params, GetOrder uDetail c env uuid =
      decodeResult uDetail (doRequest c env MethodGet "/order" params true)) ∧
    (∃ params, GetOrders uOrders c env ordersReq =
      decodeResult uOrders (doRequest c env MethodGet "/orders" params true)) ∧
    (∃ params, GetWalletStatus uWallet c env =
      decodeResult uWallet (doRequest c env MethodGet "/status/wallet" params true)) ∧
    (∃ params, PlaceOrder uOrder c env placeReq =
      decodeResult uOrder (doRequest c env MethodPost "/orders" params true)) ∧
    (∃ params, WithdrawCoin uWithdraw c env coinReq =
      decodeResult uWithdraw (doRequest c env MethodPost "/withdraws/coin" params true)) ∧
    (∃ params, WithdrawKRW uWithdraw c env amount twoFactorType =
      decodeResult uWithdraw (doRequest c env MethodPost "/withdraws/krw" params true)) ∧
    (∃ params, GenerateDepositAddress uAddress c env currency netType =
      decodeResult uAddress
        (doRequest c env MethodPost "/deposits/generate_coin_address" params true)) ∧
    (∃ params, CancelOrder uOrder c env uuid =
      decodeResult uOrder (doRequest c env MethodDelete "/order" params true)) := by
  refine ⟨⟨_, rfl⟩, ⟨_, rfl⟩, ⟨_, rfl⟩, ⟨_, rfl⟩, ⟨_, rfl⟩, by decide, fun n => rfl,
    ⟨_, rfl⟩, ⟨_, rfl⟩, ⟨_, rfl⟩, ⟨_, rfl⟩, ⟨_, rfl⟩, ⟨_, rfl⟩, ⟨_, rfl⟩, ⟨_, rfl⟩, ⟨_, rfl⟩,
    ⟨_, rfl⟩, ⟨_, rfl⟩, ⟨_, rfl⟩, ⟨_, cancelOrder_decodeResult uOrder c env uuid⟩⟩

theorem returnsExecutorError_of_decodeResult {unmarshal : String → Except Error α}
    {method endpoint : String} {params : Values} {authenticated : Bool}
    {w : Client → Env → Except Error α}
    (h : ∀ c env, w c env =
      decodeResult unmarshal (doRequest c env method endpoint params authenticated)) :
    ReturnsExecutorError method endpoint authenticated w :=
  ⟨params, fun body => decodeResult unmarshal (.ok body), fun c env =>
    ⟨fun e he => by rw [h, he]; rfl, fun body hb => by rw [h, hb]⟩⟩

theorem returnsExecutorError_of_candlesResult
    {unmarshal : String → Except Error (List Candle)}
    {method endpoint : String} {params : Values} {authenticated : Bool}
    {w : Client → Env → Except Error (List Candle)}
    (h : ∀ c env, w c env =
      candlesResult unmarshal (doRequest c env method endpoint params authenticated)) :
    ReturnsExecutorError method endpoint authenticated w :=
  ⟨params, fun body => candlesResult unmarshal (.ok body), fun c env =>
    ⟨fun e he => by rw [h, he]; rfl, fun body hb => by rw [h, hb]⟩⟩

/-- C20: each of the thirty public wrappers makes one executor call, the one of its
row (method, endpoint, flag, and one parameter mapping whatever the client and the
environment are), and what it returns is determined by the outcome of that call alone:
when the call returns an error `e`, the wrapper returns `e` itself, with no result and
without wrapping, and otherwise a function of the body. A wrapper that returns a
result whatever the executor does has not this property. So a `*APIError` of
`doRequest` reaches the caller of `GetTicker` as the same `*APIError`, for which the
type assertion `err.(*APIError)` succeeds with the same name and message, as after the
reply 400 with the error body of `invalid_parameter`. -/
theorem wrappers_return_executor_error
    (uTickers : String → Except Error (List Ticker))
    (uOrderbooks : String → Except Error (List Orderbook))
    (uTrades : String → Except Error (List Trade))
    (uCandles : String → Except Error (List Candle))
    (uAccounts : String → Except Error (List Account))
    (uChance : String → Except Error OrderChance)
    (uDetail : String → Except Error OrderDetail)
    (uOrders : String → Except Error (List Order))
    (uOrder : String → Except Error Order)
    (uWithdraws : String → Except Error (List Withdraw))
    (uWithdraw : String → Except Error Withdraw)
    (uWithdrawChance : String → Except Error WithdrawChance)
    (uDeposits : String → Except Error (List Deposit))
    (uDeposit : String → Except Error Deposit)
    (uAddresses : String → Except Error (List DepositAddress))
    (uAddress : String → Except Error DepositAddress)
    (uWallet : String → Except Error (List WalletStatus))
    (uKeys : String → Except Error (List APIKey))
    (isDetails : Bool) (markets quoteCurrencies uuids txids : List String)
    (states : List OrderState) (level count daysAgo limit page : Int)
    (market to_ cursor convertingPriceUnit uuid identifier amount twoFactorType currency
      netType state startTime endTime orderBy : String)
    (unit : CandleUnit) (ordersReq : Option GetOrdersRequest) (placeReq : PlaceOrderRequest)
    (coinReq : WithdrawCoinRequest) :
    (ReturnsExecutorError MethodGet "/market/all" false fun c env => GetMarkets c env isDetails) ∧
    (ReturnsExecutorError MethodGet ("/candles/minutes/" ++ toString unit) false fun c env =>
      GetMinuteCandles uCandles c env market unit to_ count) ∧
    (ReturnsExecutorError MethodGet "/candles/days" false fun c env =>
      GetDayCandles uCandles c env market to_ count convertingPriceUnit) ∧
    (ReturnsExecutorError MethodGet "/candles/weeks" false fun c env =>
      GetWeekCandles uCandles c env market to_ count) ∧
    (ReturnsExecutorError MethodGet "/candles/months" false fun c env =>
      GetMonthCandles uCandles c env market to_ count) ∧
    (ReturnsExecutorError MethodGet "/ticker" false fun c env => GetTicker uTickers c env markets) ∧
    (ReturnsExecutorError MethodGet "/ticker/all" false fun c env =>
      GetAllTickers uTickers c env quoteCurrencies) ∧
    (ReturnsExecutorError MethodGet "/orderbook" false fun c env =>
      GetOrderbook uOrderbooks c env markets level) ∧
    (ReturnsExecutorError MethodGet "/trades/ticks" false fun c env =>
      GetTrades uTrades c env market to_ count cursor daysAgo) ∧
    (ReturnsExecutorError MethodGet "/accounts" true fun c env => GetAccounts uAccounts c env) ∧
    (ReturnsExecutorError MethodGet "/orders/chance" true fun c env =>
      GetOrderChance uChance c env market) ∧
    (ReturnsExecutorError MethodGet "/order" true fun c env => GetOrder uDetail c env uuid) ∧
    (ReturnsExecutorError MethodGet "/order" true fun c env =>
      GetOrderByIdentifier uDetail c env identifier) ∧
    (ReturnsExecutorError MethodGet "/orders" true fun c env => GetOrders uOrders c env ordersReq) ∧
    (ReturnsExecutorError MethodGet "/orders/closed" true fun c env =>
      GetClosedOrders uOrders c env market states startTime endTime limit orderBy) ∧
    (ReturnsExecutorError MethodPost "/orders" true fun c env => PlaceOrder uOrder c env placeReq) ∧
    (ReturnsExecutorError MethodDelete "/order" true fun c env => CancelOrder uOrder c env uuid) ∧
    (ReturnsExecutorError MethodDelete "/order" true fun c env =>
      CancelOrderByIdentifier uOrder c env identifier) ∧
    (ReturnsExecutorError MethodGet "/withdraws" true fun c env =>
      GetWithdraws uWithdraws c env currency state uuids txids limit page orderBy) ∧
    (ReturnsExecutorError MethodGet "/withdraw" true fun c env =>
      GetWithdraw uWithdraw c env uuid) ∧
    (ReturnsExecutorError MethodGet "/withdraws/chance" true fun c env =>
      GetWithdrawChance uWithdrawChance c env currency netType) ∧
    (ReturnsExecutorError MethodPost "/withdraws/coin" true fun c env =>
      WithdrawCoin uWithdraw c env coinReq) ∧
    (ReturnsExecutorError MethodPost "/withdraws/krw" true fun c env =>
      WithdrawKRW uWithdraw c env amount twoFactorType) ∧
    (ReturnsExecutorError MethodGet "/deposits" true fun c env =>
      GetDeposits uDeposits c env currency state uuids txids limit page orderBy) ∧
    (ReturnsExecutorError MethodGet "/deposit" true fun c env => GetDeposit uDeposit c env uuid) ∧
    (ReturnsExecutorError MethodPost "/deposits/generate_coin_address" true fun c env =>
      GenerateDepositAddress uAddress c env currency netType) ∧
    (ReturnsExecutorError MethodGet "/deposits/coin_addresses" true fun c env =>
      GetDepositAddresses uAddresses c env) ∧
    (ReturnsExecutorError MethodGet "/deposits/coin_address" true fun c env =>
      GetDepositAddress uAddress c env currency netType) ∧
    (ReturnsExecutorError MethodGet "/status/wallet" true fun c env =>
      GetWalletStatus uWallet c env) ∧
    (ReturnsExecutorError MethodGet "/api_keys" true fun c env => GetAPIKeys uKeys c env) ∧
    ¬ ReturnsExecutorError MethodGet "/ticker" false
      (fun _ _ => (.ok [] : Except Error (List Ticker))) ∧
    (∀ (c : Client) (env : Env) (a : APIError),
      doRequest c env MethodGet "/ticker" [("markets", [stringsJoin markets ","])] false =
        .error (.api a) →
      GetTicker uTickers c env markets = .error (.api a) ∧
        (Error.api a).asAPIError = some a) ∧
    GetTicker uTickers
        (sampleClient 400
          "\x7b\"error\":\x7b\"name\":\"invalid_parameter\",\"message\":\"Invalid market\"\x7d\x7d")
        sampleEnv ["INVALID"] =
      .error (.api { Err := { Name := "invalid_parameter", Message := "Invalid market" } }) ∧
    (Error.api { Err := { Name := "invalid_parameter", Message := "Invalid market" } }).asAPIError =
      some { Err := { Name := "invalid_parameter", Message := "Invalid market" } } := by
  refine ⟨?_, ?_, ?_, ?_, ?_, ?_, ?_, ?_, ?_, ?_, ?_, ?_, ?_, ?_, ?_, ?_, ?_, ?_, ?_, ?_,
    ?_, ?_, ?_, ?_, ?_, ?_, ?_, ?_, ?_, ?_, ?teeth, ?api, ?test, rfl⟩
  case teeth =>
    rintro ⟨params, tail, h⟩
    have herr : doRequest (sampleClient 200 "")
        { sampleEnv with newRequestError := fun _ _ => some (.text "rejected") }
        MethodGet "/ticker" params false =
        .error (.wrap "failed to create request: " (.text "rejected")) := rfl
    exact Except.noConfusion ((h _ _).1 _ herr)
  case api =>
    intro c env a h
    refine ⟨?_, rfl⟩
    show decodeResult uTickers
      (doRequest c env MethodGet "/ticker" [("markets", [stringsJoin markets ","])] false) = _
    rw [h]
    rfl
  case test =>
    have h : doRequest
        (sampleClient 400
          "\x7b\"error\":\x7b\"name\":\"invalid_parameter\",\"message\":\"Invalid market\"\x7d\x7d")
        sampleEnv MethodGet "/ticker" (Values.Set [] "markets" (stringsJoin ["INVALID"] ","))
        false =
        .error (.api { Err := { Name := "invalid_parameter", Message := "Invalid market" } }) := by
      decide
    simp only [GetTicker, get, h]
    rfl
  all_goals first
    | exact returnsExecutorError_of_decodeResult fun _ _ => rfl
    | exact returnsExecutorError_of_candlesResult fun _ _ => rfl
    | exact returnsExecutorError_of_decodeResult fun c env =>
        cancelOrder_decodeResult uOrder c env uuid

/-! ## `GetMarkets` decodes the list of markets -/

theorem scan_market_head (elems : List JSON) (first : Bool) :
    ['{', '"', 'm', 'a', 'r', 'k', 'e', 't', '"', ':', '"'].foldl Scanner.next
        ⟨if first then .beginValueOrEmpty else .beginValue, [.arrayValue elems], none⟩ =
      ⟨.inString [], [.objectValue [] (some "market"), .arrayValue elems], none⟩ := by
  cases first <;> rfl

theorem scan_market_korean (elems : List JSON) (raw : List Char) :
    ['"', ',', '"', 'k', 'o', 'r', 'e', 'a', 'n', '_', 'n', 'a', 'm', 'e', '"', ':', '"'].foldl Scanner.next
        ⟨.inString raw, [.objectValue [] (some "market"), .arrayValue elems], none⟩ =
      ⟨.inString [], [.objectValue [("market", .str ⟨unquoteChars raw⟩)] (some "korean_name"),
        .arrayValue elems], none⟩ :=
  rfl

theorem scan_market_english (elems : List JSON) (raw : List Char) (v : JSON) :
    ['"', ',', '"', 'e', 'n', 'g', 'l', 'i', 's', 'h', '_', 'n', 'a', 'm', 'e', '"', ':', '"'].foldl Scanner.next
        ⟨.inString raw, [.objectValue [("market", v)] (some "korean_name"),
          .arrayValue elems], none⟩ =
      ⟨.inString [], [.objectValue [("market", v), ("korean_name", .str ⟨unquoteChars raw⟩)]
        (some "english_name"), .arrayValue elems], none⟩ :=
  rfl

theorem scan_market_close (elems : List JSON) (raw : List Char) (v w : JSON) :
    ['"', '}'].foldl Scanner.next
        ⟨.inString raw, [.objectValue [("market", v), ("korean_name", w)]
          (some "english_name"), .arrayValue elems], none⟩ =
      ⟨.endValue, [.arrayValue (elems ++ [.obj [("market", v), ("korean_name", w),
        ("english_name", .str ⟨unquoteChars raw⟩)]])], none⟩ :=
  rfl

theorem intercalate_go_data (sep : String) (rest : List String) (acc : String) :
    (String.intercalate.go acc sep rest).data =
      acc.data ++ rest.flatMap fun a => sep.data ++ a.data := by
  induction rest generalizing acc with
  | nil => simp [String.intercalate.go]
  | cons a rest ih => simp [String.intercalate.go, ih]

theorem marketText_data (m : String × String × String) :
    (marketText m).data =
      ['{', '"', 'm', 'a', 'r', 'k', 'e', 't', '"', ':', '"'] ++
        (escapeChars m.1.data ++
          (['"', ',', '"', 'k', 'o', 'r', 'e', 'a', 'n', '_', 'n', 'a', 'm', 'e', '"', ':',
              '"'] ++
            (escapeChars m.2.1.data ++
              (['"', ',', '"', 'e', 'n', 'g', 'l', 'i', 's', 'h', '_', 'n', 'a', 'm', 'e', '"',
                  ':', '"'] ++
                (escapeChars m.2.2.data ++ ['"', '}']))))) := by
  simp [marketText, jsonQuote]

theorem scan_market (elems : List JSON) (first : Bool) (m : String × String × String) :
    (marketText m).data.foldl Scanner.next
        ⟨if first then .beginValueOrEmpty else .beginValue, [.arrayValue elems], none⟩ =
      ⟨.endValue, [.arrayValue (elems ++ [marketDoc m])], none⟩ := by
  simp only [marketText_data, List.foldl_append, scan_market_head, scan_escapeChars,
    List.nil_append, scan_market_korean, scan_market_english, scan_market_close,
    unquoteChars_escapeChars, marketDoc]

theorem scan_comma (elems : List JSON) :
    Scanner.next ⟨.endValue, [.arrayValue elems], none⟩ ',' =
      ⟨.beginValue, [.arrayValue elems], none⟩ :=
  rfl

theorem scan_more_markets (rest : List (String × String × String)) (elems : List JSON) :
    (rest.flatMap fun x => ',' :: (marketText x).data).foldl Scanner.next
        ⟨.endValue, [.arrayValue elems], none⟩ =
      ⟨.endValue, [.arrayValue (elems ++ rest.map marketDoc)], none⟩ := by
  induction rest generalizing elems with
  | nil => simp
  | cons m rest ih =>
    rw [List.flatMap_cons, List.foldl_append, List.foldl_cons, scan_comma]
    have h := scan_market elems false m
    simp only [Bool.false_eq_true, if_false] at h
    rw [h, ih]
    simp

theorem scan_array_close (elems : List JSON) :
    (Scanner.next ⟨.endValue, [.arrayValue elems], none⟩ ']').eof = some (.arr elems) :=
  rfl

theorem jsonParse_marketsBody (ms : List (String × String × String)) :
    jsonParse (marketsBody ms) = some (.arr (ms.map marketDoc)) := by
  cases ms with
  | nil => rfl
  | cons m rest =>
    have hdata : (marketsBody (m :: rest)).data =
        '[' :: ((marketText m).data ++
          ((rest.flatMap fun x => ',' :: (marketText x).data) ++ [']'])) := by
      have hmap : ∀ l : List (String × String × String),
          ((l.map marketText).flatMap fun a => ',' :: a.data) =
            l.flatMap fun x => ',' :: (marketText x).data := by
        intro l
        induction l with
        | nil => rfl
        | cons x l ih => simp only [List.map_cons, List.flatMap_cons, ih]
      simp [marketsBody, String.intercalate, intercalate_go_data, hmap]
    have hopen : Scanner.next Scanner.init '[' =
        ⟨.beginValueOrEmpty, [.arrayValue []], none⟩ := rfl
    have h := scan_market [] true m
    simp only [if_true] at h
    rw [jsonParse, hdata, List.foldl_cons, hopen, List.foldl_append, h, List.foldl_append,
      scan_more_markets, List.foldl_cons, List.foldl_nil, scan_array_close]
    simp



theorem keyMatches_fold (f k : String) (hf : f.data.map foldKeyChar = f.data)
    (h : keyMatches f k = true) : k.data.map foldKeyChar = f.data := by
  unfold keyMatches at h
  simp only [Bool.or_eq_true, beq_iff_eq] at h
  rcases h with h | h
  · subst h
    exact hf
  · exact h

theorem keyMatches_disjoint (f g k : String) (hf : f.data.map foldKeyChar = f.data)
    (hg : g.data.map foldKeyChar = g.data) (hne : f.data ≠ g.data)
    (h : keyMatches f k = true) : keyMatches g k = false := by
  cases hgk : keyMatches g k with
  | false => rfl
  | true =>
    exact absurd ((keyMatches_fold f k hf h).symm.trans (keyMatches_fold g k hg hgk)) hne

theorem decodeMarket_cons (d d1 : Market) (kv : String × JSON) (rest : List (String × JSON))
    (h : decodeMarket d (.obj [kv]) = some d1) :
    decodeMarket d (.obj (kv :: rest)) = decodeMarket d1 (.obj rest) := by
  unfold decodeMarket at h ⊢
  simp only [List.foldl_cons, List.foldl_nil] at h ⊢
  rw [h]

theorem decodeMarket_member (m : String × String × String) (d : Market)
    (kv : String × JSON) (h : IsMarketMember m kv) :
    ∃ d1, decodeMarket d (.obj [kv]) = some d1 ∧
      d1.Market = (if keyMatches "market" kv.1 = true then m.1 else d.Market) ∧
      d1.KoreanName = (if keyMatches "korean_name" kv.1 = true then m.2.1 else d.KoreanName) ∧
      d1.EnglishName =
        (if keyMatches "english_name" kv.1 = true then m.2.2 else d.EnglishName) := by
  obtain ⟨h1, h2, h3, h4, h5⟩ := h
  have step : decodeMarket d (.obj [kv]) =
      if keyMatches "market" kv.1 then
        (decodeStringField d.Market kv.2).map fun x => { d with Market := x }
      else if keyMatches "korean_name" kv.1 then
        (decodeStringField d.KoreanName kv.2).map fun x => { d with KoreanName := x }
      else if keyMatches "english_name" kv.1 then
        (decodeStringField d.EnglishName kv.2).map fun x => { d with EnglishName := x }
      else if keyMatches "market_warning" kv.1 then
        (decodeStringField d.MarketWarning kv.2).map fun x => { d with MarketWarning := x }
      else if keyMatches "market_event" kv.1 then
        (decodePointer zeroMarketEvent decodeMarketEvent d.MarketEvent kv.2).map fun x =>
          { d with MarketEvent := x }
      else some d := rfl
  rw [step]
  by_cases c1 : keyMatches "market" kv.1 = true
  · have c2 := keyMatches_disjoint "market" "korean_name" kv.1 rfl rfl (by decide) c1
    have c3 := keyMatches_disjoint "market" "english_name" kv.1 rfl rfl (by decide) c1
    simp [c1, c2, c3, h1 c1, decodeStringField]
  by_cases c2 : keyMatches "korean_name" kv.1 = true
  · have c3 := keyMatches_disjoint "korean_name" "english_name" kv.1 rfl rfl (by decide) c2
    simp [c1, c2, c3, h2 c2, decodeStringField]
  by_cases c3 : keyMatches "english_name" kv.1 = true
  · simp [c1, c2, c3, h3 c3, decodeStringField]
  by_cases c4 : keyMatches "market_warning" kv.1 = true
  · obtain ⟨s, hs⟩ := h4 c4
    simp [c1, c2, c3, c4, hs, decodeStringField]
  by_cases c5 : keyMatches "market_event" kv.1 = true
  · have hsome := h5 c5 d.MarketEvent
    obtain ⟨e, he⟩ := Option.isSome_iff_exists.mp hsome
    simp [c1, c2, c3, c4, c5, he]
  · simp [c1, c2, c3, c4, c5]

theorem decodeMarket_members (m : String × String × String)
    (members : List (String × JSON)) (d : Market)
    (h : ∀ kv ∈ members, IsMarketMember m kv) :
    ∃ d1, decodeMarket d (.obj members) = some d1 ∧
      d1.Market =
        (if (members.any fun kv => keyMatches "market" kv.1) = true then m.1 else d.Market) ∧
      d1.KoreanName =
        (if (members.any fun kv => keyMatches "korean_name" kv.1) = true then m.2.1
          else d.KoreanName) ∧
      d1.EnglishName =
        (if (members.any fun kv => keyMatches "english_name" kv.1) = true then m.2.2
          else d.EnglishName) := by
  induction members generalizing d with
  | nil => exact ⟨d, rfl, by simp, by simp, by simp⟩
  | cons kv rest ih =>
    obtain ⟨d1, hd1, a1, a2, a3⟩ :=
      decodeMarket_member m d kv (h kv (List.mem_cons_self _ _))
    obtain ⟨d2, hd2, b1, b2, b3⟩ := ih d1 fun x hx => h x (List.mem_cons_of_mem _ hx)
    refine ⟨d2, (decodeMarket_cons d d1 kv rest hd1).trans hd2, ?_, ?_, ?_⟩
    · rw [b1, a1, List.any_cons]
      cases keyMatches "market" kv.1 <;>
        cases (rest.any fun kv => keyMatches "market" kv.1) <;> simp
    · rw [b2, a2, List.any_cons]
      cases keyMatches "korean_name" kv.1 <;>
        cases (rest.any fun kv => keyMatches "korean_name" kv.1) <;> simp
    · rw [b3, a3, List.any_cons]
      cases keyMatches "english_name" kv.1 <;>
        cases (rest.any fun kv => keyMatches "english_name" kv.1) <;> simp

theorem decodeMarket_marketObject (doc : JSON) (m : String × String × String)
    (h : IsMarketObject doc m) :
    ∃ r, decodeMarket zeroMarket doc = some r ∧ MarketNamed r m := by
  obtain ⟨members, rfl, ⟨k1, hk1, e1⟩, ⟨k2, hk2, e2⟩, ⟨k3, hk3, e3⟩, hall⟩ := h
  obtain ⟨r, hr, a1, a2, a3⟩ := decodeMarket_members m members zeroMarket hall
  refine ⟨r, hr, ?_, ?_, ?_⟩
  · rw [a1, if_pos (List.any_eq_true.mpr ⟨k1, hk1, e1⟩)]
  · rw [a2, if_pos (List.any_eq_true.mpr ⟨k2, hk2, e2⟩)]
  · rw [a3, if_pos (List.any_eq_true.mpr ⟨k3, hk3, e3⟩)]

theorem decodeElements_marketObjects (docs : List JSON)
    (ms : List (String × String × String)) (h : List.Forall₂ IsMarketObject docs ms) :
    ∃ rs, decodeElements (decodeMarket zeroMarket) docs = some rs ∧
      List.Forall₂ MarketNamed rs ms := by
  induction h with
  | nil => exact ⟨[], rfl, List.Forall₂.nil⟩
  | cons hd _ ih =>
    obtain ⟨r, hr, hn⟩ := decodeMarket_marketObject _ _ hd
    obtain ⟨rs, hrs, hns⟩ := ih
    exact ⟨r :: rs, by simp only [decodeElements, hr, hrs], List.Forall₂.cons hn hns⟩

theorem isMarketObject_marketDoc (m : String × String × String) :
    IsMarketObject (marketDoc m) m := by
  have no : ∀ (f k : String), keyMatches f k = false → ∀ {P : Prop},
      keyMatches f k = true → P := fun f k h _ h2 => absurd h2 (by simp [h])
  refine ⟨_, rfl, ⟨("market", .str m.1), List.mem_cons_self _ _, rfl⟩,
    ⟨("korean_name", .str m.2.1), List.mem_cons_of_mem _ (List.mem_cons_self _ _), rfl⟩,
    ⟨("english_name", .str m.2.2),
      List.mem_cons_of_mem _ (List.mem_cons_of_mem _ (List.mem_cons_self _ _)), rfl⟩,
    ?_⟩
  intro kv hkv
  simp only [List.mem_cons, List.mem_singleton, List.not_mem_nil, or_false] at hkv
  rcases hkv with rfl | rfl | rfl
  · exact ⟨fun _ => rfl, no "korean_name" "market" (by decide),
      no "english_name" "market" (by decide), no "market_warning" "market" (by decide),
      no "market_event" "market" (by decide)⟩
  · exact ⟨no "market" "korean_name" (by decide), fun _ => rfl,
      no "english_name" "korean_name" (by decide),
      no "market_warning" "korean_name" (by decide),
      no "market_event" "korean_name" (by decide)⟩
  · exact ⟨no "market" "english_name" (by decide), no "korean_name" "english_name" (by decide),
      fun _ => rfl, no "market_warning" "english_name" (by decide),
      no "market_event" "english_name" (by decide)⟩

theorem forall₂_marketDoc (ms : List (String × String × String)) :
    List.Forall₂ IsMarketObject (ms.map marketDoc) ms := by
  induction ms with
  | nil => exact List.Forall₂.nil
  | cons m rest ih => exact List.Forall₂.cons (isMarketObject_marketDoc m) ih

/-- C16: for every reply to `GetMarkets` with a status code below 400 (200 among them)
whose body is a JSON text of an array of market objects, `GetMarkets` returns no error
and a list of the same length in the same order, in which each element has `Market`,
`KoreanName` and `EnglishName` equal to the `market`, `korean_name` and `english_name`
strings of the object at the same place; and for every list `ms` of string triples
`marketsBody ms` is such a text. -/
theorem getMarkets_decodes_each_object (c : Client) (env : Env) (isDetails : Bool)
    (resp : Response) (body : String) (docs : List JSON)
    (ms : List (String × String × String))
    (hnew : ∀ u, env.newRequestError MethodGet u = none)
    (hdo : ∀ req, c.httpClient.Do req = .ok resp)
    (hs : resp.StatusCode < 400)
    (hb : resp.Body = .ok body)
    (hdoc : jsonParse body = some (.arr docs))
    (hobj : List.Forall₂ IsMarketObject docs ms) :
    (∃ rs, GetMarkets c env isDetails = .ok rs ∧ rs.length = ms.length ∧
      List.Forall₂ MarketNamed rs ms) ∧
    jsonParse (marketsBody ms) = some (.arr (ms.map marketDoc)) ∧
    List.Forall₂ IsMarketObject (ms.map marketDoc) ms := by
  refine ⟨?_, jsonParse_marketsBody ms, forall₂_marketDoc ms⟩
  obtain ⟨rs, hrs, hn⟩ := decodeElements_marketObjects docs ms hobj
  refine ⟨rs, ?_, hn.length_eq, hn⟩
  have hget : ∀ (e : String) (p : Values), get c env e p false = .ok body := by
    intro e p
    rw [get, doRequest_of_reply c env MethodGet e p false resp (hnew _) (fun r _ => hdo r)]
    have : ¬ resp.StatusCode ≥ 400 := by omega
    simp only [doRequestFinish, hb, this, if_false]
  simp only [GetMarkets, hget, decodeResult, jsonUnmarshalMarkets, hdoc, hrs]

theorem getMarkets_decodes_each_object_witness :
    ∃ rs,
      GetMarkets
          (sampleClient 200
            "[\x7b\"market\":\"KRW-BTC\",\"korean_name\":\"비트코인\",\"english_name\":\"Bitcoin\"\x7d]")
          sampleEnv false = .ok rs ∧
        rs.length = 1 ∧ List.Forall₂ MarketNamed rs [("KRW-BTC", "비트코인", "Bitcoin")] :=
  (getMarkets_decodes_each_object
    (sampleClient 200
      "[\x7b\"market\":\"KRW-BTC\",\"korean_name\":\"비트코인\",\"english_name\":\"Bitcoin\"\x7d]")
    sampleEnv false
    { StatusCode := 200,
      Body := .ok
        "[\x7b\"market\":\"KRW-BTC\",\"korean_name\":\"비트코인\",\"english_name\":\"Bitcoin\"\x7d]" }
    "[\x7b\"market\":\"KRW-BTC\",\"korean_name\":\"비트코인\",\"english_name\":\"Bitcoin\"\x7d]"
    [marketDoc ("KRW-BTC", "비트코인", "Bitcoin")]
    [("KRW-BTC", "비트코인", "Bitcoin")]
    (fun _ => rfl) (fun _ => rfl) (by decide) rfl rfl
    (List.Forall₂.cons (isMarketObject_marketDoc _) List.Forall₂.nil)).1

/-! ## The other list calls keep the server's order -/

theorem doRequest_ok_of_reply (c : Client) (env : Env) (resp : Response) (body : String)
    (hnew : ∀ m u, env.newRequestError m u = none)
    (hdo : ∀ req, c.httpClient.Do req = .ok resp)
    (hs : resp.StatusCode < 400)
    (hb : resp.Body = .ok body)
    (method endpoint : String) (params : Values) (authenticated : Bool) :
    doRequest c env method endpoint params authenticated = .ok body := by
  rw [doRequest_of_reply c env method endpoint params authenticated resp (hnew _ _)
    (fun r _ => hdo r)]
  have : ¬ resp.StatusCode ≥ 400 := by omega
  simp only [doRequestFinish, hb, this, if_false]

theorem decodeElements_of_decodesTo (decode : JSON → Option α) (docs : List JSON)
    (L : List α) (h : DecodesTo decode docs L) : decodeElements decode docs = some L := by
  induction h with
  | nil => rfl
  | cons hd _ ih => simp only [decodeElements, hd, ih]

theorem decodeResult_slice (decode : JSON → Option α) (body : String) (docs : List JSON)
    (L : List α) (hdoc : jsonParse body = some (.arr docs)) (h : DecodesTo decode docs L) :
    decodeResult (jsonUnmarshalSlice decode) (.ok body) = .ok L := by
  simp only [decodeResult, jsonUnmarshalSlice, hdoc, decodeElements_of_decodesTo decode docs L h]

theorem jsonUnmarshalMarkets_eq :
    jsonUnmarshalMarkets = jsonUnmarshalSlice (decodeMarket zeroMarket) := by
  funext data
  unfold jsonUnmarshalMarkets jsonUnmarshalSlice
  cases jsonParse data with
  | none => rfl
  | some doc =>
    cases doc with
    | arr elems =>
      dsimp only
      cases decodeElements (decodeMarket zeroMarket) elems <;> rfl
    | _ => rfl

/-- C21: the thirteen list calls other than the candle calls do not reorder. Whenever
the server answers with a status code below 400 and a body that is a JSON array `docs`
whose elements decode, in order, to the list `L`, each of `GetMarkets`, `GetTicker`,
`GetAllTickers`, `GetOrderbook`, `GetTrades`, `GetAccounts`, `GetOrders`,
`GetClosedOrders`, `GetWithdraws`, `GetDeposits`, `GetDepositAddresses`,
`GetWalletStatus` and `GetAPIKeys` returns `L` itself: element `i` of the result is the
decoded element `i` of the array. (`json.Unmarshal` into a slice is
`jsonUnmarshalSlice` of the element decoder.) -/
theorem other_list_calls_keep_order (c : Client) (env : Env) (resp : Response)
    (body : String) (docs : List JSON)
    (hnew : ∀ m u, env.newRequestError m u = none)
    (hdo : ∀ req, c.httpClient.Do req = .ok resp)
    (hs : resp.StatusCode < 400)
    (hb : resp.Body = .ok body)
    (hdoc : jsonParse body = some (.arr docs)) :
    (∀ (L : List Market) (isDetails : Bool), DecodesTo (decodeMarket zeroMarket) docs L →
      GetMarkets c env isDetails = .ok L) ∧
    (∀ (decode : JSON → Option Ticker) (L : List Ticker) (markets : List String),
      DecodesTo decode docs L →
      GetTicker (jsonUnmarshalSlice decode) c env markets = .ok L) ∧
    (∀ (decode : JSON → Option Ticker) (L : List Ticker) (quoteCurrencies : List String),
      DecodesTo decode docs L →
      GetAllTickers (jsonUnmarshalSlice decode) c env quoteCurrencies = .ok L) ∧
    (∀ (decode : JSON → Option Orderbook) (L : List Orderbook) (markets : List String)
      (level : Int), DecodesTo decode docs L →
      GetOrderbook (jsonUnmarshalSlice decode) c env markets level = .ok L) ∧
    (∀ (decode : JSON → Option Trade) (L : List Trade) (market to_ cursor : String)
      (count daysAgo : Int), DecodesTo decode docs L →
      GetTrades (jsonUnmarshalSlice decode) c env market to_ count cursor daysAgo = .ok L) ∧
    (∀ (decode : JSON → Option Account) (L : List Account), DecodesTo decode docs L →
      GetAccounts (jsonUnmarshalSlice decode) c env = .ok L) ∧
    (∀ (decode : JSON → Option Order) (L : List Order) (req : Option GetOrdersRequest),
      DecodesTo decode docs L →
      GetOrders (jsonUnmarshalSlice decode) c env req = .ok L) ∧
    (∀ (decode : JSON → Option Order) (L : List Order) (market startTime endTime : String)
      (states : List OrderState) (limit : Int) (orderBy : String),
      DecodesTo decode docs L →
      GetClosedOrders (jsonUnmarshalSlice decode) c env market states startTime endTime limit
        orderBy = .ok L) ∧
    (∀ (decode : JSON → Option Withdraw) (L : List Withdraw) (currency state : String)
      (uuids txids : List String) (limit page : Int) (orderBy : String),
      DecodesTo decode docs L →
      GetWithdraws (jsonUnmarshalSlice decode) c env currency state uuids txids limit page
        orderBy = .ok L) ∧
    (∀ (decode : JSON → Option Deposit) (L : List Deposit) (currency state : String)
      (uuids txids : List String) (limit page : Int) (orderBy : String),
      DecodesTo decode docs L →
      GetDeposits (jsonUnmarshalSlice decode) c env currency state uuids txids limit page
        orderBy = .ok L) ∧
    (∀ (decode : JSON → Option DepositAddress) (L : List DepositAddress),
      DecodesTo decode docs L →
      GetDepositAddresses (jsonUnmarshalSlice decode) c env = .ok L) ∧
    (∀ (decode : JSON → Option WalletStatus) (L : List WalletStatus),
      DecodesTo decode docs L →
      GetWalletStatus (jsonUnmarshalSlice decode) c env = .ok L) ∧
    (∀ (decode : JSON → Option APIKey) (L : List APIKey), DecodesTo decode docs L →
      GetAPIKeys (jsonUnmarshalSlice decode) c env = .ok L) := by
  have hreq := doRequest_ok_of_reply c env resp body hnew hdo hs hb
  refine ⟨?_, ?_, ?_, ?_, ?_, ?_, ?_, ?_, ?_, ?_, ?_, ?_, ?_⟩
  · intro L isDetails h
    simp only [GetMarkets, get, hreq, jsonUnmarshalMarkets_eq,
      decodeResult_slice _ body docs L hdoc h]
  · intro decode L markets h
    simp only [GetTicker, get, hreq, decodeResult_slice decode body docs L hdoc h]
  · intro decode L quoteCurrencies h
    simp only [GetAllTickers, get, hreq, decodeResult_slice decode body docs L hdoc h]
  · intro decode L markets level h
    simp only [GetOrderbook, get, hreq, decodeResult_slice decode body docs L hdoc h]
  · intro decode L market to_ cursor count daysAgo h
    simp only [GetTrades, get, hreq, decodeResult_slice decode body docs L hdoc h]
  · intro decode L h
    simp only [GetAccounts, get, hreq, decodeResult_slice decode body docs L hdoc h]
  · intro decode L req h
    simp only [GetOrders, get, hreq, decodeResult_slice decode body docs L hdoc h]
  · intro decode L market startTime endTime states limit orderBy h
    simp only [GetClosedOrders, get, hreq, decodeResult_slice decode body docs L hdoc h]
  · intro decode L currency state uuids txids limit page orderBy h
    simp only [GetWithdraws, get, hreq, decodeResult_slice decode body docs L hdoc h]
  · intro decode L currency state uuids txids limit page orderBy h
    simp only [GetDeposits, get, hreq, decodeResult_slice decode body docs L hdoc h]
  · intro decode L h
    simp only [GetDepositAddresses, get, hreq, decodeResult_slice decode body docs L hdoc h]
  · intro decode L h
    simp only [GetWalletStatus, get, hreq, decodeResult_slice decode body docs L hdoc h]
  · intro decode L h
    simp only [GetAPIKeys, get, hreq, decodeResult_slice decode body docs L hdoc h]

theorem other_list_calls_keep_order_witness :
    GetMarkets
        (sampleClient 200
          "[\x7b\"market\":\"KRW-BTC\"\x7d,\x7b\"market\":\"KRW-ETH\"\x7d,\x7b\"market\":\"KRW-XRP\"\x7d]")
        sampleEnv true =
      .ok [{ zeroMarket with Market := "KRW-BTC" }, { zeroMarket with Market := "KRW-ETH" },
        { zeroMarket with Market := "KRW-XRP" }] :=
  (other_list_calls_keep_order
    (sampleClient 200
      "[\x7b\"market\":\"KRW-BTC\"\x7d,\x7b\"market\":\"KRW-ETH\"\x7d,\x7b\"market\":\"KRW-XRP\"\x7d]")
    sampleEnv
    { StatusCode := 200,
      Body := .ok
        "[\x7b\"market\":\"KRW-BTC\"\x7d,\x7b\"market\":\"KRW-ETH\"\x7d,\x7b\"market\":\"KRW-XRP\"\x7d]" }
    "[\x7b\"market\":\"KRW-BTC\"\x7d,\x7b\"market\":\"KRW-ETH\"\x7d,\x7b\"market\":\"KRW-XRP\"\x7d]"
    [.obj [("market", .str "KRW-BTC")], .obj [("market", .str "KRW-ETH")],
      .obj [("market", .str "KRW-XRP")]]
    (fun _ _ => rfl) (fun _ => rfl) (by decide) rfl rfl).1
    [{ zeroMarket with Market := "KRW-BTC" }, { zeroMarket with Market := "KRW-ETH" },
      { zeroMarket with Market := "KRW-XRP" }]
    true
    (List.Forall₂.cons rfl (List.Forall₂.cons rfl (List.Forall₂.cons rfl List.Forall₂.nil)))

/-! ## The parameters of `PlaceOrder` -/

/-- C22: for every `PlaceOrderRequest` `r` there is one parameter mapping that
`PlaceOrder` hands to the executor with `POST /orders`, whatever the client, the
environment and the decoder are, and its encoding is the body of the request. In it
`market`, `side` and `ord_type` hold `r.Market`, `r.Side` and `r.OrdType` as they are
(`OrderSideBid` is the string `bid`, `OrderTypeLimit` the string `limit`); each of
`volume`, `price`, `identifier` and `time_in_force` is a key exactly when the field of
`r` is not empty, and then holds the field as it is; there is no other key. -/
theorem placeOrder_parameters (r : PlaceOrderRequest) :
    ∃ params : Values,
      (∀ (unmarshal : String → Except Error Order) (c : Client) (env : Env),
        PlaceOrder unmarshal c env r =
          decodeResult unmarshal (doRequest c env MethodPost "/orders" params true)) ∧
      (∀ c : Client, doRequestTarget c MethodPost "/orders" params =
        (c.baseURL ++ "/orders", some (Values.Encode params))) ∧
      Values.lookup params "market" = [r.Market] ∧
      Values.lookup params "side" = [r.Side] ∧
      Values.lookup params "ord_type" = [r.OrdType] ∧
      OrderSideBid = "bid" ∧ OrderTypeLimit = "limit" ∧
      ("volume" ∈ Values.keys params ↔ r.Volume ≠ "") ∧
      (r.Volume ≠ "" → Values.lookup params "volume" = [r.Volume]) ∧
      ("price" ∈ Values.keys params ↔ r.Price ≠ "") ∧
      (r.Price ≠ "" → Values.lookup params "price" = [r.Price]) ∧
      ("identifier" ∈ Values.keys params ↔ r.Identifier ≠ "") ∧
      (r.Identifier ≠ "" → Values.lookup params "identifier" = [r.Identifier]) ∧
      ("time_in_force" ∈ Values.keys params ↔ r.TimeInForce ≠ "") ∧
      (r.TimeInForce ≠ "" → Values.lookup params "time_in_force" = [r.TimeInForce]) ∧
      ∀ k ∈ Values.keys params,
        k ∈ ["market", "side", "ord_type", "volume", "price", "identifier",
          "time_in_force"] := by
  refine ⟨_, fun unmarshal c env => rfl, ?_⟩
  by_cases h1 : r.Volume = "" <;> by_cases h2 : r.Price = "" <;>
    by_cases h3 : r.Identifier = "" <;> by_cases h4 : r.TimeInForce = "" <;>
    simp [h1, h2, h3, h4, Values.Set, Values.lookup, Values.keys, Values.len, OrderSideBid,
      OrderTypeLimit, doRequestTarget, MethodPost, MethodGet]

/-! ## `Encode` is the canonical encoding -/

theorem encodePair_eq (keyEscaped buf value : String) :
    Values.encodePair keyEscaped buf value =
      (if buf.length > 0 then buf ++ "&" else buf) ++
        (keyEscaped ++ "=" ++ QueryEscape value) := by
  simp only [Values.encodePair, String.append_assoc]

theorem encode_fold_pairs (v : Values) (ks : List String) (buf : String) :
    ks.foldl (fun buf k => (Values.lookup v k).foldl (Values.encodePair (QueryEscape k)) buf)
        buf =
      (ks.flatMap fun k =>
          (Values.lookup v k).map fun x => QueryEscape k ++ "=" ++ QueryEscape x).foldl
        (fun buf p => (if buf.length > 0 then buf ++ "&" else buf) ++ p) buf := by
  induction ks generalizing buf with
  | nil => rfl
  | cons k ks ih =>
    have hpair : Values.encodePair (QueryEscape k) = fun buf x =>
        (if buf.length > 0 then buf ++ "&" else buf) ++
          (QueryEscape k ++ "=" ++ QueryEscape x) := by
      funext buf x
      exact encodePair_eq _ _ _
    rw [List.foldl_cons, ih, List.flatMap_cons, List.foldl_append, List.foldl_map, hpair]

theorem join_fold_go (ps : List String) (acc : String) (hacc : acc.length > 0) :
    ps.foldl (fun buf p => (if buf.length > 0 then buf ++ "&" else buf) ++ p) acc =
      String.intercalate.go acc "&" ps := by
  induction ps generalizing acc with
  | nil => rfl
  | cons p ps ih =>
    rw [List.foldl_cons, String.intercalate.go, if_pos hacc]
    apply ih
    simp only [String.length_append]
    omega

theorem join_fold (ps : List String) (h : ∀ p ∈ ps, p.length > 0) :
    ps.foldl (fun buf p => (if buf.length > 0 then buf ++ "&" else buf) ++ p) "" =
      "&".intercalate ps := by
  cases ps with
  | nil => rfl
  | cons p ps =>
    have hp := h p (List.mem_cons_self _ _)
    rw [List.foldl_cons, String.intercalate]
    have h0 : ((if "".length > 0 then "" ++ "&" else "") ++ p) = p := by
      simp
    rw [h0]
    exact join_fold_go ps p hp

theorem pairs_nonempty (v : Values) : ∀ p ∈ Values.pairs v, p.length > 0 := by
  intro p hp
  simp only [Values.pairs, Values.pairsOf, List.mem_flatMap, List.mem_map] at hp
  obtain ⟨k, -, x, -, rfl⟩ := hp
  simp only [String.length_append]
  have : "=".length = 1 := rfl
  omega

theorem encode_eq_join (v : Values) : Values.Encode v = "&".intercalate (Values.pairs v) := by
  unfold Values.Encode
  by_cases h : Values.len v = 0
  · have hk : Values.keys v = [] := List.length_eq_zero.mp h
    simp [h, Values.pairs, Values.pairsOf, Values.sortedKeys, hk, String.intercalate]
  · rw [if_neg h, encode_fold_pairs v (Values.sortedKeys v) ""]
    exact join_fold (Values.pairs v) (pairs_nonempty v)

/-! ## The order of the keys -/

theorem bytesLE_total (a b : List Nat) : bytesLE a b = true ∨ bytesLE b a = true := by
  induction a generalizing b with
  | nil => exact Or.inl rfl
  | cons x a ih =>
    cases b with
    | nil => exact Or.inr rfl
    | cons y b =>
      simp only [bytesLE]
      rcases Nat.lt_trichotomy x y with h | h | h
      · simp [h]
      · subst h
        simpa using ih b
      · simp [h]

theorem bytesLE_trans (a b c : List Nat) (hab : bytesLE a b = true)
    (hbc : bytesLE b c = true) : bytesLE a c = true := by
  induction a generalizing b c with
  | nil => rfl
  | cons x a ih =>
    cases b with
    | nil => simp [bytesLE] at hab
    | cons y b =>
      cases c with
      | nil => simp [bytesLE] at hbc
      | cons z c =>
        simp only [bytesLE] at hab hbc ⊢
        by_cases hxy : x < y
        · by_cases hyz : y < z
          · have : x < z := by omega
            simp [this]
          · by_cases hzy : z < y
            · simp [hyz, hzy] at hbc
            · have : x < z := by omega
              simp [this]
        · by_cases hyx : y < x
          · simp [hxy, hyx] at hab
          · simp only [hxy, hyx, if_false] at hab
            have hxy2 : x = y := by omega
            subst hxy2
            by_cases hyz : x < z
            · simp [hyz]
            · by_cases hzy : z < x
              · simp [hyz, hzy] at hbc
              · simp only [hyz, hzy, if_false] at hbc ⊢
                exact ih b c hab hbc

theorem bytesLE_antisymm (a b : List Nat) (hab : bytesLE a b = true)
    (hba : bytesLE b a = true) : a = b := by
  induction a generalizing b with
  | nil =>
    cases b with
    | nil => rfl
    | cons y b => simp [bytesLE] at hba
  | cons x a ih =>
    cases b with
    | nil => simp [bytesLE] at hab
    | cons y b =>
      simp only [bytesLE] at hab hba
      by_cases hxy : x < y
      · have : ¬ y < x := by omega
        simp [hxy, this] at hba
      · by_cases hyx : y < x
        · simp [hxy, hyx] at hab
        · simp only [hxy, hyx, if_false] at hab hba
          have hxy2 : x = y := by omega
          rw [hxy2, ih b hab hba]

theorem utf8EncodeChar_prefix (c d : Char) (s t : List Nat)
    (h : utf8EncodeChar c ++ s = utf8EncodeChar d ++ t) : c = d ∧ s = t := by
  have hc : c.toNat < 0x110000 := by
    have := c.valid
    rcases this with h1 | ⟨-, h2⟩
    · exact Nat.lt_trans h1 (by decide)
    · exact h2
  have hd : d.toNat < 0x110000 := by
    have := d.valid
    rcases this with h1 | ⟨-, h2⟩
    · exact Nat.lt_trans h1 (by decide)
    · exact h2
  have key : c.toNat = d.toNat ∧ s = t := by
    unfold utf8EncodeChar at h
    simp only at h
    split_ifs at h <;>
      simp only [List.cons_append, List.nil_append, List.cons.injEq] at h <;>
      first
        | (exfalso; omega)
        | (refine ⟨by omega, ?_⟩; simp only [h])
  exact ⟨(char_eq_of_toNat c d.toNat key.1).symm.trans (Char.ofNat_toNat d), key.2⟩

theorem utf8EncodeChar_ne_nil (c : Char) : utf8EncodeChar c ≠ [] := by
  unfold utf8EncodeChar
  simp only
  split_ifs <;> simp

theorem flatMap_utf8_injective (s t : List Char)
    (h : s.flatMap utf8EncodeChar = t.flatMap utf8EncodeChar) : s = t := by
  induction s generalizing t with
  | nil =>
    cases t with
    | nil => rfl
    | cons d t =>
      simp only [List.flatMap_nil, List.flatMap_cons] at h
      exact absurd (List.append_eq_nil.mp h.symm).1 (utf8EncodeChar_ne_nil d)
  | cons c s ih =>
    cases t with
    | nil =>
      simp only [List.flatMap_nil, List.flatMap_cons] at h
      exact absurd (List.append_eq_nil.mp h).1 (utf8EncodeChar_ne_nil c)
    | cons d t =>
      simp only [List.flatMap_cons] at h
      obtain ⟨hcd, hst⟩ := utf8EncodeChar_prefix c d _ _ h
      rw [hcd, ih t hst]

theorem utf8Bytes_injective (a b : String) (h : utf8Bytes a = utf8Bytes b) : a = b :=
  String.ext (flatMap_utf8_injective a.data b.data h)

theorem strLE_total (a b : String) : strLE a b ∨ strLE b a :=
  bytesLE_total _ _

theorem strLE_trans (a b c : String) (hab : strLE a b) (hbc : strLE b c) : strLE a c :=
  bytesLE_trans _ _ _ hab hbc

theorem strLE_antisymm (a b : String) (hab : strLE a b) (hba : strLE b a) : a = b :=
  utf8Bytes_injective a b (bytesLE_antisymm _ _ hab hba)

theorem sortedKeys_sorted (v : Values) : (Values.sortedKeys v).Sorted strLE := by
  haveI : IsTotal String strLE := ⟨strLE_total⟩
  haveI : IsTrans String strLE := ⟨strLE_trans⟩
  exact List.sorted_insertionSort strLE _

theorem sortedKeys_perm (v : Values) : (Values.sortedKeys v).Perm (Values.keys v) :=
  List.perm_insertionSort strLE _

theorem mem_sortedKeys (v : Values) (k : String) :
    k ∈ Values.sortedKeys v ↔ k ∈ Values.keys v :=
  (sortedKeys_perm v).mem_iff

theorem sortedKeys_nodup (v : Values) : (Values.sortedKeys v).Nodup :=
  (sortedKeys_perm v).nodup_iff.mpr (List.nodup_dedup _)

theorem sortedKeys_congr (v w : Values)
    (hk : ∀ k, k ∈ Values.keys v ↔ k ∈ Values.keys w) :
    Values.sortedKeys v = Values.sortedKeys w := by
  haveI : IsAntisymm String strLE := ⟨strLE_antisymm⟩
  have hperm : (Values.keys v).Perm (Values.keys w) :=
    (List.perm_ext_iff_of_nodup (List.nodup_dedup _) (List.nodup_dedup _)).mpr hk
  exact List.eq_of_perm_of_sorted
    (((sortedKeys_perm v).trans hperm).trans (sortedKeys_perm w).symm)
    (sortedKeys_sorted v) (sortedKeys_sorted w)

theorem len_congr (v w : Values) (hk : ∀ k, k ∈ Values.keys v ↔ k ∈ Values.keys w) :
    Values.len v = Values.len w :=
  ((List.perm_ext_iff_of_nodup (List.nodup_dedup _) (List.nodup_dedup _)).mpr hk).length_eq

theorem pairs_congr (v w : Values) (hk : ∀ k, k ∈ Values.keys v ↔ k ∈ Values.keys w)
    (hl : ∀ k, Values.lookup v k = Values.lookup w k) : Values.pairs v = Values.pairs w := by
  simp only [Values.pairs, Values.pairsOf, sortedKeys_congr v w hk, hl]

/-! ## `Set`, `Add` and the values of a key -/

theorem lookup_nil (k : String) : Values.lookup [] k = [] := rfl

theorem lookup_cons (kv : String × List String) (u : Values) (k : String) :
    Values.lookup (kv :: u) k = if kv.1 = k then kv.2 else Values.lookup u k := by
  unfold Values.lookup
  by_cases h : kv.1 = k
  · simp [List.find?_cons, h]
  · have hb : (kv.1 == k) = false := beq_false_of_ne h
    simp only [List.find?_cons, hb, h, if_false]

theorem lookup_map_update (u : Values) (k k' : String) (ys : List String) :
    Values.lookup (u.map fun kv => if kv.1 == k then (k, ys) else kv) k' =
      if k' = k then (if u.any (fun kv => kv.1 == k) then ys else [])
      else Values.lookup u k' := by
  induction u with
  | nil => simp [lookup_nil]
  | cons kv u ih =>
    rw [List.map_cons, lookup_cons, lookup_cons, ih, List.any_cons]
    by_cases h1 : kv.1 = k
    · by_cases h2 : k' = k
      · simp [h1, h2]
      · have h3 : ¬ k = k' := fun h => h2 h.symm
        simp [h1, h2, h3]
    · have hb : (kv.1 == k) = false := beq_false_of_ne h1
      simp only [hb, Bool.false_or, Bool.false_eq_true, if_false]
      by_cases h2 : k' = k
      · have h3 : ¬ kv.1 = k' := fun h => h1 (h.trans h2)
        simp [h2, h3, h1]
      · simp [h2]

theorem lookup_append_new (u : Values) (k k' : String) (ys : List String)
    (h : u.any (fun kv => kv.1 == k) = false) :
    Values.lookup (u ++ [(k, ys)]) k' = if k' = k then ys else Values.lookup u k' := by
  induction u with
  | nil =>
    rw [List.nil_append, lookup_cons, lookup_nil]
    by_cases h2 : k' = k
    · simp [h2]
    · have h3 : ¬ k = k' := fun h => h2 h.symm
      simp [h2, h3]
  | cons kv u ih =>
    simp only [List.any_cons, Bool.or_eq_false_iff, beq_eq_false_iff_ne, ne_eq] at h
    rw [List.cons_append, lookup_cons, lookup_cons, ih h.2]
    by_cases h3 : kv.1 = k'
    · have h2 : ¬ k' = k := fun e => h.1 (h3.trans e)
      simp [h3, h2]
    · simp [h3]

theorem lookup_set (u : Values) (k k' x : String) :
    Values.lookup (Values.Set u k x) k' = if k' = k then [x] else Values.lookup u k' := by
  unfold Values.Set
  cases h : u.any (fun kv => kv.1 == k)
  · simp only [Bool.false_eq_true, if_false]
    exact lookup_append_new u k k' [x] h
  · simp only [if_true]
    rw [lookup_map_update, h]
    simp

theorem lookup_of_not_any (u : Values) (k : String)
    (h : u.any (fun kv => kv.1 == k) = false) : Values.lookup u k = [] := by
  unfold Values.lookup
  have : u.find? (fun kv => kv.1 == k) = none := by
    rw [List.find?_eq_none]
    intro kv hkv hk
    have : u.any (fun kv => kv.1 == k) = true := List.any_eq_true.mpr ⟨kv, hkv, hk⟩
    rw [h] at this
    exact Bool.false_ne_true this
  rw [this]

theorem lookup_add (u : Values) (k k' x : String) :
    Values.lookup (Values.Add u k x) k' =
      if k' = k then Values.lookup u k ++ [x] else Values.lookup u k' := by
  unfold Values.Add
  cases h : u.any (fun kv => kv.1 == k)
  · simp only [Bool.false_eq_true, if_false]
    rw [lookup_append_new u k k' [x] h, lookup_of_not_any u k h]
    rfl
  · simp only [if_true]
    rw [lookup_map_update, h]
    simp

theorem lookup_foldl_add (xs : List String) (u : Values) (k k' : String) :
    Values.lookup (xs.foldl (fun params x => Values.Add params k x) u) k' =
      if k' = k then Values.lookup u k ++ xs else Values.lookup u k' := by
  induction xs generalizing u with
  | nil => by_cases h : k' = k <;> simp [h]
  | cons x xs ih =>
    rw [List.foldl_cons, ih, lookup_add, lookup_add]
    by_cases h : k' = k <;> simp [h]

theorem mem_keys_of_lookup (v : Values) (k : String) (h : Values.lookup v k ≠ []) :
    k ∈ Values.keys v := by
  unfold Values.lookup at h
  cases hf : v.find? (fun kv => kv.1 == k) with
  | none => simp [hf] at h
  | some kv =>
    have hmem := List.mem_of_find?_eq_some hf
    have hk := List.find?_some hf
    simp only [beq_iff_eq] at hk
    simp only [Values.keys, List.mem_dedup, List.mem_map]
    exact ⟨kv, hmem, hk⟩

theorem encodesRepeated_of_lookup (v : Values) (k : String) (h : Values.lookup v k ≠ []) :
    Values.EncodesRepeated v k (Values.lookup v k) := by
  have hmem : k ∈ Values.sortedKeys v := (mem_sortedKeys v k).mpr (mem_keys_of_lookup v k h)
  obtain ⟨before, after, hsplit⟩ := List.append_of_mem hmem
  have hnd := sortedKeys_nodup v
  rw [hsplit] at hnd
  have h1 : k ∉ before := fun hb => by
    have := (List.nodup_append.mp hnd).2.2
    exact this hb (List.mem_cons_self _ _)
  have h2 : k ∉ after := (List.nodup_cons.mp (List.nodup_append.mp hnd).2.1).1
  refine ⟨before, after, hsplit, h1, h2, ?_⟩
  rw [encode_eq_join, Values.pairs, hsplit]
  simp [Values.pairsOf]

/-! ## The repeated keys of `GetOrders` -/

theorem ite_length_foldl (xs : List String) (f : Values → String → Values) (p : Values) :
    (if xs.length > 0 then xs.foldl f p else p) = xs.foldl f p := by
  cases xs <;> simp

theorem lookup_ite_set (cond : Prop) [Decidable cond] (p : Values) (k k' x : String) :
    Values.lookup (if cond then Values.Set p k x else p) k' =
      if cond ∧ k' = k then [x] else Values.lookup p k' := by
  by_cases h : cond
  · simp only [h, if_true, lookup_set, true_and]
  · simp only [h, if_false, false_and]

/-- C23: for every `GetOrdersRequest` there is one parameter mapping that `GetOrders`
hands to the executor with `GET /orders`, and in it `uuids[]` holds the list `UUIDs`,
`identifiers[]` the list `Identifiers` and `states[]` the list `States`, element by
element in list order. When such a list is not empty, the encoded query holds the key
(percent-encoded: `uuids%5B%5D`, `identifiers%5B%5D`, `states%5B%5D`) in exactly one
pair `key=value` per element, in list order, next to each other and joined by `&` with
the pairs of the other keys. `GetOrders(nil)` hands over the empty mapping, for which
the URL has no query and the request no body. -/
theorem getOrders_repeats_keys (req : GetOrdersRequest) :
    ∃ params : Values,
      (∀ (unmarshal : String → Except Error (List Order)) (c : Client) (env : Env),
        GetOrders unmarshal c env (some req) =
          decodeResult unmarshal (doRequest c env MethodGet "/orders" params true)) ∧
      Values.lookup params "uuids[]" = req.UUIDs ∧
      Values.lookup params "identifiers[]" = req.Identifiers ∧
      Values.lookup params "states[]" = req.States ∧
      (req.UUIDs ≠ [] → Values.EncodesRepeated params "uuids[]" req.UUIDs) ∧
      (req.Identifiers ≠ [] →
        Values.EncodesRepeated params "identifiers[]" req.Identifiers) ∧
      (req.States ≠ [] → Values.EncodesRepeated params "states[]" req.States) ∧
      QueryEscape "uuids[]" = "uuids%5B%5D" ∧
      QueryEscape "identifiers[]" = "identifiers%5B%5D" ∧
      QueryEscape "states[]" = "states%5B%5D" ∧
      (∀ (unmarshal : String → Except Error (List Order)) (c : Client) (env : Env),
        GetOrders unmarshal c env none =
          decodeResult unmarshal (doRequest c env MethodGet "/orders" [] true)) ∧
      ∀ c : Client, doRequestTarget c MethodGet "/orders" [] = (c.baseURL ++ "/orders", none) := by
  have aux : ∀ {A B : Prop}, A → (A → B) → A ∧ B := fun a f => ⟨a, f a⟩
  refine ⟨_, fun _ _ _ => rfl, ?_⟩
  refine aux ?_ fun h1 => aux ?_ fun h2 => aux ?_ fun h3 => ?_
  · simp only [ite_length_foldl, lookup_ite_set, lookup_foldl_add, lookup_nil]
    simp
  · simp only [ite_length_foldl, lookup_ite_set, lookup_foldl_add, lookup_nil]
    simp
  · simp only [ite_length_foldl, lookup_ite_set, lookup_foldl_add, lookup_nil]
    simp
  · refine ⟨?_, ?_, ?_, by decide, by decide, by decide, fun _ _ _ => rfl, fun _ => rfl⟩
    · intro hne
      have := encodesRepeated_of_lookup _ "uuids[]" (by rw [h1]; exact hne)
      rwa [h1] at this
    · intro hne
      have := encodesRepeated_of_lookup _ "identifiers[]" (by rw [h2]; exact hne)
      rwa [h2] at this
    · intro hne
      have := encodesRepeated_of_lookup _ "states[]" (by rw [h3]; exact hne)
      rwa [h3] at this

/-! ## The `markets` parameter -/

/-- C24: for every list of market codes, `GetTicker` and `GetOrderbook` hand the
executor a mapping whose key `markets` holds one value, the codes joined by `,` in list
order, and that is the only key, except that `GetOrderbook` adds the key `level` (the
decimal number) exactly when `level > 0`; for the one-element list `KRW-BTC` the value
is `KRW-BTC` and the URL of the ticker request ends in `/ticker?markets=KRW-BTC`. -/
theorem ticker_and_orderbook_send_markets (markets : List String) (level : Int) :
    (∀ (unmarshal : String → Except Error (List Ticker)) (c : Client) (env : Env),
      GetTicker unmarshal c env markets =
        decodeResult unmarshal
          (doRequest c env MethodGet "/ticker" [("markets", [stringsJoin markets ","])]
            false)) ∧
    (∀ (unmarshal : String → Except Error (List Orderbook)) (c : Client) (env : Env),
      GetOrderbook unmarshal c env markets level =
        decodeResult unmarshal
          (doRequest c env MethodGet "/orderbook"
            (if level > 0 then
              [("markets", [stringsJoin markets ","]), ("level", [toString level])]
            else [("markets", [stringsJoin markets ","])])
            false)) ∧
    stringsJoin [] "," = "" ∧
    (∀ (m : String) (rest : List String),
      (stringsJoin (m :: rest) ",").data = m.data ++ rest.flatMap fun x => ',' :: x.data) ∧
    stringsJoin ["KRW-BTC"] "," = "KRW-BTC" ∧
    ∀ c : Client,
      doRequestTarget c MethodGet "/ticker" [("markets", [stringsJoin ["KRW-BTC"] ","])] =
        (c.baseURL ++ "/ticker?markets=KRW-BTC", none) := by
  refine ⟨fun _ _ _ => rfl, ?_, rfl, ?_, rfl, ?_⟩
  · intro unmarshal c env
    by_cases h : level > 0
    · simp only [GetOrderbook, h, if_true, get]
      rfl
    · simp only [GetOrderbook, h, if_false, get]
      rfl
  · intro m rest
    simp [stringsJoin, String.intercalate, intercalate_go_data]
  · intro c
    have h : Values.Encode [("markets", [stringsJoin ["KRW-BTC"] ","])] = "markets=KRW-BTC" := by
      decide
    have hl : Values.len [("markets", [stringsJoin ["KRW-BTC"] ","])] = 1 := by decide
    simp only [doRequestTarget, h, hl]
    simp only [MethodGet, Nat.lt_one_iff, and_self, if_true, gt_iff_lt, Nat.zero_lt_one,
      String.append_assoc]
    rfl

/-! ## The encoding does not depend on insertion order -/

/-- C25: the encoded text depends only on the mapping. For any two parameter mappings
with the same keys and the same value list under every key, however they were built by
`Set` and `Add`, `Encode` gives the same text, so the claim set and the token of
`generateToken` (with them the `query_hash`) and the URL and body of `doRequest` are the
same. The text is the `&`-join of the pairs `key=value` with the keys in ascending
order, each once, and under each key its values in stored order, which is insertion
order: `Add` appends to the values of its key, `Set` replaces them, and neither
changes another key. -/
theorem encoding_ignores_insertion_order (v w : Values)
    (hk : ∀ k, k ∈ Values.keys v ↔ k ∈ Values.keys w)
    (hl : ∀ k, Values.lookup v k = Values.lookup w k) :
    Values.Encode v = Values.Encode w ∧
    (∀ (c : Client) (env : Env), generateTokenClaims c env v = generateTokenClaims c env w) ∧
    (∀ (c : Client) (env : Env), generateToken c env v = generateToken c env w) ∧
    (∀ (c : Client) (method endpoint : String),
      doRequestTarget c method endpoint v = doRequestTarget c method endpoint w) ∧
    Values.Encode v = "&".intercalate (Values.pairs v) ∧
    (Values.sortedKeys v).Sorted strLE ∧
    (Values.sortedKeys v).Nodup ∧
    (∀ k, k ∈ Values.sortedKeys v ↔ k ∈ Values.keys v) ∧
    (∀ (u : Values) (k x k' : String),
      Values.lookup (Values.Add u k x) k' =
        if k' = k then Values.lookup u k ++ [x] else Values.lookup u k') ∧
    (∀ (u : Values) (k x k' : String),
      Values.lookup (Values.Set u k x) k' =
        if k' = k then [x] else Values.lookup u k') := by
  have henc : Values.Encode v = Values.Encode w := by
    rw [encode_eq_join, encode_eq_join, pairs_congr v w hk hl]
  have hlen := len_congr v w hk
  have hclaims : ∀ (c : Client) (env : Env),
      generateTokenClaims c env v = generateTokenClaims c env w := by
    intro c env
    simp only [generateTokenClaims, henc, hlen]
  refine ⟨henc, hclaims, ?_, ?_, encode_eq_join v, sortedKeys_sorted v, sortedKeys_nodup v,
    mem_sortedKeys v, fun u k x k' => lookup_add u k k' x, fun u k x k' => lookup_set u k k' x⟩
  · intro c env
    simp only [generateToken, hclaims]
  · intro c method endpoint
    simp only [doRequestTarget, henc, hlen]

theorem encoding_ignores_insertion_order_witness :
    Values.Encode
        (Values.Add (Values.Add (Values.Set [] "market" "KRW-BTC") "uuids[]" "a") "uuids[]" "b") =
      Values.Encode
        (Values.Add (Values.Set (Values.Add [] "uuids[]" "a") "market" "KRW-BTC") "uuids[]" "b") ∧
    Values.Encode
        (Values.Add (Values.Set (Values.Add [] "uuids[]" "a") "market" "KRW-BTC") "uuids[]" "b") =
      "market=KRW-BTC&uuids%5B%5D=a&uuids%5B%5D=b" :=
  ⟨(encoding_ignores_insertion_order
      (Values.Add (Values.Add (Values.Set [] "market" "KRW-BTC") "uuids[]" "a") "uuids[]" "b")
      (Values.Add (Values.Set (Values.Add [] "uuids[]" "a") "market" "KRW-BTC") "uuids[]" "b")
      (fun k => by
        show k ∈ ["market", "uuids[]"] ↔ k ∈ ["uuids[]", "market"]
        simp only [List.mem_cons, List.mem_singleton, List.not_mem_nil, or_false]
        exact or_comm)
      (fun k => by
        simp only [lookup_add, lookup_set, lookup_nil]
        by_cases h1 : k = "uuids[]" <;> by_cases h2 : k = "market" <;> simp [h1, h2])).1,
    by decide⟩

end Upbit
